import Mathlib

set_option maxHeartbeats 1000000

/-! Shallow embedding of the client-side message and thread state store
    reducers of the repository (global/reducers/messages.ts), together with
    proofs of specification properties about them.

    JS objects keyed by ids are modelled as association lists with
    first-match lookup; JS spread merges, single-key writes and key
    deletions are modelled by the operations below.  Helper functions of
    the repository that are not part of the given sources (iteratees,
    selectors, config constants) are modelled from the specification and
    are marked as such in their doc comments. -/

/-- First-match association-list lookup: the model of reading a key of a JS object. -/
def alookup {κ α : Type} [DecidableEq κ] : List (κ × α) → κ → Option α
  | [], _ => none
  | p :: rest, k => if p.1 = k then some p.2 else alookup rest k

/-- Single-key write: the model of writing one key of a JS object.  It
    replaces the first entry carrying the key and appends when the key is
    absent, mirroring how a spread with a computed key updates an object. -/
def aset {κ α : Type} [DecidableEq κ] : List (κ × α) → κ → α → List (κ × α)
  | [], k, v => [(k, v)]
  | p :: rest, k, v => if p.1 = k then (k, v) :: rest else p :: aset rest k v

/-- Right-biased-on-presence choice between two optional values: the value
    a later spread contributes for a field wins exactly when it is present. -/
def jsOr {α : Type} : Option α → Option α → Option α
  | some x, _ => some x
  | none, b => b

/-- Modelled from the spec: the omit iteratee, which drops the listed keys
    from an object and keeps everything else. -/
def jsOmit {κ α : Type} [DecidableEq κ] (m : List (κ × α)) (ks : List κ) : List (κ × α) :=
  m.filter (fun p => decide (p.1 ∉ ks))

/-- Two-object spread: all keys of both objects, values of the second
    object winning on keys present in both, key order as in JS. -/
def jsSpread {κ α : Type} [DecidableEq κ] (a b : List (κ × α)) : List (κ × α) :=
  (a.map (fun p => match alookup b p.1 with | some v => (p.1, v) | none => p))
    ++ b.filter (fun p => (alookup a p.1).isNone)

theorem alookup_aset_self {κ α : Type} [DecidableEq κ] (m : List (κ × α)) (k : κ) (v : α) :
    alookup (aset m k v) k = some v := by
  induction m with
  | nil => simp [aset, alookup]
  | cons p rest ih =>
    by_cases h : p.1 = k
    · simp [aset, h, alookup]
    · simp [aset, h, alookup, ih]

theorem alookup_aset_ne {κ α : Type} [DecidableEq κ] (m : List (κ × α)) (k k' : κ) (v : α)
    (h : k' ≠ k) : alookup (aset m k v) k' = alookup m k' := by
  induction m with
  | nil =>
    simp only [aset, alookup, if_neg (Ne.symm h)]
  | cons p rest ih =>
    by_cases hp : p.1 = k
    · subst hp
      simp [aset, alookup, h, Ne.symm h]
    · by_cases hp' : p.1 = k'
      · simp [aset, hp, alookup, hp', h]
      · simp [aset, hp, alookup, hp', ih]

theorem alookup_mem {κ α : Type} [DecidableEq κ] {m : List (κ × α)} {k : κ} {v : α}
    (h : alookup m k = some v) : (k, v) ∈ m := by
  induction m with
  | nil => simp [alookup] at h
  | cons p rest ih =>
    by_cases hp : p.1 = k
    · simp [alookup, hp] at h
      have hpv : p = (k, v) := by
        cases p
        simp_all
      rw [hpv]
      exact List.mem_cons_self _ _
    · simp [alookup, hp] at h
      exact List.mem_cons_of_mem _ (ih h)

theorem mem_aset {κ α : Type} [DecidableEq κ] {m : List (κ × α)} {k : κ} {v : α} {p : κ × α}
    (h : p ∈ aset m k v) : p ∈ m ∨ p = (k, v) := by
  induction m with
  | nil => simp [aset] at h; right; exact h
  | cons q rest ih =>
    by_cases hq : q.1 = k
    · simp [aset, hq] at h
      rcases h with h | h
      · right; exact h
      · left; exact List.mem_cons_of_mem _ h
    · simp [aset, hq] at h
      rcases h with h | h
      · left; simp [h]
      · rcases ih h with h' | h'
        · left; exact List.mem_cons_of_mem _ h'
        · right; exact h'

theorem alookup_jsOmit {κ α : Type} [DecidableEq κ] (m : List (κ × α)) (ks : List κ) (k : κ) :
    alookup (jsOmit m ks) k = if k ∈ ks then none else alookup m k := by
  induction m with
  | nil => simp [jsOmit, alookup]
  | cons p rest ih =>
    by_cases hk : p.1 ∈ ks
    · by_cases hp : p.1 = k
      · subst hp
        simp [jsOmit, alookup, hk] at ih ⊢
        simpa [hk] using ih
      · simp [jsOmit, alookup, hk, hp] at ih ⊢
        exact ih
    · by_cases hp : p.1 = k
      · subst hp
        simp [jsOmit, alookup, hk]
      · simp [jsOmit, alookup, hk, hp] at ih ⊢
        exact ih

theorem alookup_append {κ α : Type} [DecidableEq κ] (x y : List (κ × α)) (k : κ) :
    alookup (x ++ y) k = jsOr (alookup x k) (alookup y k) := by
  induction x with
  | nil => simp [alookup, jsOr]
  | cons p rest ih =>
    by_cases hp : p.1 = k
    · simp [alookup, hp, jsOr]
    · simp only [List.cons_append, alookup, if_neg hp]
      exact ih

theorem alookup_spreadMap {κ α : Type} [DecidableEq κ] (a b : List (κ × α)) (k : κ) :
    alookup (a.map (fun p => match alookup b p.1 with | some v => (p.1, v) | none => p)) k
      = (alookup a k).map (fun va => (alookup b k).getD va) := by
  induction a with
  | nil => simp [alookup]
  | cons p rest ih =>
    by_cases hp : p.1 = k
    · subst hp
      cases hb : alookup b p.1 with
      | none => simp [alookup, hb]
      | some v => simp [alookup, hb]
    · cases hb : alookup b p.1 with
      | none =>
        simp only [List.map_cons, hb, alookup, if_neg hp]
        exact ih
      | some v =>
        simp only [List.map_cons, hb, alookup, if_neg hp]
        exact ih

theorem alookup_spreadFilter {κ α : Type} [DecidableEq κ] (a b : List (κ × α)) (k : κ) :
    alookup (b.filter (fun p => (alookup a p.1).isNone)) k
      = if (alookup a k).isSome then none else alookup b k := by
  induction b with
  | nil => simp [alookup]
  | cons q rest ih =>
    by_cases hq : q.1 = k
    · subst hq
      cases ha : alookup a q.1 with
      | none => simp [alookup, ha, List.filter]
      | some v => simp [alookup, ha, List.filter, ih]
    · cases ha : alookup a q.1 with
      | none => simpa [alookup, ha, List.filter, hq] using ih
      | some v => simpa [alookup, ha, List.filter, hq] using ih

theorem alookup_jsSpread {κ α : Type} [DecidableEq κ] (a b : List (κ × α)) (k : κ) :
    alookup (jsSpread a b) k = jsOr (alookup b k) (alookup a k) := by
  unfold jsSpread
  rw [alookup_append, alookup_spreadMap, alookup_spreadFilter]
  cases ha : alookup a k with
  | none =>
    cases hb : alookup b k with
    | none => simp [jsOr]
    | some vb => simp [jsOr]
  | some va =>
    cases hb : alookup b k with
    | none => simp [jsOr]
    | some vb => simp [jsOr]

/-- Modelled from the spec: ascending insertion into a sorted id list, the
    sorting primitive behind the canonical history order. -/
def insertAsc (x : Nat) : List Nat → List Nat
  | [] => [x]
  | y :: ys => if x ≤ y then x :: y :: ys else y :: insertAsc x ys

/-- Modelled from the spec: descending insertion into a sorted id list. -/
def insertDesc (x : Nat) : List Nat → List Nat
  | [] => [x]
  | y :: ys => if y ≤ x then x :: y :: ys else y :: insertDesc x ys

/-- Modelled from the spec: sorts message ids ascending, the canonical
    history order used throughout the store. -/
def orderHistoryIds (l : List Nat) : List Nat := l.foldr insertAsc []

/-- Modelled from the spec: the canonical order of pinned ids (newest
    first); only membership in the result matters for the properties here. -/
def orderPinnedIds (l : List Nat) : List Nat := l.foldr insertDesc []

theorem insertAsc_perm (x : Nat) (l : List Nat) : List.Perm (insertAsc x l) (x :: l) := by
  induction l with
  | nil => simp [insertAsc]
  | cons y ys ih =>
    by_cases h : x ≤ y
    · simp [insertAsc, h]
    · simp only [insertAsc, if_neg h]
      exact List.Perm.trans (List.Perm.cons y ih) (List.Perm.swap x y ys)

theorem insertDesc_perm (x : Nat) (l : List Nat) : List.Perm (insertDesc x l) (x :: l) := by
  induction l with
  | nil => simp [insertDesc]
  | cons y ys ih =>
    by_cases h : y ≤ x
    · simp [insertDesc, h]
    · simp only [insertDesc, if_neg h]
      exact List.Perm.trans (List.Perm.cons y ih) (List.Perm.swap x y ys)

theorem orderHistoryIds_perm (l : List Nat) : List.Perm (orderHistoryIds l) l := by
  induction l with
  | nil => simp [orderHistoryIds]
  | cons x xs ih =>
    exact List.Perm.trans (insertAsc_perm x (orderHistoryIds xs)) (List.Perm.cons x ih)

theorem orderPinnedIds_perm (l : List Nat) : List.Perm (orderPinnedIds l) l := by
  induction l with
  | nil => simp [orderPinnedIds]
  | cons x xs ih =>
    exact List.Perm.trans (insertDesc_perm x (orderPinnedIds xs)) (List.Perm.cons x ih)

theorem mem_orderHistoryIds {a : Nat} {l : List Nat} : a ∈ orderHistoryIds l ↔ a ∈ l :=
  (orderHistoryIds_perm l).mem_iff

theorem mem_orderPinnedIds {a : Nat} {l : List Nat} : a ∈ orderPinnedIds l ↔ a ∈ l :=
  (orderPinnedIds_perm l).mem_iff

theorem length_orderHistoryIds (l : List Nat) : (orderHistoryIds l).length = l.length :=
  (orderHistoryIds_perm l).length_eq

/-- Modelled from the spec: the sorted-array subtraction primitive, which
    removes every element of the second list from the first in one pass. -/
def excludeSortedArray (base toExclude : List Nat) : List Nat :=
  base.filter (fun x => decide (x ∉ toExclude))

theorem mem_excludeSortedArray {a : Nat} {base toExclude : List Nat} :
    a ∈ excludeSortedArray base toExclude ↔ a ∈ base ∧ a ∉ toExclude := by
  simp [excludeSortedArray]

/-- Modelled from the spec: removes duplicates keeping the first
    occurrence, the model of collecting unique keys of a JS object. -/
def uniqueJs (l : List Nat) : List Nat :=
  l.foldl (fun acc x => if x ∈ acc then acc else acc ++ [x]) []

/-- Modelled from the spec: the reserved high-order id sub-range that marks
    client-local, not-yet-confirmed outgoing messages. -/
def LOCAL_MESSAGE_MIN_ID : Nat := 4294967296

/-- Modelled from the spec: whether an id is a client-local message id. -/
def isLocalMessageId (id : Nat) : Bool := decide (LOCAL_MESSAGE_MIN_ID ≤ id)

/-- Modelled from the spec: the configured size of one history slice. -/
def MESSAGE_LIST_SLICE : Nat := 42

/-- Modelled from the spec: the hard cap on a viewport window length. -/
def MESSAGE_LIST_VIEWPORT_LIMIT : Nat := 84

/-- The id of the main timeline thread of every chat. -/
def MAIN_THREAD_ID : Int := -1

/-- Modelled from the spec: the id of the temporary chat placeholder. -/
def TMP_CHAT_ID : String := "0"

/-- Modelled from the spec: the test-environment flag, false in production. -/
def IS_TEST : Bool := false

/-- Modelled from the spec: the mocked-client flag, false in production. -/
def IS_MOCKED_CLIENT : Bool := false

/-- Last k elements of a list, the model of a JS slice with negative start. -/
def takeLastJs {α : Type} (l : List α) (k : Nat) : List α := l.drop (l.length - k)

/-- JS index clamping for Array.prototype.slice: negative indices count
    from the end, and everything is clamped into the array bounds. -/
def jsSliceIdx (len : Nat) (i : Int) : Nat :=
  if i < 0 then (Int.toNat (len + i)) else min i.toNat len

/-- Array.prototype.slice with JS index semantics. -/
def jsSlice {α : Type} (l : List α) (lo hi : Int) : List α :=
  ((l.take (jsSliceIdx l.length hi)).drop (jsSliceIdx l.length lo))

/-- Array.prototype.indexOf: first index of the element, or minus one. -/
def jsIndexOf (l : List Nat) (x : Nat) : Int :=
  match l.indexOf? x with
  | some i => Int.ofNat i
  | none => -1

/-- The kind of an open message list (thread history, pinned, scheduled). -/
inductive MLType : Type
  | thread
  | pinned
  | scheduled
deriving DecidableEq, Repr

/-- A round-capable video payload; only roundness matters to the reducers. -/
structure ApiVideo : Type where
  isRound : Bool
deriving DecidableEq, Repr

/-- Message content, with every field optional as in a JS object; scalar
    payloads are represented by stand-in values. -/
structure ApiMessageContent : Type where
  text : Option String
  voice : Option Nat
  video : Option ApiVideo
  isExpiredVoice : Option Bool
  isExpiredRoundVideo : Option Bool
  ttlSeconds : Option Nat
deriving DecidableEq, Repr

/-- Empty message content: every field absent. -/
def emptyContent : ApiMessageContent :=
  { text := none, voice := none, video := none, isExpiredVoice := none
  , isExpiredRoundVideo := none, ttlSeconds := none }

/-- Forward metadata of a forwarded message. -/
structure ApiForwardInfo : Type where
  isLinkedChannelPost : Option Bool
  fromChatId : Option String
  fromMessageId : Option Nat
  channelPostId : Option Nat
deriving DecidableEq, Repr

/-- A message entity, or a partial message patch: every field is optional,
    matching a JS object whose keys may be absent.  The field
    threadMembershipId is modelled from the spec: it is the input of the
    pure thread-membership resolution (topic or comments membership, absent
    meaning the main timeline).  The field extra stands in for the
    remaining scalar fields of a full message. -/
structure ApiMessage : Type where
  id : Option Nat
  chatId : Option String
  content : Option ApiMessageContent
  forwardInfo : Option ApiForwardInfo
  isMediaUnread : Option Bool
  groupedId : Option String
  isScheduled : Option Bool
  threadMembershipId : Option Int
  extra : Option Nat
deriving DecidableEq, Repr

/-- Empty message object: every field absent. -/
def emptyMessage : ApiMessage :=
  { id := none, chatId := none, content := none, forwardInfo := none
  , isMediaUnread := none, groupedId := none, isScheduled := none
  , threadMembershipId := none, extra := none }

/-- Thread aggregate metadata, or a partial update of it; every field
    optional as in a JS object. -/
structure ApiThreadInfo : Type where
  isCommentsInfo : Option Bool
  chatId : Option String
  threadId : Option Int
  originChannelId : Option String
  originMessageId : Option Int
  fromChannelId : Option String
  fromMessageId : Option Int
  messagesCount : Option Int
  lastMessageId : Option Nat
  lastReadInboxMessageId : Option Nat
deriving DecidableEq, Repr

/-- Empty thread info: every field absent. -/
def emptyThreadInfo : ApiThreadInfo :=
  { isCommentsInfo := none, chatId := none, threadId := none
  , originChannelId := none, originMessageId := none
  , fromChannelId := none, fromMessageId := none
  , messagesCount := none, lastMessageId := none, lastReadInboxMessageId := none }

/-- Durable per-thread state inside a chat. -/
structure Thread : Type where
  listedIds : Option (List Nat)
  outlyingLists : Option (List (List Nat))
  pinnedIds : Option (List Nat)
  scheduledIds : Option (List Nat)
  threadInfo : Option ApiThreadInfo
  lastViewportIds : Option (List Nat)
deriving DecidableEq, Repr

/-- Empty thread record: every field absent. -/
def emptyThread : Thread :=
  { listedIds := none, outlyingLists := none, pinnedIds := none
  , scheduledIds := none, threadInfo := none, lastViewportIds := none }

/-- Per-tab overlay of one thread: the rendered viewport window. -/
structure TabThread : Type where
  viewportIds : Option (List Nat)
deriving DecidableEq, Repr

/-- Empty tab-thread overlay. -/
def emptyTabThread : TabThread := { viewportIds := none }

/-- One open message list of a tab. -/
structure MessageList : Type where
  chatId : String
  threadId : Int
  type : MLType
deriving DecidableEq, Repr

/-- The per-tab selection store: the chat and the selected message ids. -/
structure SelectedMessages : Type where
  chatId : String
  messageIds : List Nat
deriving DecidableEq, Repr

/-- Per-tab state: the open message lists, the per-thread overlays and the
    optional selection store. -/
structure TabState : Type where
  id : Nat
  messageLists : List MessageList
  tabThreads : List (String × List (Int × TabThread))
  selectedMessages : Option SelectedMessages
deriving DecidableEq, Repr

/-- Default tab state used when a tab id is not present. -/
def defaultTabState (tabId : Nat) : TabState :=
  { id := tabId, messageLists := [], tabThreads := [], selectedMessages := none }

/-- The two sections a chat owns in the message store. -/
structure MessageStoreSections : Type where
  byId : List (Nat × ApiMessage)
  threadsById : List (Int × Thread)
deriving DecidableEq, Repr

/-- Empty message store sections for a chat. -/
def emptySections : MessageStoreSections := { byId := [], threadsById := [] }

/-- The per-chat scheduled message sections. -/
structure ScheduledSections : Type where
  byId : List (Nat × ApiMessage)
  hash : Option Int
deriving DecidableEq, Repr

/-- The message store: per-chat message tables and thread indices. -/
structure MessagesState : Type where
  byChatId : List (String × MessageStoreSections)
deriving DecidableEq, Repr

/-- The scheduled message store: per-chat scheduled tables. -/
structure ScheduledState : Type where
  byChatId : List (String × ScheduledSections)
deriving DecidableEq, Repr

/-- The modelled global state: message store, scheduled store and per-tab
    states.  Side stores the spec excludes from the core (translations,
    uploads, quick replies and so on) are not modelled. -/
structure GlobalState : Type where
  messages : MessagesState
  scheduledMessages : ScheduledState
  byTabId : List (Nat × TabState)
deriving DecidableEq, Repr

/-- Modelled from the spec: selector for the message sections of a chat. -/
def selectMessagesSections (g : GlobalState) (chatId : String) : Option MessageStoreSections :=
  alookup g.messages.byChatId chatId

/-- Modelled from the spec: selector for the message table of a chat. -/
def selectChatMessages (g : GlobalState) (chatId : String) : Option (List (Nat × ApiMessage)) :=
  (selectMessagesSections g chatId).map (fun s => s.byId)

/-- Modelled from the spec: selector for one message of a chat. -/
def selectChatMessage (g : GlobalState) (chatId : String) (messageId : Nat) : Option ApiMessage :=
  (selectChatMessages g chatId).bind (fun m => alookup m messageId)

/-- Modelled from the spec: selector for one thread record of a chat. -/
def selectThreadRec (g : GlobalState) (chatId : String) (threadId : Int) : Option Thread :=
  (selectMessagesSections g chatId).bind (fun s => alookup s.threadsById threadId)

/-- Modelled from the spec: selector for the listed ids of a thread. -/
def selectListedIds (g : GlobalState) (chatId : String) (threadId : Int) : Option (List Nat) :=
  (selectThreadRec g chatId threadId).bind (fun t => t.listedIds)

/-- Modelled from the spec: selector for the outlying id ranges of a thread. -/
def selectOutlyingLists (g : GlobalState) (chatId : String) (threadId : Int) :
    Option (List (List Nat)) :=
  (selectThreadRec g chatId threadId).bind (fun t => t.outlyingLists)

/-- Modelled from the spec: selector for the pinned ids of a thread. -/
def selectPinnedIds (g : GlobalState) (chatId : String) (threadId : Int) : Option (List Nat) :=
  (selectThreadRec g chatId threadId).bind (fun t => t.pinnedIds)

/-- Modelled from the spec: selector for the scheduled ids of a thread. -/
def selectScheduledIds (g : GlobalState) (chatId : String) (threadId : Int) : Option (List Nat) :=
  (selectThreadRec g chatId threadId).bind (fun t => t.scheduledIds)

/-- Modelled from the spec: selector for the aggregate info of a thread. -/
def selectThreadInfo (g : GlobalState) (chatId : String) (threadId : Int) : Option ApiThreadInfo :=
  (selectThreadRec g chatId threadId).bind (fun t => t.threadInfo)

/-- Modelled from the spec: selector for a tab state; a missing tab id
    yields the default empty tab state. -/
def selectTabStateD (g : GlobalState) (tabId : Nat) : TabState :=
  (alookup g.byTabId tabId).getD (defaultTabState tabId)

/-- Modelled from the spec: selector for the per-tab overlay of a thread. -/
def selectTabThread (g : GlobalState) (chatId : String) (threadId : Int) (tabId : Nat) :
    Option TabThread :=
  (alookup (selectTabStateD g tabId).tabThreads chatId).bind (fun m => alookup m threadId)

/-- Modelled from the spec: selector for the viewport window of a thread in a tab. -/
def selectViewportIds (g : GlobalState) (chatId : String) (threadId : Int) (tabId : Nat) :
    Option (List Nat) :=
  (selectTabThread g chatId threadId tabId).bind (fun t => t.viewportIds)

/-- Modelled from the spec: the currently active message list of a tab is
    the last entry of its open list stack. -/
def selectCurrentMessageList (g : GlobalState) (tabId : Nat) : Option MessageList :=
  (selectTabStateD g tabId).messageLists.getLast?

/-- Modelled from the spec: selector for the scheduled sections of a chat. -/
def selectScheduledSections (g : GlobalState) (chatId : String) : Option ScheduledSections :=
  alookup g.scheduledMessages.byChatId chatId

/-- Modelled from the spec: selector for the scheduled message table of a chat. -/
def selectChatScheduledMessages (g : GlobalState) (chatId : String) :
    Option (List (Nat × ApiMessage)) :=
  (selectScheduledSections g chatId).map (fun s => s.byId)

/-- Modelled from the spec: selector for one scheduled message of a chat. -/
def selectScheduledMessage (g : GlobalState) (chatId : String) (messageId : Nat) :
    Option ApiMessage :=
  (selectChatScheduledMessages g chatId).bind (fun m => alookup m messageId)

/-- Modelled from the spec: the pure thread-membership resolution of a
    message (topic membership, comments membership, else main timeline). -/
def selectThreadIdFromMessage (g : GlobalState) (m : ApiMessage) : Int :=
  m.threadMembershipId.getD MAIN_THREAD_ID

/-- Modelled from the spec: resolves a grouped message (album) to the ids
    of every message of the group present in the chat. -/
def selectMessageIdsByGroupId (g : GlobalState) (chatId : String) (groupedId : String) :
    Option (List Nat) :=
  let ids := (((selectChatMessages g chatId).getD []).filter
    (fun p => decide (p.2.groupedId = some groupedId))).map (fun p => p.1)
  if ids.isEmpty then none else some ids

/-- Modelled from the spec: the ids a range selection walks along are the
    scheduled ids for a scheduled list and the viewport window otherwise. -/
def selectCurrentMessageIds (g : GlobalState) (chatId : String) (threadId : Int)
    (messageListType : MLType) (tabId : Nat) : Option (List Nat) :=
  match messageListType with
  | MLType.scheduled => selectScheduledIds g chatId threadId
  | _ => selectViewportIds g chatId threadId tabId

/-- Modelled from the spec: whether a message carries a time-to-live. -/
def hasMessageTtl (m : ApiMessage) : Bool :=
  ((m.content.getD emptyContent).ttlSeconds).isSome

/-- JS truthiness of an optional number: present and nonzero. -/
def truthyNat : Option Nat → Bool
  | some n => decide (n ≠ 0)
  | none => false

/-- JS truthiness of an optional integer: present and nonzero. -/
def truthyInt : Option Int → Bool
  | some n => decide (n ≠ 0)
  | none => false

/-- JS truthiness of an optional string: present and nonempty. -/
def truthyStr : Option String → Bool
  | some s => decide (s ≠ "")
  | none => false

/-- JS truthiness of an optional boolean: present and true. -/
def truthyBool : Option Bool → Bool
  | some b => b
  | none => false

/-- Patches a tab state: the TS updateTabState merges a partial object into
    the tab state; each call site passes the corresponding field update. -/
def updateTabState (g : GlobalState) (upd : TabState → TabState) (tabId : Nat) : GlobalState :=
  { g with byTabId := aset g.byTabId tabId (upd (selectTabStateD g tabId)) }

/-- Patches the sections a chat owns in the message store, creating the
    chat entry with empty sections when absent (updateMessageStore). -/
def updateMessageStore (g : GlobalState) (chatId : String)
    (upd : MessageStoreSections → MessageStoreSections) : GlobalState :=
  let current := (alookup g.messages.byChatId chatId).getD emptySections
  { g with messages := { byChatId := aset g.messages.byChatId chatId (upd current) } }

/-- Replaces the whole message table of a chat (replaceChatMessages). -/
def replaceChatMessages (g : GlobalState) (chatId : String)
    (newById : List (Nat × ApiMessage)) : GlobalState :=
  updateMessageStore g chatId (fun s => { s with byId := newById })

/-- Patches or removes one thread record (updateThread): an absent update
    removes the thread key, a present one merges into the existing record
    (or into an empty record when the thread does not exist yet). -/
def updateThread (g : GlobalState) (chatId : String) (threadId : Int)
    (upd : Option (Thread → Thread)) : GlobalState :=
  match upd with
  | none =>
    updateMessageStore g chatId (fun s => { s with threadsById := jsOmit s.threadsById [threadId] })
  | some f =>
    let base := (selectThreadRec g chatId threadId).getD emptyThread
    updateMessageStore g chatId (fun s => { s with threadsById := aset s.threadsById threadId (f base) })

/-- Sets the listedIds parameter of a thread (replaceThreadParam). -/
def replaceThreadParamListedIds (g : GlobalState) (chatId : String) (threadId : Int)
    (v : Option (List Nat)) : GlobalState :=
  updateThread g chatId threadId (some (fun th => { th with listedIds := v }))

/-- Sets the outlyingLists parameter of a thread (replaceThreadParam). -/
def replaceThreadParamOutlyingLists (g : GlobalState) (chatId : String) (threadId : Int)
    (v : Option (List (List Nat))) : GlobalState :=
  updateThread g chatId threadId (some (fun th => { th with outlyingLists := v }))

/-- Sets the pinnedIds parameter of a thread (replaceThreadParam). -/
def replaceThreadParamPinnedIds (g : GlobalState) (chatId : String) (threadId : Int)
    (v : Option (List Nat)) : GlobalState :=
  updateThread g chatId threadId (some (fun th => { th with pinnedIds := v }))

/-- Sets the scheduledIds parameter of a thread (replaceThreadParam). -/
def replaceThreadParamScheduledIds (g : GlobalState) (chatId : String) (threadId : Int)
    (v : Option (List Nat)) : GlobalState :=
  updateThread g chatId threadId (some (fun th => { th with scheduledIds := v }))

/-- Sets the threadInfo parameter of a thread (replaceThreadParam). -/
def replaceThreadParamThreadInfo (g : GlobalState) (chatId : String) (threadId : Int)
    (v : Option ApiThreadInfo) : GlobalState :=
  updateThread g chatId threadId (some (fun th => { th with threadInfo := v }))

/-- Sets the lastViewportIds parameter of a thread (replaceThreadParam). -/
def replaceThreadParamLastViewportIds (g : GlobalState) (chatId : String) (threadId : Int)
    (v : Option (List Nat)) : GlobalState :=
  updateThread g chatId threadId (some (fun th => { th with lastViewportIds := v }))

/-- Patches the per-tab overlay of one thread (updateTabThread). -/
def updateTabThread (g : GlobalState) (chatId : String) (threadId : Int)
    (upd : TabThread → TabThread) (tabId : Nat) : GlobalState :=
  let ts := selectTabStateD g tabId
  let current := ((alookup ts.tabThreads chatId).bind (fun m => alookup m threadId)).getD emptyTabThread
  let newInner (ts2 : TabState) : List (Int × TabThread) :=
    aset ((alookup ts2.tabThreads chatId).getD []) threadId (upd current)
  updateTabState g
    (fun ts2 => { ts2 with tabThreads := aset ts2.tabThreads chatId (newInner ts2) })
    tabId

/-- Sets the viewportIds overlay parameter of a thread in a tab; as in the
    TS replaceTabThreadParam it also mirrors the value into the durable
    lastViewportIds parameter of the thread. -/
def replaceTabThreadParamViewportIds (g : GlobalState) (chatId : String) (threadId : Int)
    (newValue : Option (List Nat)) (tabId : Nat) : GlobalState :=
  let g2 := replaceThreadParamLastViewportIds g chatId threadId newValue
  updateTabThread g2 chatId threadId (fun th => { th with viewportIds := newValue }) tabId

/-- Modelled from the spec: the translation side store is excluded from the
    core model (spec section 1), so clearing the translation of one message
    touches no modelled component. -/
def clearMessageTranslation (g : GlobalState) (chatId : String) (messageId : Nat) : GlobalState :=
  g

/-- The next open-list stack of a tab (the newMessageLists computation of
    updateCurrentMessageList): an identical last entry is kept, a temporary
    chat or an explicit replace flag swaps the last entry, otherwise the
    new list is pushed; with no chat the last entry is popped. -/
def newCurrentMessageLists (g : GlobalState) (chatId : Option String) (threadId : Int)
    (ty : MLType) (shouldReplaceHistory : Bool) (shouldReplaceLast : Bool) (tabId : Nat) :
    List MessageList :=
  let messageLists := (selectTabStateD g tabId).messageLists
  if shouldReplaceHistory ∨ (IS_TEST ∧ ¬ IS_MOCKED_CLIENT) then
    match chatId with
    | some c => [{ chatId := c, threadId := threadId, type := ty }]
    | none => []
  else
    match chatId with
    | some c =>
      match messageLists.getLast? with
      | none => messageLists ++ [{ chatId := c, threadId := threadId, type := ty }]
      | some last =>
        if last.chatId = c ∧ last.threadId = threadId ∧ last.type = ty then
          messageLists
        else if last.chatId = TMP_CHAT_ID ∨ shouldReplaceLast then
          messageLists.dropLast ++ [{ chatId := c, threadId := threadId, type := ty }]
        else
          messageLists ++ [{ chatId := c, threadId := threadId, type := ty }]
    | none => messageLists.dropLast

/-- Pushes, replaces or pops the active message list of a tab
    (updateCurrentMessageList). -/
def updateCurrentMessageList (g : GlobalState) (chatId : Option String) (threadId : Int)
    (ty : MLType) (shouldReplaceHistory : Bool) (shouldReplaceLast : Bool) (tabId : Nat) :
    GlobalState :=
  let nml := newCurrentMessageLists g chatId threadId ty shouldReplaceHistory
    shouldReplaceLast tabId
  updateTabState g (fun ts => { ts with messageLists := nml }) tabId

/-- Field-wise shallow merge of a message object with a partial patch: a
    field present in the patch wins, an absent one keeps the prior value,
    the model of a two-object spread of messages. -/
def jsMergeMessage (a b : ApiMessage) : ApiMessage :=
  { id := jsOr b.id a.id
  , chatId := jsOr b.chatId a.chatId
  , content := jsOr b.content a.content
  , forwardInfo := jsOr b.forwardInfo a.forwardInfo
  , isMediaUnread := jsOr b.isMediaUnread a.isMediaUnread
  , groupedId := jsOr b.groupedId a.groupedId
  , isScheduled := jsOr b.isScheduled a.isScheduled
  , threadMembershipId := jsOr b.threadMembershipId a.threadMembershipId
  , extra := jsOr b.extra a.extra }

/-- Field-wise shallow merge of a thread info with a partial update, over
    an absent prior info merging into the empty info. -/
def mergeThreadInfo (old : Option ApiThreadInfo) (u : ApiThreadInfo) : ApiThreadInfo :=
  let a := old.getD emptyThreadInfo
  { isCommentsInfo := jsOr u.isCommentsInfo a.isCommentsInfo
  , chatId := jsOr u.chatId a.chatId
  , threadId := jsOr u.threadId a.threadId
  , originChannelId := jsOr u.originChannelId a.originChannelId
  , originMessageId := jsOr u.originMessageId a.originMessageId
  , fromChannelId := jsOr u.fromChannelId a.fromChannelId
  , fromMessageId := jsOr u.fromMessageId a.fromMessageId
  , messagesCount := jsOr u.messagesCount a.messagesCount
  , lastMessageId := jsOr u.lastMessageId a.lastMessageId
  , lastReadInboxMessageId := jsOr u.lastReadInboxMessageId a.lastReadInboxMessageId }

/-- Modelled from the spec: the restricted field set propagated to a linked
    thread (messagesCount, lastMessageId, lastReadInboxMessageId). -/
def pickLinkedFields (info : ApiThreadInfo) : ApiThreadInfo :=
  { emptyThreadInfo with
      messagesCount := info.messagesCount
    , lastMessageId := info.lastMessageId
    , lastReadInboxMessageId := info.lastReadInboxMessageId }

/-- Merges new or changed messages into the message table of a chat
    (addChatMessagesById); existing entries take precedence in the spread
    and a batch whose ids all exist already short-circuits to the input. -/
def addChatMessagesById (g : GlobalState) (chatId : String)
    (newById : List (Nat × ApiMessage)) : GlobalState :=
  match selectChatMessages g chatId with
  | some byId =>
    if newById.all (fun p => (alookup byId p.1).isSome) then g
    else replaceChatMessages g chatId (jsSpread newById byId)
  | none => replaceChatMessages g chatId (jsSpread newById [])

/-- Adjusts a message patch for self-destructing media (updateChatMessage,
    TTL branch): clearing the media-unread flag on a message with a
    time-to-live drops the heavy payload and sets the expired marker. -/
def applyTtlAdjustment (message : ApiMessage) (messageUpdate : ApiMessage) : ApiMessage :=
  if messageUpdate.isMediaUnread = some false ∧ hasMessageTtl message then
    let mc := message.content.getD emptyContent
    let uc := messageUpdate.content.getD emptyContent
    if mc.voice.isSome then
      let newContent : ApiMessageContent := { uc with voice := none, isExpiredVoice := some true }
      { messageUpdate with content := some newContent }
    else if truthyBool (mc.video.map (fun v => v.isRound)) then
      let newContent : ApiMessageContent := { uc with video := none, isExpiredRoundVideo := some true }
      { messageUpdate with content := some newContent }
    else messageUpdate
  else messageUpdate

/-- Applies a field-level patch to one message of a chat
    (updateChatMessage): merges the patch over the existing entity (or over
    nothing) and stores the result under the given key unless the merged
    result lacks an id. -/
def updateChatMessage (g : GlobalState) (chatId : String) (messageId : Nat)
    (messageUpdate : ApiMessage) : GlobalState :=
  let byId := (selectChatMessages g chatId).getD []
  let message := alookup byId messageId
  let adjusted :=
    match message with
    | some m => applyTtlAdjustment m messageUpdate
    | none => messageUpdate
  let updatedMessage := jsMergeMessage (message.getD emptyMessage) adjusted
  if truthyNat updatedMessage.id then
    replaceChatMessages g chatId (aset byId messageId updatedMessage)
  else g

/-- Merges scheduled messages into the scheduled table of a chat
    (updateScheduledMessages). -/
def updateScheduledMessages (g : GlobalState) (chatId : String)
    (newById : List (Nat × ApiMessage)) : GlobalState :=
  let current := (alookup g.scheduledMessages.byChatId chatId).getD { byId := [], hash := some 0 }
  let newSections : ScheduledSections := { current with byId := jsSpread current.byId newById }
  { g with scheduledMessages :=
      { byChatId := aset g.scheduledMessages.byChatId chatId newSections } }

/-- Applies a field-level patch to one scheduled message
    (updateScheduledMessage): merges the patch over the existing scheduled
    entity and stores the result unless it lacks an id. -/
def updateScheduledMessage (g : GlobalState) (chatId : String) (messageId : Nat)
    (messageUpdate : ApiMessage) : GlobalState :=
  let message := selectScheduledMessage g chatId messageId
  let updatedMessage := jsMergeMessage (message.getD emptyMessage) messageUpdate
  if truthyNat updatedMessage.id then
    updateScheduledMessages g chatId [(messageId, updatedMessage)]
  else g

/-- Merges a partial update into the aggregate info of a thread
    (updateThreadInfo).  Without the suppression flag, a merged info that
    marks the thread as a comments view, or as originating from a channel
    post, propagates the restricted linked field set to the linked thread
    through one recursive call with the cascade suppressed. -/
def updateThreadInfo (g : GlobalState) (chatId : String) (threadId : Int)
    (update : ApiThreadInfo) (doNotUpdateLinked : Bool) : GlobalState :=
  let newThreadInfo := mergeThreadInfo (selectThreadInfo g chatId threadId) update
  let g2 :=
    match doNotUpdateLinked with
    | true => g
    | false =>
      let linkedUpdate := pickLinkedFields newThreadInfo
      if truthyBool newThreadInfo.isCommentsInfo then
        if truthyInt newThreadInfo.threadId then
          updateThreadInfo g (newThreadInfo.chatId.getD "undefined")
            (newThreadInfo.threadId.getD 0) linkedUpdate true
        else g
      else if truthyStr newThreadInfo.fromChannelId ∧ truthyInt newThreadInfo.fromMessageId then
        updateThreadInfo g (newThreadInfo.fromChannelId.getD "undefined")
          (newThreadInfo.fromMessageId.getD 0) linkedUpdate true
      else g
  replaceThreadParamThreadInfo g2 chatId threadId (some newThreadInfo)
termination_by (cond doNotUpdateLinked 0 1)
decreasing_by
  all_goals simp [cond]

/-- Appends one id to the viewport window of a thread in a tab
    (addViewportId): a present id short-circuits; at capacity only the most
    recent half slice is retained before appending; the result is stored in
    canonical history order. -/
def addViewportId (g : GlobalState) (chatId : String) (threadId : Int) (newId : Nat)
    (tabId : Nat) : GlobalState :=
  let viewportIds := (selectViewportIds g chatId threadId tabId).getD []
  if newId ∈ viewportIds then g
  else
    let kept :=
      if viewportIds.length < MESSAGE_LIST_VIEWPORT_LIMIT then viewportIds
      else takeLastJs viewportIds (MESSAGE_LIST_SLICE / 2)
    let newIds := orderHistoryIds (kept ++ [newId])
    replaceTabThreadParamViewportIds g chatId threadId (some newIds) tabId

/-- Enters message selection mode on a tab (enterMessageSelectMode): sets
    the selection store to the chat and the given ids, an absent id
    argument meaning no ids. -/
def enterMessageSelectMode (g : GlobalState) (chatId : String)
    (messageId : Option (List Nat)) (tabId : Nat) : GlobalState :=
  let messageIds := match messageId with | some l => l | none => []
  updateTabState g
    (fun ts => { ts with selectedMessages := some { chatId := chatId, messageIds := messageIds } })
    tabId

/-- Exits message selection mode on a tab (exitMessageSelectMode). -/
def exitMessageSelectMode (g : GlobalState) (tabId : Nat) : GlobalState :=
  updateTabState g (fun ts => { ts with selectedMessages := none }) tabId

/-- The new selection list a toggle produces (the newMessageIds block of
    toggleMessageSelection): a fully re-toggled set is deselected, a shift
    toggle extends along the visible order, otherwise the fresh ids are
    appended. -/
def toggleNewMessageIds (g : GlobalState) (chatId : String) (threadId : Int)
    (messageListType : MLType) (messageId : Nat) (withShift : Bool) (tabId : Nat)
    (selectedMessageIds : List Nat) (messageIds : List Nat) : List Nat :=
  let newSelectedMessageIds := selectedMessageIds.filter (fun id => decide (id ∉ messageIds))
  if newSelectedMessageIds.isEmpty then
    messageIds.filter (fun id => decide (id ∉ selectedMessageIds))
  else if withShift ∧ ¬ messageIds.isEmpty then
    let viewportIds :=
      (selectCurrentMessageIds g chatId threadId messageListType tabId).getD []
    let prevIndex := jsIndexOf viewportIds (messageIds.getLastD 0)
    let currentIndex := jsIndexOf viewportIds messageId
    let lo := min prevIndex currentIndex
    let hi := max prevIndex currentIndex
    let slice := jsSlice viewportIds lo (hi + 1)
    uniqueJs (messageIds ++ slice)
  else messageIds ++ newSelectedMessageIds

/-- Toggles the selection of a message or of its whole group
    (toggleMessageSelection): with no prior selection it enters selection
    mode; re-toggled ids are deselected; a shift toggle extends the
    selection along the visible viewport order; an empty result exits
    selection mode. -/
def toggleMessageSelection (g : GlobalState) (chatId : String) (threadId : Int)
    (messageListType : MLType) (messageId : Nat) (groupedId : Option String)
    (childMessageIds0 : Option (List Nat)) (withShift : Bool) (tabId : Nat) : GlobalState :=
  let oldSelectedMessages := (selectTabStateD g tabId).selectedMessages
  let childMessageIds :=
    match groupedId with
    | some gid => selectMessageIdsByGroupId g chatId gid
    | none => childMessageIds0
  let selectedMessageIds := match childMessageIds with | some l => l | none => [messageId]
  match oldSelectedMessages with
  | none => enterMessageSelectMode g chatId (some selectedMessageIds) tabId
  | some old =>
    let newMessageIds := toggleNewMessageIds g chatId threadId messageListType messageId
      withShift tabId selectedMessageIds old.messageIds
    if newMessageIds.isEmpty then exitMessageSelectMode g tabId
    else
      updateTabState g
        (fun ts => { ts with selectedMessages := some { old with messageIds := newMessageIds } })
        tabId

/-- The per-thread body of deleteChatScheduledMessages: strips the deleted
    ids from the scheduled id list of one thread. -/
def schedThreadStep (chatId : String) (messageIds : List Nat) (g4 : GlobalState)
    (pair : Int × Thread) : GlobalState :=
  match pair.2.scheduledIds with
  | none => g4
  | some sids =>
    replaceThreadParamScheduledIds g4 chatId pair.1
      (some (sids.filter (fun id => decide (id ∉ messageIds))))

/-- The repeated-filter loop of deleteChatScheduledMessages over the main
    thread scheduled id list: each deleted id found in the list is filtered
    out in turn. -/
def schedFilterMain (messageIds : List Nat) (scheduledIds0 : List Nat) : List Nat :=
  messageIds.foldl
    (fun (acc : List Nat) mid =>
      if mid ∈ acc then acc.filter (fun id => decide (id ≠ mid)) else acc)
    scheduledIds0

/-- The per-thread pass of deleteChatScheduledMessages: walks every thread
    record of the chat and strips the deleted ids from its scheduled list. -/
def schedFoldThreads (chatId : String) (messageIds : List Nat) (g3 : GlobalState) : GlobalState :=
  (((alookup g3.messages.byChatId chatId).getD emptySections).threadsById).foldl
    (schedThreadStep chatId messageIds) g3

/-- The id-list stripping stage of deleteChatScheduledMessages, entered
    only when the main thread has a scheduled id list: updates the main
    list and then every thread scheduled list of the chat. -/
def schedDeleteInner (g : GlobalState) (chatId : String) (messageIds : List Nat)
    (scheduledIds0 : List Nat) : GlobalState :=
  schedFoldThreads chatId messageIds
    (replaceThreadParamScheduledIds g chatId MAIN_THREAD_ID
      (some (schedFilterMain messageIds scheduledIds0)))

/-- Deletes scheduled messages of a chat (deleteChatScheduledMessages):
    removes the ids from the scheduled table and, when the main thread has
    a scheduled id list, strips them from it and from the scheduled id list
    of every thread of the chat. -/
def deleteChatScheduledMessages (g : GlobalState) (chatId : String)
    (messageIds : List Nat) : GlobalState :=
  match selectChatScheduledMessages g chatId with
  | none => g
  | some byId =>
    let g2 :=
      match selectScheduledIds g chatId MAIN_THREAD_ID with
      | none => g
      | some scheduledIds0 => schedDeleteInner g chatId messageIds scheduledIds0
    let newSections : ScheduledSections := { byId := jsOmit byId messageIds, hash := none }
    { g2 with scheduledMessages :=
        { byChatId := aset g2.scheduledMessages.byChatId chatId newSections } }

/-- The ids of all open tabs, read from the tab state values as the tab
    iteration of the reducers does. -/
def tabIdsOf (g : GlobalState) : List Nat := g.byTabId.map (fun p => p.2.id)

/-- One step of grouping deleted ids by the thread the message belongs to
    (the per-id body of the first loop of deleteChatMessages); messages of
    the main timeline are skipped because the main entry already carries
    the full delete set, and the translation of a grouped message is
    cleared alongside. -/
def collectThreadsStep (byId : List (Nat × ApiMessage)) (chatId : String)
    (acc : List (Int × List Nat) × GlobalState) (messageId : Nat) :
    List (Int × List Nat) × GlobalState :=
  match alookup byId messageId with
  | none => acc
  | some message =>
    let threadId := selectThreadIdFromMessage acc.2 message
    if threadId = 0 ∨ threadId = MAIN_THREAD_ID then acc
    else
      let threadMessages := (alookup acc.1 threadId).getD []
      (aset acc.1 threadId (threadMessages ++ [messageId]),
        clearMessageTranslation acc.2 chatId messageId)

/-- Whether a message is a linked forwarded channel post. -/
def isLinkedPost (m : ApiMessage) : Bool :=
  match m.forwardInfo with
  | some fi => truthyBool fi.isLinkedChannelPost
  | none => false

/-- The deleted messages that are linked forwarded channel posts, in
    ascending id order with duplicate ids collapsed, as the object pick of
    deleteChatMessages produces them. -/
def deletedForwardedPostsOf (byId : List (Nat × ApiMessage)) (sortedIds : List Nat) :
    List ApiMessage :=
  ((sortedIds.dedup).filterMap (fun i => alookup byId i)).filter isLinkedPost

/-- The per-tab viewport body of deleteChatMessages: strips the full
    delete set from the viewport of the thread in one tab, clearing the
    window key when the result is empty. -/
def viewportDeleteStep (chatId : String) (messageIds : List Nat) (threadId : Int)
    (g2 : GlobalState) (tabId : Nat) : GlobalState :=
  match selectViewportIds g2 chatId threadId tabId with
  | none => g2
  | some viewportIds =>
    let newViewportIds := excludeSortedArray viewportIds messageIds
    replaceTabThreadParamViewportIds g2 chatId threadId
      (if newViewportIds.isEmpty then none else some newViewportIds) tabId

/-- The closing step of the per-thread deletion body: when the thread has
    aggregate info with a message count, the lowered count is written
    through the cascade path. -/
def threadCountFinish (chatId : String) (threadId : Int) (threadInfo : Option ApiThreadInfo)
    (newMessageCount : Option Int) (gD : GlobalState) : GlobalState :=
  match threadInfo, newMessageCount with
  | some _, some cnt =>
    updateThreadInfo gD chatId threadId { emptyThreadInfo with messagesCount := some cnt } false
  | _, _ => gD

/-- The per-thread body of deleteChatMessages: strips the ids of the
    thread from its listed, outlying and pinned lists, strips the full
    delete set from the viewport of the thread in every tab, and lowers the
    aggregate message count by the non-local removals through the cascade
    path. -/
def threadDeleteStep (chatId : String) (messageIds : List Nat) (g : GlobalState)
    (pair : Int × List Nat) : GlobalState :=
  let threadId := pair.1
  let threadMessageIds := pair.2
  let threadInfo := selectThreadInfo g chatId threadId
  let listedIds := (selectListedIds g chatId threadId).map
    (fun l => excludeSortedArray l threadMessageIds)
  let outlyingLists := (selectOutlyingLists g chatId threadId).map
    (fun ls => ls.map (fun l => excludeSortedArray l threadMessageIds))
  let pinnedIds := (selectPinnedIds g chatId threadId).map
    (fun l => excludeSortedArray l (orderPinnedIds threadMessageIds))
  let nonLocalMessageCount := (threadMessageIds.filter (fun id => ! isLocalMessageId id)).length
  let newMessageCount := (threadInfo.bind (fun ti => ti.messagesCount)).map
    (fun c => c - Int.ofNat nonLocalMessageCount)
  let gA := (tabIdsOf g).foldl (viewportDeleteStep chatId messageIds threadId) g
  let gB := replaceThreadParamListedIds gA chatId threadId listedIds
  let gC := replaceThreadParamOutlyingLists gB chatId threadId outlyingLists
  let gD := replaceThreadParamPinnedIds gC chatId threadId pinnedIds
  threadCountFinish chatId threadId threadInfo newMessageCount gD

/-- The per-post body of the forwarded-post pass of deleteChatMessages:
    when the active view of the tab is the comments thread keyed by the
    deleted post, the active view falls back to the main thread of the
    chat; when the origin post is present in the store, the cached thread
    record keyed by the origin chat and origin message is dropped. -/
def forwardedPostStep (chatId : String) (canDelete : Bool) (currentThreadId : Option Int)
    (tabId : Nat) (g : GlobalState) (message : ApiMessage) : GlobalState :=
  match message.forwardInfo with
  | none => g
  | some fi =>
    let originalPost := fi.fromChatId.bind
      (fun oc => fi.fromMessageId.bind (fun om => selectChatMessage g oc om))
    let matchesCurrent :=
      match message.id with
      | some mid => decide (currentThreadId = some (Int.ofNat mid))
      | none => false
    let g2 :=
      if canDelete && matchesCurrent then
        updateCurrentMessageList g (some chatId) MAIN_THREAD_ID MLType.thread false false tabId
      else g
    if originalPost.isSome then
      updateThread g2 (fi.fromChatId.getD "undefined") (Int.ofNat (fi.fromMessageId.getD 0)) none
    else g2

/-- The per-tab body of the forwarded-post pass of deleteChatMessages. -/
def forwardedTabStep (chatId : String) (posts : List ApiMessage) (g : GlobalState)
    (tabId : Nat) : GlobalState :=
  let currentMessageList := selectCurrentMessageList g tabId
  let canDelete :=
    match currentMessageList with
    | some ml => decide (ml.chatId = chatId) && decide (ml.type = MLType.thread)
    | none => false
  let currentThreadId := currentMessageList.map (fun ml => ml.threadId)
  posts.foldl (forwardedPostStep chatId canDelete currentThreadId tabId) g

/-- Deletes messages of a chat (deleteChatMessages): groups the ids by
    thread, strips them from every affected index list and viewport,
    lowers aggregate counts, resets views and cached threads tied to
    deleted linked forwarded channel posts, and finally removes the ids
    from the message table. -/
def deleteChatMessages (g : GlobalState) (chatId : String) (messageIds0 : List Nat) :
    GlobalState :=
  match selectChatMessages g chatId with
  | none => g
  | some byId =>
    let messageIds := orderHistoryIds messageIds0
    let start : List (Int × List Nat) × GlobalState := ([(MAIN_THREAD_ID, messageIds)], g)
    let collected := messageIds.foldl (collectThreadsStep byId chatId) start
    let updatedThreads := collected.1
    let deletedForwardedPosts := deletedForwardedPostsOf byId messageIds
    let g2 := updatedThreads.foldl (threadDeleteStep chatId messageIds) collected.2
    let g3 :=
      if deletedForwardedPosts.isEmpty then g2
      else (tabIdsOf g2).foldl (forwardedTabStep chatId deletedForwardedPosts) g2
    replaceChatMessages g3 chatId (jsOmit byId messageIds)

theorem jsOr_none_right {α : Type} (x : Option α) : jsOr x none = x := by
  cases x <;> rfl

theorem jsOr_none_left {α : Type} (x : Option α) : jsOr none x = x := rfl

theorem alookup_isSome_of_mem {κ α : Type} [DecidableEq κ] {m : List (κ × α)} {p : κ × α}
    (h : p ∈ m) : (alookup m p.1).isSome = true := by
  induction m with
  | nil => simp at h
  | cons q rest ih =>
    by_cases hq : q.1 = p.1
    · simp [alookup, hq]
    · rcases List.mem_cons.mp h with h' | h'
      · rw [h'] at hq
        exact absurd rfl hq
      · simp only [alookup, if_neg hq]
        exact ih h'

theorem selectChatMessages_replaceChatMessages_self (g : GlobalState) (chatId : String)
    (m : List (Nat × ApiMessage)) :
    selectChatMessages (replaceChatMessages g chatId m) chatId = some m := by
  simp [selectChatMessages, selectMessagesSections, replaceChatMessages, updateMessageStore,
    alookup_aset_self]

theorem jsMergeMessage_empty (u : ApiMessage) : jsMergeMessage emptyMessage u = u := by
  cases u
  simp [jsMergeMessage, emptyMessage, jsOr_none_right]

theorem applyTtlAdjustment_id (m u : ApiMessage) : (applyTtlAdjustment m u).id = u.id := by
  unfold applyTtlAdjustment
  by_cases h : u.isMediaUnread = some false ∧ hasMessageTtl m = true
  · simp only [if_pos h]
    by_cases hv : ((m.content.getD emptyContent).voice).isSome = true
    · simp [hv]
    · simp only [hv]
      by_cases hr : truthyBool ((m.content.getD emptyContent).video.map (fun v => v.isRound)) = true
      · simp [hr]
      · simp [hr]
  · simp only [if_neg h]

/-- C2: the claim that an upsert batch patches existing entities field by
    field fails on the code: the spread in addChatMessagesById puts the
    existing table last, so for an id present in both the stored entity is
    the untouched prior one, not the prior one patched by the batch entry. -/
theorem c2_counterexample :
    (selectChatMessages
        (addChatMessagesById
          { messages := { byChatId := [("c",
              { byId := [(1, { emptyMessage with id := some 1, extra := some 10 })]
              , threadsById := [] })] }
          , scheduledMessages := { byChatId := [] }
          , byTabId := [] }
          "c"
          [(1, { emptyMessage with id := some 1, extra := some 99 }),
           (2, { emptyMessage with id := some 2 })])
        "c").bind (fun m => alookup m 1)
      = some { emptyMessage with id := some 1, extra := some 10 }
    ∧ ({ emptyMessage with id := some 1, extra := some 10 } : ApiMessage)
        ≠ jsMergeMessage { emptyMessage with id := some 1, extra := some 10 }
            { emptyMessage with id := some 1, extra := some 99 } := by
  constructor
  · decide
  · decide

/-- C2 (amended): after addChatMessagesById the table maps every id of the
    batch; an id already present keeps its prior stored entity unchanged
    (the prior entry takes precedence over the batch entry), an id absent
    from the table is inserted with the batch entry as a whole, and ids
    outside the batch are untouched. -/
theorem c2_amended (g : GlobalState) (chatId : String) (newById : List (Nat × ApiMessage))
    (k : Nat) :
    (selectChatMessages (addChatMessagesById g chatId newById) chatId).bind
        (fun m => alookup m k)
      = jsOr ((selectChatMessages g chatId).bind (fun m => alookup m k)) (alookup newById k) := by
  unfold addChatMessagesById
  cases hsel : selectChatMessages g chatId with
  | none =>
    simp only [selectChatMessages_replaceChatMessages_self, Option.some_bind]
    rw [alookup_jsSpread]
    rfl
  | some byId =>
    by_cases hall : newById.all (fun p => (alookup byId p.1).isSome) = true
    · dsimp only
      rw [if_pos hall, hsel]
      simp only [Option.some_bind]
      cases hb : alookup byId k with
      | some v => simp [hb, jsOr]
      | none =>
        cases hn : alookup newById k with
        | none => simp [hb, hn, jsOr]
        | some u =>
          have hmem := alookup_mem hn
          have hsome := List.all_eq_true.mp hall _ hmem
          simp only at hsome
          rw [hb] at hsome
          simp at hsome
    · dsimp only
      rw [if_neg hall]
      rw [selectChatMessages_replaceChatMessages_self]
      simp only [Option.some_bind, hsel]
      rw [alookup_jsSpread]

/-- C3: addChatMessagesById is idempotent, and when every id of the batch
    already exists in the message table of the chat the call returns the
    input state unchanged. -/
theorem c3_theorem (g : GlobalState) (chatId : String) (newById : List (Nat × ApiMessage)) :
    addChatMessagesById (addChatMessagesById g chatId newById) chatId newById
        = addChatMessagesById g chatId newById
    ∧ (∀ byId, selectChatMessages g chatId = some byId →
        newById.all (fun p => (alookup byId p.1).isSome) = true →
        addChatMessagesById g chatId newById = g) := by
  constructor
  · have hshort : ∀ h : GlobalState, ∀ tbl, selectChatMessages h chatId = some tbl →
        newById.all (fun p => (alookup tbl p.1).isSome) = true →
        addChatMessagesById h chatId newById = h := by
      intro h tbl hsel hall
      unfold addChatMessagesById
      rw [hsel]
      dsimp only
      rw [if_pos hall]
    have hallSpread : ∀ tbl, newById.all
        (fun p => (alookup (jsSpread newById tbl) p.1).isSome) = true := by
      intro tbl
      apply List.all_eq_true.mpr
      intro p hp
      rw [alookup_jsSpread]
      have := alookup_isSome_of_mem hp
      cases hn : alookup newById p.1 with
      | none => rw [hn] at this; simp at this
      | some u => cases alookup tbl p.1 <;> simp [jsOr]
    unfold addChatMessagesById
    cases hsel : selectChatMessages g chatId with
    | none =>
      dsimp only
      exact hshort _ _ (selectChatMessages_replaceChatMessages_self g chatId _) (hallSpread [])
    | some byId =>
      dsimp only
      by_cases hall : newById.all (fun p => (alookup byId p.1).isSome) = true
      · rw [if_pos hall]
        exact hshort g byId hsel hall
      · rw [if_neg hall]
        exact hshort _ _ (selectChatMessages_replaceChatMessages_self g chatId _)
          (hallSpread byId)
  · intro byId hsel hall
    unfold addChatMessagesById
    rw [hsel]
    dsimp only
    rw [if_pos hall]

/-- Input state of the C3 witness. -/
def gW3 : GlobalState :=
  { messages := { byChatId := [("c",
      { byId := [(1, { emptyMessage with id := some 1 })], threadsById := [] })] }
  , scheduledMessages := { byChatId := [] }
  , byTabId := [] }

/-- C3 witness: a batch whose single id already exists short-circuits. -/
theorem c3_witness :
    addChatMessagesById gW3 "c" [(1, { emptyMessage with id := some 1 })] = gW3 := by
  exact (c3_theorem gW3 "c" [(1, { emptyMessage with id := some 1 })]).2
    [(1, { emptyMessage with id := some 1 })] (by decide) (by decide)

/-- C9: a patch whose merged result lacks an id is discarded: both
    updateChatMessage and updateScheduledMessage return the input state
    unchanged when the merge of the existing entity (possibly absent) with
    the patch has no id. -/
theorem c9_theorem (g : GlobalState) (chatId : String) (messageId : Nat) (u : ApiMessage) :
    (truthyNat (jsMergeMessage
        ((alookup ((selectChatMessages g chatId).getD []) messageId).getD emptyMessage)
        u).id = false →
      updateChatMessage g chatId messageId u = g)
    ∧ (truthyNat (jsMergeMessage
        ((selectScheduledMessage g chatId messageId).getD emptyMessage) u).id = false →
      updateScheduledMessage g chatId messageId u = g) := by
  constructor
  · intro hid
    unfold updateChatMessage
    have hadj : ∀ m : Option ApiMessage,
        (jsMergeMessage (m.getD emptyMessage)
          (match m with | some mm => applyTtlAdjustment mm u | none => u)).id
        = (jsMergeMessage (m.getD emptyMessage) u).id := by
      intro m
      cases m with
      | none => rfl
      | some mm =>
        show jsOr (applyTtlAdjustment mm u).id mm.id = jsOr u.id mm.id
        rw [applyTtlAdjustment_id]
    have hid2 : truthyNat (jsMergeMessage
        (((alookup ((selectChatMessages g chatId).getD []) messageId)).getD emptyMessage)
        (match alookup ((selectChatMessages g chatId).getD []) messageId with
         | some mm => applyTtlAdjustment mm u
         | none => u)).id = false := by
      rw [hadj]
      exact hid
    simp only [hid2, Bool.false_eq_true, if_false]
  · intro hid
    unfold updateScheduledMessage
    simp only [hid, Bool.false_eq_true, if_false]

/-- C9 witness: an id-less patch on an absent message changes nothing. -/
theorem c9_witness :
    updateChatMessage
        { messages := { byChatId := [] }
        , scheduledMessages := { byChatId := [] }
        , byTabId := [] }
        "c" 5 { emptyMessage with extra := some 3 }
      = { messages := { byChatId := [] }
        , scheduledMessages := { byChatId := [] }
        , byTabId := [] } := by
  exact (c9_theorem _ "c" 5 _).1 (by decide)

/-- C10: patching acts as an insert on absence: with no existing entry and
    a patch carrying a truthy id, updateChatMessage stores the patch object
    itself under the given message-id key. -/
theorem c10_theorem (g : GlobalState) (chatId : String) (messageId : Nat) (u : ApiMessage)
    (habsent : alookup ((selectChatMessages g chatId).getD []) messageId = none)
    (hid : truthyNat u.id = true) :
    selectChatMessage (updateChatMessage g chatId messageId u) chatId messageId = some u := by
  unfold updateChatMessage
  simp only [habsent, Option.getD_none, jsMergeMessage_empty, hid, if_true]
  unfold selectChatMessage
  rw [selectChatMessages_replaceChatMessages_self]
  simp only [Option.some_bind]
  exact alookup_aset_self _ _ _

/-- C10 witness: inserting message 5 into an empty chat stores the patch. -/
theorem c10_witness :
    selectChatMessage
        (updateChatMessage
          { messages := { byChatId := [] }
          , scheduledMessages := { byChatId := [] }
          , byTabId := [] }
          "c" 5 { emptyMessage with id := some 5, extra := some 3 })
        "c" 5
      = some { emptyMessage with id := some 5, extra := some 3 } := by
  exact c10_theorem _ "c" 5 _ (by decide) (by decide)

theorem updateThread_byTabId (g : GlobalState) (chatId : String) (threadId : Int)
    (upd : Option (Thread → Thread)) : (updateThread g chatId threadId upd).byTabId = g.byTabId := by
  cases upd <;> rfl

theorem selectViewportIds_replaceTab_self (g : GlobalState) (chatId : String) (threadId : Int)
    (v : Option (List Nat)) (tabId : Nat) :
    selectViewportIds (replaceTabThreadParamViewportIds g chatId threadId v tabId)
      chatId threadId tabId = v := by
  unfold replaceTabThreadParamViewportIds updateTabThread updateTabState selectViewportIds
    selectTabThread selectTabStateD
  simp [alookup_aset_self]

theorem takeLastJs_length_le {α : Type} (l : List α) (k : Nat) : (takeLastJs l k).length ≤ k := by
  unfold takeLastJs
  rw [List.length_drop]
  omega

/-- C5: adding a fresh id to a viewport window keeps its length within the
    hard cap, an insertion at capacity keeps exactly the most recent half
    slice of the old window plus the new id, and adding an id already in
    the window leaves the state unchanged. -/
theorem c5_theorem (g : GlobalState) (chatId : String) (threadId : Int) (newId : Nat)
    (tabId : Nat) :
    (newId ∉ (selectViewportIds g chatId threadId tabId).getD [] →
      ∃ newIds,
        selectViewportIds (addViewportId g chatId threadId newId tabId) chatId threadId tabId
            = some newIds
        ∧ newIds.length ≤ MESSAGE_LIST_VIEWPORT_LIMIT
        ∧ (MESSAGE_LIST_VIEWPORT_LIMIT ≤
              ((selectViewportIds g chatId threadId tabId).getD []).length →
            List.Perm newIds
              (takeLastJs ((selectViewportIds g chatId threadId tabId).getD [])
                  (MESSAGE_LIST_SLICE / 2) ++ [newId])))
    ∧ (newId ∈ (selectViewportIds g chatId threadId tabId).getD [] →
      addViewportId g chatId threadId newId tabId = g) := by
  constructor
  · intro hmem
    unfold addViewportId
    rw [if_neg hmem]
    refine ⟨_, selectViewportIds_replaceTab_self _ _ _ _ _, ?_, ?_⟩
    · rw [length_orderHistoryIds, List.length_append]
      by_cases hlen : ((selectViewportIds g chatId threadId tabId).getD []).length
          < MESSAGE_LIST_VIEWPORT_LIMIT
      · rw [if_pos hlen]
        simp only [List.length_singleton]
        omega
      · rw [if_neg hlen]
        have := takeLastJs_length_le ((selectViewportIds g chatId threadId tabId).getD [])
          (MESSAGE_LIST_SLICE / 2)
        simp only [List.length_singleton]
        unfold MESSAGE_LIST_SLICE MESSAGE_LIST_VIEWPORT_LIMIT at *
        omega
    · intro hcap
      have hnotlt : ¬ ((selectViewportIds g chatId threadId tabId).getD []).length
          < MESSAGE_LIST_VIEWPORT_LIMIT := by omega
      rw [if_neg hnotlt]
      exact orderHistoryIds_perm _
  · intro hmem
    unfold addViewportId
    rw [if_pos hmem]

/-- Tab state of the C5 witness: one viewport holding id 3. -/
def tabW5 : TabState :=
  { id := 1, messageLists := []
  , tabThreads := [("c", [(5, { viewportIds := some [3] })])]
  , selectedMessages := none }

/-- C5 witness state: one tab with a singleton viewport. -/
def gW5 : GlobalState :=
  { messages := { byChatId := [] }
  , scheduledMessages := { byChatId := [] }
  , byTabId := [(1, tabW5)] }

/-- C5 witness: the fresh-id branch of the viewport bound at a concrete state. -/
theorem c5_witness :
    7 ∉ (selectViewportIds gW5 "c" 5 1).getD []
    ∧ ∃ newIds,
        selectViewportIds (addViewportId gW5 "c" 5 7 1) "c" 5 1 = some newIds
        ∧ newIds.length ≤ MESSAGE_LIST_VIEWPORT_LIMIT
        ∧ (MESSAGE_LIST_VIEWPORT_LIMIT ≤ ((selectViewportIds gW5 "c" 5 1).getD []).length →
            List.Perm newIds
              (takeLastJs ((selectViewportIds gW5 "c" 5 1).getD [])
                (MESSAGE_LIST_SLICE / 2) ++ [7])) := by
  refine ⟨by decide, (c5_theorem gW5 "c" 5 7 1).1 (by decide)⟩

theorem selectTabStateD_updateTabState_self (g : GlobalState) (upd : TabState → TabState)
    (tabId : Nat) :
    selectTabStateD (updateTabState g upd tabId) tabId = upd (selectTabStateD g tabId) := by
  unfold updateTabState selectTabStateD
  rw [alookup_aset_self]
  rfl

/-- C8 counterexample state: one fresh tab with no selection. -/
def gW8 : GlobalState :=
  { messages := { byChatId := [] }
  , scheduledMessages := { byChatId := [] }
  , byTabId := [(1, defaultTabState 1)] }

/-- C8: the claim that entering selection mode with zero ids leaves the
    store absent fails on the code: enterMessageSelectMode always writes a
    selection record, so with zero ids the store becomes present with an
    empty id list rather than staying absent. -/
theorem c8_counterexample :
    (selectTabStateD (enterMessageSelectMode gW8 "c" none 1) 1).selectedMessages
      = some { chatId := "c", messageIds := [] } := by
  decide

theorem selection_after_toggle (g : GlobalState) (tabId : Nat) (old : SelectedMessages)
    (nm : List Nat) :
    (selectTabStateD
        (if nm.isEmpty = true then exitMessageSelectMode g tabId
         else updateTabState g
           (fun ts => { ts with selectedMessages := some { old with messageIds := nm } }) tabId)
        tabId).selectedMessages = none
    ∨ ∃ s, (selectTabStateD
        (if nm.isEmpty = true then exitMessageSelectMode g tabId
         else updateTabState g
           (fun ts => { ts with selectedMessages := some { old with messageIds := nm } }) tabId)
        tabId).selectedMessages = some s ∧ s.messageIds ≠ [] := by
  by_cases he : nm.isEmpty = true
  · left
    rw [if_pos he]
    unfold exitMessageSelectMode
    rw [selectTabStateD_updateTabState_self]
  · right
    rw [if_neg he]
    refine ⟨{ chatId := old.chatId, messageIds := nm }, ?_, ?_⟩
    · rw [selectTabStateD_updateTabState_self]
    · intro hnil
      apply he
      have hn : nm = [] := hnil
      rw [hn]
      rfl

theorem isEmpty_iff_nil (l : List Nat) : l.isEmpty = true ↔ l = [] := by
  cases l <;> simp

theorem selection_toggle_core (g : GlobalState) (tabId : Nat) (old : SelectedMessages)
    (nm : List Nat) :
    ((selectTabStateD
        (if nm.isEmpty = true then exitMessageSelectMode g tabId
         else updateTabState g
           (fun ts => { ts with selectedMessages := some { old with messageIds := nm } }) tabId)
        tabId).selectedMessages = none ↔ nm = [])
    ∧ (nm ≠ [] →
      (selectTabStateD
        (if nm.isEmpty = true then exitMessageSelectMode g tabId
         else updateTabState g
           (fun ts => { ts with selectedMessages := some { old with messageIds := nm } }) tabId)
        tabId).selectedMessages = some { chatId := old.chatId, messageIds := nm }) := by
  by_cases he : nm.isEmpty = true
  · refine ⟨?_, ?_⟩
    · rw [if_pos he]
      unfold exitMessageSelectMode
      rw [selectTabStateD_updateTabState_self]
      exact ⟨fun _ => (isEmpty_iff_nil nm).mp he, fun _ => rfl⟩
    · intro hne
      exact absurd ((isEmpty_iff_nil nm).mp he) hne
  · refine ⟨?_, ?_⟩
    · rw [if_neg he]
      rw [selectTabStateD_updateTabState_self]
      constructor
      · intro hcontra
        exact absurd hcontra (by simp)
      · intro hnil
        exact absurd ((isEmpty_iff_nil nm).mpr hnil) he
    · intro _
      rw [if_neg he]
      rw [selectTabStateD_updateTabState_self]

/-- C8 (amended): enterMessageSelectMode with zero ids stores a present
    selection record with an empty id list; toggleMessageSelection on a
    present selection removes the store exactly when the toggle empties the
    resolved selection, and otherwise leaves a record holding exactly the
    new non-empty id list; in particular toggling the only selected id with
    no group resolution removes the store. -/
theorem c8_amended (g : GlobalState) (chatId : String) (threadId : Int)
    (messageListType : MLType) (messageId : Nat) (groupedId : Option String)
    (childMessageIds0 : Option (List Nat)) (withShift : Bool) (tabId : Nat) :
    ((selectTabStateD (enterMessageSelectMode g chatId none tabId) tabId).selectedMessages
        = some { chatId := chatId, messageIds := [] })
    ∧ (∀ old selIds nm, (selectTabStateD g tabId).selectedMessages = some old →
        selIds = ((groupedId.map
            (fun gid => selectMessageIdsByGroupId g chatId gid)).getD
          childMessageIds0).getD [messageId] →
        nm = toggleNewMessageIds g chatId threadId messageListType messageId withShift tabId
          selIds old.messageIds →
        (((selectTabStateD (toggleMessageSelection g chatId threadId messageListType
              messageId groupedId childMessageIds0 withShift tabId) tabId).selectedMessages
            = none
          ↔ nm = [])
        ∧ (nm ≠ [] →
          (selectTabStateD (toggleMessageSelection g chatId threadId messageListType
              messageId groupedId childMessageIds0 withShift tabId) tabId).selectedMessages
            = some { chatId := old.chatId, messageIds := nm })))
    ∧ (∀ c0, (selectTabStateD g tabId).selectedMessages
          = some { chatId := c0, messageIds := [messageId] } →
        (selectTabStateD (toggleMessageSelection g chatId threadId messageListType messageId
            none none withShift tabId) tabId).selectedMessages = none) := by
  refine ⟨?_, ?_, ?_⟩
  · unfold enterMessageSelectMode
    rw [selectTabStateD_updateTabState_self]
  · intro old selIds nm hold hsel hnm
    unfold toggleMessageSelection
    simp only [hold]
    cases groupedId with
    | none =>
      simp only [Option.map_none', Option.getD_none] at hsel
      cases childMessageIds0 with
      | none =>
        simp only [Option.getD_none] at hsel
        dsimp only
        subst hsel
        rw [← hnm]
        exact selection_toggle_core g tabId old nm
      | some l =>
        simp only [Option.getD_some] at hsel
        dsimp only
        subst hsel
        rw [← hnm]
        exact selection_toggle_core g tabId old nm
    | some gid =>
      simp only [Option.map_some', Option.getD_some] at hsel
      dsimp only
      cases hgr : selectMessageIdsByGroupId g chatId gid with
      | none =>
        rw [hgr] at hsel
        simp only [Option.getD_none] at hsel
        subst hsel
        rw [← hnm]
        exact selection_toggle_core g tabId old nm
      | some l =>
        rw [hgr] at hsel
        simp only [Option.getD_some] at hsel
        subst hsel
        rw [← hnm]
        exact selection_toggle_core g tabId old nm
  · intro c0 hold
    unfold toggleMessageSelection
    simp only [hold]
    have hnm : toggleNewMessageIds g chatId threadId messageListType messageId
        withShift tabId [messageId] [messageId] = [] := by
      unfold toggleNewMessageIds
      simp
    simp only [hnm]
    rw [if_pos (show ([] : List Nat).isEmpty = true from rfl)]
    unfold exitMessageSelectMode
    rw [selectTabStateD_updateTabState_self]

/-- Tab state of the C8 witness: a selection holding exactly id 4. -/
def tabW8b : TabState :=
  { id := 1, messageLists := [], tabThreads := []
  , selectedMessages := some { chatId := "c", messageIds := [4] } }

/-- C8 witness state: one tab whose selection holds exactly id 4. -/
def gW8b : GlobalState :=
  { messages := { byChatId := [] }
  , scheduledMessages := { byChatId := [] }
  , byTabId := [(1, tabW8b)] }

/-- C8 witness: toggling the only selected id removes the selection store,
    and toggling a fresh id on the same selection leaves a present record
    holding both ids. -/
theorem c8_witness :
    (selectTabStateD (toggleMessageSelection gW8b "c" (-1) MLType.thread 4 none none false 1)
        1).selectedMessages = none
    ∧ (selectTabStateD (toggleMessageSelection gW8b "c" (-1) MLType.thread 5 none none false 1)
        1).selectedMessages = some { chatId := "c", messageIds := [4, 5] } := by
  refine ⟨?_, ?_⟩
  · exact (c8_amended gW8b "c" (-1) MLType.thread 4 none none false 1).2.2 "c" (by decide)
  · exact ((c8_amended gW8b "c" (-1) MLType.thread 5 none none false 1).2.1
      { chatId := "c", messageIds := [4] } [5] [4, 5] (by decide) (by decide)
      (by decide)).2 (by decide)

theorem selectThreadRec_updateThread_some (g : GlobalState) (chatId : String) (threadId : Int)
    (f : Thread → Thread) (c' : String) (t' : Int) :
    selectThreadRec (updateThread g chatId threadId (some f)) c' t'
      = if c' = chatId ∧ t' = threadId then
          some (f ((selectThreadRec g chatId threadId).getD emptyThread))
        else selectThreadRec g c' t' := by
  by_cases hc : c' = chatId
  · subst hc
    by_cases ht : t' = threadId
    · subst ht
      simp only [and_self, if_true]
      unfold updateThread updateMessageStore selectThreadRec selectMessagesSections
      simp [alookup_aset_self]
    · simp only [ht, and_false, if_false]
      unfold updateThread updateMessageStore selectThreadRec selectMessagesSections
      simp only [alookup_aset_self, Option.some_bind]
      rw [alookup_aset_ne _ _ _ _ ht]
      cases hx : alookup g.messages.byChatId c' with
      | none => simp [emptySections, alookup]
      | some s => simp
  · simp only [hc, false_and, if_false]
    unfold updateThread updateMessageStore selectThreadRec selectMessagesSections
    simp only []
    rw [alookup_aset_ne _ _ _ _ hc]

theorem selectThreadRec_updateThread_none (g : GlobalState) (chatId : String) (threadId : Int)
    (c' : String) (t' : Int) :
    selectThreadRec (updateThread g chatId threadId none) c' t'
      = if c' = chatId ∧ t' = threadId then none else selectThreadRec g c' t' := by
  by_cases hc : c' = chatId
  · subst hc
    unfold updateThread updateMessageStore selectThreadRec selectMessagesSections
    simp only [alookup_aset_self, Option.some_bind]
    rw [alookup_jsOmit]
    by_cases ht : t' = threadId
    · simp [ht]
    · simp only [ht, and_false, if_false, List.mem_singleton, ht, if_neg]
      cases hx : alookup g.messages.byChatId c' with
      | none => simp [emptySections, alookup, ht]
      | some s => simp [ht]
  · simp only [hc, false_and, if_false]
    unfold updateThread updateMessageStore selectThreadRec selectMessagesSections
    simp only []
    rw [alookup_aset_ne _ _ _ _ hc]

theorem selectThreadInfo_replaceThreadParamThreadInfo_self (g : GlobalState) (chatId : String)
    (threadId : Int) (v : Option ApiThreadInfo) :
    selectThreadInfo (replaceThreadParamThreadInfo g chatId threadId v) chatId threadId = v := by
  unfold selectThreadInfo replaceThreadParamThreadInfo
  rw [selectThreadRec_updateThread_some]
  simp

theorem selectThreadRec_replaceThreadParamThreadInfo_ne (g : GlobalState) (chatId : String)
    (threadId : Int) (v : Option ApiThreadInfo) (c' : String) (t' : Int)
    (h : ¬ (c' = chatId ∧ t' = threadId)) :
    selectThreadRec (replaceThreadParamThreadInfo g chatId threadId v) c' t'
      = selectThreadRec g c' t' := by
  unfold replaceThreadParamThreadInfo
  rw [selectThreadRec_updateThread_some, if_neg h]

theorem updateThreadInfo_true_eq (g : GlobalState) (chatId : String) (threadId : Int)
    (u : ApiThreadInfo) :
    updateThreadInfo g chatId threadId u true
      = replaceThreadParamThreadInfo g chatId threadId
          (some (mergeThreadInfo (selectThreadInfo g chatId threadId) u)) := by
  rw [updateThreadInfo]

theorem updateThreadInfo_false_comments_eq (g : GlobalState) (chatId : String) (threadId : Int)
    (u : ApiThreadInfo)
    (hC : truthyBool (mergeThreadInfo (selectThreadInfo g chatId threadId) u).isCommentsInfo
        = true)
    (hT : truthyInt (mergeThreadInfo (selectThreadInfo g chatId threadId) u).threadId = true) :
    updateThreadInfo g chatId threadId u false
      = replaceThreadParamThreadInfo
          (updateThreadInfo g
            ((mergeThreadInfo (selectThreadInfo g chatId threadId) u).chatId.getD "undefined")
            ((mergeThreadInfo (selectThreadInfo g chatId threadId) u).threadId.getD 0)
            (pickLinkedFields (mergeThreadInfo (selectThreadInfo g chatId threadId) u)) true)
          chatId threadId
          (some (mergeThreadInfo (selectThreadInfo g chatId threadId) u)) := by
  conv_lhs => rw [updateThreadInfo]
  simp only [hC, hT, if_true]

theorem updateThreadInfo_false_origin_eq (g : GlobalState) (chatId : String) (threadId : Int)
    (u : ApiThreadInfo)
    (hC : truthyBool (mergeThreadInfo (selectThreadInfo g chatId threadId) u).isCommentsInfo
        = false)
    (hS : truthyStr (mergeThreadInfo (selectThreadInfo g chatId threadId) u).fromChannelId
        = true)
    (hM : truthyInt (mergeThreadInfo (selectThreadInfo g chatId threadId) u).fromMessageId
        = true) :
    updateThreadInfo g chatId threadId u false
      = replaceThreadParamThreadInfo
          (updateThreadInfo g
            ((mergeThreadInfo (selectThreadInfo g chatId threadId) u).fromChannelId.getD
              "undefined")
            ((mergeThreadInfo (selectThreadInfo g chatId threadId) u).fromMessageId.getD 0)
            (pickLinkedFields (mergeThreadInfo (selectThreadInfo g chatId threadId) u)) true)
          chatId threadId
          (some (mergeThreadInfo (selectThreadInfo g chatId threadId) u)) := by
  conv_lhs => rw [updateThreadInfo]
  simp only [hC, hS, hM, Bool.false_eq_true, if_false, and_self, if_true]

/-- C4: merging a partial update into the info of a thread that the merged
    info marks as a comments view of a linked thread, or as originating
    from a channel post, also applies the restricted field set of the
    merged info to the linked thread when the cascade is not suppressed,
    touches no third thread (one hop), and with the cascade suppressed
    changes only the local thread. -/
theorem c4_theorem (g : GlobalState) (chatId : String) (threadId : Int) (u : ApiThreadInfo) :
    (∀ c' t',
      (mergeThreadInfo (selectThreadInfo g chatId threadId) u).isCommentsInfo = some true →
      (mergeThreadInfo (selectThreadInfo g chatId threadId) u).threadId = some t' →
      t' ≠ 0 →
      (mergeThreadInfo (selectThreadInfo g chatId threadId) u).chatId = some c' →
      ¬ (c' = chatId ∧ t' = threadId) →
      selectThreadInfo (updateThreadInfo g chatId threadId u false) chatId threadId
          = some (mergeThreadInfo (selectThreadInfo g chatId threadId) u)
        ∧ selectThreadInfo (updateThreadInfo g chatId threadId u false) c' t'
          = some (mergeThreadInfo (selectThreadInfo g c' t')
              (pickLinkedFields (mergeThreadInfo (selectThreadInfo g chatId threadId) u)))
        ∧ ∀ c2 t2, ¬ (c2 = chatId ∧ t2 = threadId) → ¬ (c2 = c' ∧ t2 = t') →
            selectThreadRec (updateThreadInfo g chatId threadId u false) c2 t2
              = selectThreadRec g c2 t2)
    ∧ (∀ c' t',
      truthyBool (mergeThreadInfo (selectThreadInfo g chatId threadId) u).isCommentsInfo
          = false →
      (mergeThreadInfo (selectThreadInfo g chatId threadId) u).fromChannelId = some c' →
      c' ≠ "" →
      (mergeThreadInfo (selectThreadInfo g chatId threadId) u).fromMessageId = some t' →
      t' ≠ 0 →
      ¬ (c' = chatId ∧ t' = threadId) →
      selectThreadInfo (updateThreadInfo g chatId threadId u false) chatId threadId
          = some (mergeThreadInfo (selectThreadInfo g chatId threadId) u)
        ∧ selectThreadInfo (updateThreadInfo g chatId threadId u false) c' t'
          = some (mergeThreadInfo (selectThreadInfo g c' t')
              (pickLinkedFields (mergeThreadInfo (selectThreadInfo g chatId threadId) u)))
        ∧ ∀ c2 t2, ¬ (c2 = chatId ∧ t2 = threadId) → ¬ (c2 = c' ∧ t2 = t') →
            selectThreadRec (updateThreadInfo g chatId threadId u false) c2 t2
              = selectThreadRec g c2 t2)
    ∧ (selectThreadInfo (updateThreadInfo g chatId threadId u true) chatId threadId
          = some (mergeThreadInfo (selectThreadInfo g chatId threadId) u)
        ∧ ∀ c2 t2, ¬ (c2 = chatId ∧ t2 = threadId) →
            selectThreadRec (updateThreadInfo g chatId threadId u true) c2 t2
              = selectThreadRec g c2 t2) := by
  refine ⟨?_, ?_, ?_⟩
  · intro c' t' hCi hTi hT0 hCh hne
    have hC : truthyBool (mergeThreadInfo (selectThreadInfo g chatId threadId) u).isCommentsInfo
        = true := by rw [hCi]; rfl
    have hT : truthyInt (mergeThreadInfo (selectThreadInfo g chatId threadId) u).threadId
        = true := by rw [hTi]; simp [truthyInt, hT0]
    rw [updateThreadInfo_false_comments_eq g chatId threadId u hC hT, updateThreadInfo_true_eq,
      hCh, hTi]
    simp only [Option.getD_some]
    refine ⟨selectThreadInfo_replaceThreadParamThreadInfo_self _ _ _ _, ?_, ?_⟩
    · unfold selectThreadInfo
      rw [selectThreadRec_replaceThreadParamThreadInfo_ne _ _ _ _ _ _ hne]
      exact selectThreadInfo_replaceThreadParamThreadInfo_self _ _ _ _
    · intro c2 t2 h2a h2b
      rw [selectThreadRec_replaceThreadParamThreadInfo_ne _ _ _ _ _ _ h2a,
        selectThreadRec_replaceThreadParamThreadInfo_ne _ _ _ _ _ _ h2b]
  · intro c' t' hC hCh hne0 hTi hT0 hne
    have hS : truthyStr (mergeThreadInfo (selectThreadInfo g chatId threadId) u).fromChannelId
        = true := by rw [hCh]; simp [truthyStr, hne0]
    have hM : truthyInt (mergeThreadInfo (selectThreadInfo g chatId threadId) u).fromMessageId
        = true := by rw [hTi]; simp [truthyInt, hT0]
    rw [updateThreadInfo_false_origin_eq g chatId threadId u hC hS hM, updateThreadInfo_true_eq,
      hCh, hTi]
    simp only [Option.getD_some]
    refine ⟨selectThreadInfo_replaceThreadParamThreadInfo_self _ _ _ _, ?_, ?_⟩
    · unfold selectThreadInfo
      rw [selectThreadRec_replaceThreadParamThreadInfo_ne _ _ _ _ _ _ hne]
      exact selectThreadInfo_replaceThreadParamThreadInfo_self _ _ _ _
    · intro c2 t2 h2a h2b
      rw [selectThreadRec_replaceThreadParamThreadInfo_ne _ _ _ _ _ _ h2a,
        selectThreadRec_replaceThreadParamThreadInfo_ne _ _ _ _ _ _ h2b]
  · rw [updateThreadInfo_true_eq]
    refine ⟨selectThreadInfo_replaceThreadParamThreadInfo_self _ _ _ _, ?_⟩
    intro c2 t2 h2
    exact selectThreadRec_replaceThreadParamThreadInfo_ne _ _ _ _ _ _ h2

/-- Info of the C4 witness thread: a comments view linked to thread 100 of
    chat o. -/
def infoW4 : ApiThreadInfo :=
  { emptyThreadInfo with
      isCommentsInfo := some true
      chatId := some "o"
      threadId := some 100
      messagesCount := some 3 }

/-- The C4 witness thread record. -/
def thrW4 : Thread := { emptyThread with threadInfo := some infoW4 }

/-- The C4 witness state: chat d holds the comments thread 5. -/
def gW4 : GlobalState :=
  { messages := { byChatId := [("d", { byId := [], threadsById := [(5, thrW4)] })] }
  , scheduledMessages := { byChatId := [] }
  , byTabId := [] }

/-- The C4 witness update: a new message count. -/
def updW4 : ApiThreadInfo := { emptyThreadInfo with messagesCount := some 7 }

/-- C4 witness: the cascade propagates the restricted fields of the merged
    info to the linked thread at a concrete state. -/
theorem c4_witness :
    selectThreadInfo (updateThreadInfo gW4 "d" 5 updW4 false) "o" 100
      = some (mergeThreadInfo (selectThreadInfo gW4 "o" 100)
          (pickLinkedFields (mergeThreadInfo (selectThreadInfo gW4 "d" 5) updW4))) := by
  exact ((c4_theorem gW4 "d" 5 updW4).1 "o" 100 (by decide) (by decide) (by decide)
    (by decide) (by decide)).2.1

theorem nodup_keys_aset {κ α : Type} [DecidableEq κ] (m : List (κ × α)) (k : κ) (v : α)
    (h : (m.map Prod.fst).Nodup) : ((aset m k v).map Prod.fst).Nodup := by
  induction m with
  | nil => simp [aset]
  | cons p rest ih =>
    by_cases hp : p.1 = k
    · subst hp
      simpa [aset] using h
    · simp only [aset, if_neg hp, List.map_cons, List.nodup_cons] at h ⊢
      constructor
      · intro hmem
        rcases h with ⟨hnot, _⟩
        apply hnot
        have : ∀ q ∈ aset rest k v, q.1 = p.1 → p.1 ∈ rest.map Prod.fst := by
          intro q hq hq1
          rcases mem_aset hq with hq' | hq'
          · rw [← hq1]
            exact List.mem_map_of_mem Prod.fst hq'
          · rw [hq'] at hq1
            exact absurd hq1.symm hp
        rcases List.mem_map.mp hmem with ⟨q, hq, hq1⟩
        exact this q hq hq1
      · exact ih h.2

theorem alookup_eq_of_mem_nodup {κ α : Type} [DecidableEq κ] {m : List (κ × α)}
    (h : (m.map Prod.fst).Nodup) {k : κ} {v : α} (hm : (k, v) ∈ m) :
    alookup m k = some v := by
  induction m with
  | nil => simp at hm
  | cons p rest ih =>
    simp only [List.map_cons, List.nodup_cons] at h
    rcases List.mem_cons.mp hm with hm' | hm'
    · rw [← hm']
      simp [alookup]
    · have hne : p.1 ≠ k := by
        intro hq
        apply h.1
        rw [hq]
        exact List.mem_map_of_mem Prod.fst hm'
      simp only [alookup, if_neg hne]
      exact ih h.2 hm'

theorem selectOptField_updateThread_some {β : Type} (F : Thread → Option β)
    (g : GlobalState) (chatId : String) (threadId : Int) (f : Thread → Thread)
    (hf : ∀ th, F (f th) = F th) (hempty : F emptyThread = none) (c2 : String) (t2 : Int) :
    (selectThreadRec (updateThread g chatId threadId (some f)) c2 t2).bind F
      = (selectThreadRec g c2 t2).bind F := by
  rw [selectThreadRec_updateThread_some]
  by_cases h : c2 = chatId ∧ t2 = threadId
  · rw [if_pos h]
    obtain ⟨hc, ht⟩ := h
    subst hc
    subst ht
    cases hx : selectThreadRec g c2 t2 with
    | none => simp [hf, hempty]
    | some th => simp [hf]
  · rw [if_neg h]

theorem selectScheduledIds_replaceScheduledIds (g : GlobalState) (chatId : String)
    (threadId : Int) (v : Option (List Nat)) (c2 : String) (t2 : Int) :
    selectScheduledIds (replaceThreadParamScheduledIds g chatId threadId v) c2 t2
      = if c2 = chatId ∧ t2 = threadId then v else selectScheduledIds g c2 t2 := by
  unfold selectScheduledIds replaceThreadParamScheduledIds
  rw [selectThreadRec_updateThread_some]
  by_cases h : c2 = chatId ∧ t2 = threadId
  · rw [if_pos h, if_pos h]
    simp
  · rw [if_neg h, if_neg h]

theorem selectThreadInfo_replaceScheduledIds (g : GlobalState) (chatId : String)
    (threadId : Int) (v : Option (List Nat)) (c2 : String) (t2 : Int) :
    selectThreadInfo (replaceThreadParamScheduledIds g chatId threadId v) c2 t2
      = selectThreadInfo g c2 t2 := by
  unfold selectThreadInfo replaceThreadParamScheduledIds
  exact selectOptField_updateThread_some (fun th => th.threadInfo) g chatId threadId
    (fun th => { th with scheduledIds := v }) (fun th => rfl) rfl c2 t2

theorem schedThreadStep_byTabId (chatId : String) (messageIds : List Nat) (g4 : GlobalState)
    (pair : Int × Thread) :
    (schedThreadStep chatId messageIds g4 pair).byTabId = g4.byTabId := by
  unfold schedThreadStep
  cases pair.2.scheduledIds with
  | none => rfl
  | some sids => exact updateThread_byTabId _ _ _ _

theorem schedFold_clean (chatId : String) (messageIds : List Nat) :
    ∀ (threads : List (Int × Thread)) (g4 : GlobalState),
    (threads.map Prod.fst).Nodup →
    (∀ p ∈ threads, selectScheduledIds g4 chatId p.1 = p.2.scheduledIds) →
    ((∀ p ∈ threads, ∀ d ∈ messageIds,
        d ∉ (selectScheduledIds (threads.foldl (schedThreadStep chatId messageIds) g4)
          chatId p.1).getD [])
      ∧ (∀ t, t ∉ threads.map Prod.fst →
          selectScheduledIds (threads.foldl (schedThreadStep chatId messageIds) g4) chatId t
            = selectScheduledIds g4 chatId t)
      ∧ (threads.foldl (schedThreadStep chatId messageIds) g4).byTabId = g4.byTabId
      ∧ (∀ c2 t2, selectThreadInfo (threads.foldl (schedThreadStep chatId messageIds) g4) c2 t2
            = selectThreadInfo g4 c2 t2)) := by
  intro threads
  induction threads with
  | nil =>
    intro g4 hnd hagree
    refine ⟨by simp, by intro t ht; rfl, rfl, by intro c2 t2; rfl⟩
  | cons q rest ih =>
    intro g4 hnd hagree
    simp only [List.map_cons, List.nodup_cons] at hnd
    have hstep : ∀ t, selectScheduledIds (schedThreadStep chatId messageIds g4 q) chatId t
        = if t = q.1 ∧ (q.2.scheduledIds).isSome then
            (q.2.scheduledIds.getD []).filter (fun id => decide (id ∉ messageIds))
              |> some
          else selectScheduledIds g4 chatId t := by
      intro t
      unfold schedThreadStep
      cases hq : q.2.scheduledIds with
      | none => simp [hq]
      | some sids =>
        rw [selectScheduledIds_replaceScheduledIds]
        by_cases ht : t = q.1
        · simp [ht, hq]
        · simp [ht, hq]
    have hagree2 : ∀ p ∈ rest, selectScheduledIds (schedThreadStep chatId messageIds g4 q)
        chatId p.1 = p.2.scheduledIds := by
      intro p hp
      rw [hstep]
      have hne : p.1 ≠ q.1 := by
        intro he
        apply hnd.1
        rw [← he]
        exact List.mem_map_of_mem Prod.fst hp
      simp only [hne, false_and, if_false]
      exact hagree p (List.mem_cons_of_mem _ hp)
    have hrest := ih (schedThreadStep chatId messageIds g4 q) hnd.2 hagree2
    simp only [List.foldl_cons]
    refine ⟨?_, ?_, ?_, ?_⟩
    · intro p hp d hd
      rcases List.mem_cons.mp hp with hp' | hp'
      · subst hp'
        rw [hrest.2.1 p.1 (by
          intro hmem
          exact hnd.1 hmem)]
        rw [hstep]
        cases hq : p.2.scheduledIds with
        | none =>
          simp only [hq, Option.isSome_none, Bool.false_eq_true, and_false, if_false]
          rw [hagree p (List.mem_cons_self _ _), hq]
          simp
        | some sids =>
          simp only [hq, Option.isSome_some, and_true]
          by_cases hqq : p.1 = p.1
          · simp only [hqq, if_true]
            simp [hd]
          · exact absurd rfl hqq
      · exact hrest.1 p hp' d hd
    · intro t ht
      have ht1 : t ≠ q.1 := by
        intro he
        apply ht
        rw [he]
        exact List.mem_cons_self _ _
      have ht2 : t ∉ rest.map Prod.fst := by
        intro he
        exact ht (List.mem_cons_of_mem _ he)
      rw [hrest.2.1 t ht2, hstep]
      simp [ht1]
    · rw [hrest.2.2.1, schedThreadStep_byTabId]
    · intro c2 t2
      rw [hrest.2.2.2 c2 t2]
      unfold schedThreadStep
      cases q.2.scheduledIds with
      | none => rfl
      | some sids => exact selectThreadInfo_replaceScheduledIds _ _ _ _ _ _

theorem alookup_eq_none_of_not_mem_keys {κ α : Type} [DecidableEq κ] {m : List (κ × α)}
    {k : κ} (h : k ∉ m.map Prod.fst) : alookup m k = none := by
  induction m with
  | nil => rfl
  | cons p rest ih =>
    simp only [List.map_cons, List.mem_cons] at h
    push_neg at h
    have h1 : ¬ p.1 = k := fun he => h.1 he.symm
    simp only [alookup, if_neg h1]
    exact ih h.2

theorem threadsById_updateThread_some (g : GlobalState) (chatId : String) (threadId : Int)
    (f : Thread → Thread) :
    ((alookup (updateThread g chatId threadId (some f)).messages.byChatId chatId).getD
        emptySections).threadsById
      = aset (((alookup g.messages.byChatId chatId).getD emptySections)).threadsById threadId
          (f ((selectThreadRec g chatId threadId).getD emptyThread)) := by
  unfold updateThread updateMessageStore selectThreadRec selectMessagesSections
  simp only [alookup_aset_self, Option.getD_some]

theorem threadsById_replaceScheduledIds (g : GlobalState) (chatId : String) (threadId : Int)
    (v : Option (List Nat)) :
    ((alookup (replaceThreadParamScheduledIds g chatId threadId v).messages.byChatId
        chatId).getD emptySections).threadsById
      = aset (((alookup g.messages.byChatId chatId).getD emptySections)).threadsById threadId
          ({ (selectThreadRec g chatId threadId).getD emptyThread with scheduledIds := v }) := by
  unfold replaceThreadParamScheduledIds
  exact threadsById_updateThread_some g chatId threadId _

theorem selectThreadRec_eq (g : GlobalState) (chatId : String) (threadId : Int) :
    selectThreadRec g chatId threadId
      = alookup (((alookup g.messages.byChatId chatId).getD emptySections).threadsById)
          threadId := by
  unfold selectThreadRec selectMessagesSections
  cases alookup g.messages.byChatId chatId with
  | none => simp [emptySections, alookup]
  | some s => simp

theorem schedDeleteInner_spec (g : GlobalState) (chatId : String) (messageIds : List Nat)
    (scheduledIds0 : List Nat)
    (hnd : ((((alookup g.messages.byChatId chatId).getD emptySections).threadsById).map
        Prod.fst).Nodup) :
    (∀ t, ∀ d ∈ messageIds,
        d ∉ (selectScheduledIds (schedDeleteInner g chatId messageIds scheduledIds0)
          chatId t).getD [])
    ∧ (schedDeleteInner g chatId messageIds scheduledIds0).byTabId = g.byTabId
    ∧ (∀ c2 t2, selectThreadInfo (schedDeleteInner g chatId messageIds scheduledIds0) c2 t2
        = selectThreadInfo g c2 t2) := by
  unfold schedDeleteInner schedFoldThreads
  rw [threadsById_replaceScheduledIds]
  have hnd2 : ((aset (((alookup g.messages.byChatId chatId).getD
      emptySections)).threadsById MAIN_THREAD_ID
      ({ (selectThreadRec g chatId MAIN_THREAD_ID).getD emptyThread with
          scheduledIds := some (schedFilterMain messageIds scheduledIds0) })).map
      Prod.fst).Nodup := nodup_keys_aset _ _ _ hnd
  have hagree : ∀ p ∈ aset (((alookup g.messages.byChatId chatId).getD
      emptySections)).threadsById MAIN_THREAD_ID
      ({ (selectThreadRec g chatId MAIN_THREAD_ID).getD emptyThread with
          scheduledIds := some (schedFilterMain messageIds scheduledIds0) }),
      selectScheduledIds (replaceThreadParamScheduledIds g chatId MAIN_THREAD_ID
        (some (schedFilterMain messageIds scheduledIds0))) chatId p.1 = p.2.scheduledIds := by
    intro p hp
    unfold selectScheduledIds
    rw [selectThreadRec_eq, threadsById_replaceScheduledIds]
    rw [alookup_eq_of_mem_nodup hnd2 hp]
    rfl
  have hfold := schedFold_clean chatId messageIds _ _ hnd2 hagree
  refine ⟨?_, ?_, ?_⟩
  · intro t d hd
    by_cases hmem : t ∈ (aset (((alookup g.messages.byChatId chatId).getD
        emptySections)).threadsById MAIN_THREAD_ID
        ({ (selectThreadRec g chatId MAIN_THREAD_ID).getD emptyThread with
            scheduledIds := some (schedFilterMain messageIds scheduledIds0) })).map Prod.fst
    · rcases List.mem_map.mp hmem with ⟨p, hp, hfst⟩
      have hthis := hfold.1 p hp d hd
      rw [hfst] at hthis
      exact hthis
    · rw [hfold.2.1 t hmem]
      unfold selectScheduledIds
      rw [selectThreadRec_eq, threadsById_replaceScheduledIds,
        alookup_eq_none_of_not_mem_keys hmem]
      simp
  · rw [hfold.2.2.1]
    exact updateThread_byTabId _ _ _ _
  · intro c2 t2
    rw [hfold.2.2.2 c2 t2]
    exact selectThreadInfo_replaceScheduledIds _ _ _ _ _ _

/-- The topic thread of the C7 counterexample: id 5 scheduled in thread 7
    while the main thread has no scheduled list. -/
def thrC7 : Thread := { emptyThread with scheduledIds := some [5] }

/-- The C7 counterexample state. -/
def gC7 : GlobalState :=
  { messages := { byChatId := [("c", { byId := [], threadsById := [(7, thrC7)] })] }
  , scheduledMessages := { byChatId := [("c",
      { byId := [(5, { emptyMessage with id := some 5 })], hash := some 0 })] }
  , byTabId := [] }

/-- C7: the claim that the deleted ids are stripped from every thread
    scheduled list fails on the code: the whole stripping pass is guarded
    by the main thread having a scheduled id list, so when the main list is
    absent a topic thread keeps the deleted id in its scheduledIds. -/
theorem c7_counterexample :
    selectScheduledMessage (deleteChatScheduledMessages gC7 "c" [5]) "c" 5 = none
    ∧ selectScheduledIds (deleteChatScheduledMessages gC7 "c" [5]) "c" 7 = some [5] := by
  constructor
  · decide
  · decide

/-- C7 (amended): when the chat has a scheduled table and the main thread
    has a scheduled id list, deleteChatScheduledMessages removes the given
    ids from the scheduled table, strips them from the scheduled id list of
    the main thread and of every other thread of the chat, and touches no
    tab state and no thread info (no viewport or cascade handling).  The
    table removal itself holds independently of the main list guard. -/
theorem c7_amended (g : GlobalState) (chatId : String) (messageIds : List Nat)
    (byId : List (Nat × ApiMessage)) (l0 : List Nat)
    (hby : selectChatScheduledMessages g chatId = some byId)
    (hmain : selectScheduledIds g chatId MAIN_THREAD_ID = some l0)
    (hnd : ((((alookup g.messages.byChatId chatId).getD emptySections).threadsById).map
        Prod.fst).Nodup) :
    (∀ d ∈ messageIds,
      selectScheduledMessage (deleteChatScheduledMessages g chatId messageIds) chatId d = none)
    ∧ (∀ t, ∀ d ∈ messageIds,
        d ∉ (selectScheduledIds (deleteChatScheduledMessages g chatId messageIds)
          chatId t).getD [])
    ∧ (deleteChatScheduledMessages g chatId messageIds).byTabId = g.byTabId
    ∧ (∀ c2 t2, selectThreadInfo (deleteChatScheduledMessages g chatId messageIds) c2 t2
        = selectThreadInfo g c2 t2) := by
  have key : deleteChatScheduledMessages g chatId messageIds
      = { schedDeleteInner g chatId messageIds l0 with scheduledMessages :=
          { byChatId := aset
              (schedDeleteInner g chatId messageIds l0).scheduledMessages.byChatId chatId
              { byId := jsOmit byId messageIds, hash := none } } } := by
    unfold deleteChatScheduledMessages
    rw [hby]
    dsimp only
    rw [hmain]
  have hspec := schedDeleteInner_spec g chatId messageIds l0 hnd
  rw [key]
  refine ⟨?_, ?_, ?_, ?_⟩
  · intro d hd
    unfold selectScheduledMessage selectChatScheduledMessages selectScheduledSections
    simp only [alookup_aset_self]
    simp [alookup_jsOmit, hd]
  · intro t d hd
    exact hspec.1 t d hd
  · exact hspec.2.1
  · intro c2 t2
    exact hspec.2.2 c2 t2

/-- Main thread record of the C7 witness. -/
def thrW7main : Thread := { emptyThread with scheduledIds := some [5, 6] }

/-- Topic thread record of the C7 witness. -/
def thrW7topic : Thread := { emptyThread with scheduledIds := some [5] }

/-- The C7 witness state: ids 5 and 6 scheduled on the main thread, id 5
    also scheduled in topic thread 7. -/
def gW7 : GlobalState :=
  { messages := { byChatId := [("c",
      { byId := [], threadsById := [(MAIN_THREAD_ID, thrW7main), (7, thrW7topic)] })] }
  , scheduledMessages := { byChatId := [("c",
      { byId := [(5, { emptyMessage with id := some 5 })], hash := some 0 })] }
  , byTabId := [] }

/-- C7 witness: deleting scheduled id 5 strips it from topic thread 7. -/
theorem c7_witness :
    5 ∉ (selectScheduledIds (deleteChatScheduledMessages gW7 "c" [5]) "c" 7).getD [] := by
  exact (c7_amended gW7 "c" [5] [(5, { emptyMessage with id := some 5 })] [5, 6]
    (by decide) (by decide) (by decide)).2.1 7 5 (by decide)

/-- Whether a state keys every tab record by its own id, the JS-object
    well-formedness the multi-tab iteration relies on. -/
def TabsWellKeyed (g : GlobalState) : Prop := ∀ p ∈ g.byTabId, p.2.id = p.1

instance (g : GlobalState) : Decidable (TabsWellKeyed g) := by
  unfold TabsWellKeyed
  exact List.decidableBAll _ _

theorem selectViewportIds_congr_byTabId (g1 g2 : GlobalState) (h : g1.byTabId = g2.byTabId)
    (chatId : String) (threadId : Int) (tabId : Nat) :
    selectViewportIds g1 chatId threadId tabId = selectViewportIds g2 chatId threadId tabId := by
  unfold selectViewportIds selectTabThread selectTabStateD
  rw [h]

theorem selectCurrentMessageList_congr_byTabId (g1 g2 : GlobalState)
    (h : g1.byTabId = g2.byTabId) (tabId : Nat) :
    selectCurrentMessageList g1 tabId = selectCurrentMessageList g2 tabId := by
  unfold selectCurrentMessageList selectTabStateD
  rw [h]

theorem selectThreadRec_congr_messages (g1 g2 : GlobalState) (h : g1.messages = g2.messages)
    (chatId : String) (threadId : Int) :
    selectThreadRec g1 chatId threadId = selectThreadRec g2 chatId threadId := by
  unfold selectThreadRec selectMessagesSections
  rw [h]

theorem updateTabState_messages (g : GlobalState) (upd : TabState → TabState) (tabId : Nat) :
    (updateTabState g upd tabId).messages = g.messages := rfl

theorem selectTabStateD_updateTabState_ne (g : GlobalState) (upd : TabState → TabState)
    (tabId tab2 : Nat) (h : tab2 ≠ tabId) :
    selectTabStateD (updateTabState g upd tabId) tab2 = selectTabStateD g tab2 := by
  unfold updateTabState selectTabStateD
  rw [alookup_aset_ne _ _ _ _ h]

theorem selectViewportIds_updateTabThread (g : GlobalState) (chatId : String) (threadId : Int)
    (upd : TabThread → TabThread) (tabId : Nat) (c2 : String) (t2 : Int) (tab2 : Nat) :
    selectViewportIds (updateTabThread g chatId threadId upd tabId) c2 t2 tab2
      = if tab2 = tabId ∧ c2 = chatId ∧ t2 = threadId then
          (upd (((alookup (selectTabStateD g tabId).tabThreads chatId).bind
            (fun m => alookup m threadId)).getD emptyTabThread)).viewportIds
        else selectViewportIds g c2 t2 tab2 := by
  by_cases htab : tab2 = tabId
  · subst htab
    unfold updateTabThread
    by_cases hc : c2 = chatId
    · subst hc
      by_cases ht : t2 = threadId
      · subst ht
        simp only [and_self, true_and, if_true]
        unfold selectViewportIds selectTabThread
        rw [selectTabStateD_updateTabState_self]
        simp [alookup_aset_self]
      · simp only [ht, and_false, if_false, true_and]
        unfold selectViewportIds selectTabThread
        rw [selectTabStateD_updateTabState_self]
        simp only [alookup_aset_self, Option.some_bind]
        rw [alookup_aset_ne _ _ _ _ ht]
        cases hx : alookup (selectTabStateD g tab2).tabThreads c2 with
        | none => simp [alookup]
        | some m => simp
    · simp only [hc, false_and, and_false, if_false]
      unfold selectViewportIds selectTabThread
      rw [selectTabStateD_updateTabState_self]
      simp only
      rw [alookup_aset_ne _ _ _ _ hc]
  · simp only [htab, false_and, if_false]
    unfold updateTabThread selectViewportIds selectTabThread
    rw [selectTabStateD_updateTabState_ne _ _ _ _ htab]

theorem selectViewportIds_replaceTab (g : GlobalState) (chatId : String) (threadId : Int)
    (v : Option (List Nat)) (tabId : Nat) (c2 : String) (t2 : Int) (tab2 : Nat) :
    selectViewportIds (replaceTabThreadParamViewportIds g chatId threadId v tabId) c2 t2 tab2
      = if tab2 = tabId ∧ c2 = chatId ∧ t2 = threadId then v
        else selectViewportIds g c2 t2 tab2 := by
  unfold replaceTabThreadParamViewportIds
  rw [selectViewportIds_updateTabThread]
  by_cases h : tab2 = tabId ∧ c2 = chatId ∧ t2 = threadId
  · rw [if_pos h, if_pos h]
  · rw [if_neg h, if_neg h]
    exact selectViewportIds_congr_byTabId _ _ (updateThread_byTabId _ _ _ _) _ _ _

/-- The three durable index lists of a thread agree between two states. -/
def listsEq (g1 g2 : GlobalState) (c2 : String) (t2 : Int) : Prop :=
  selectListedIds g1 c2 t2 = selectListedIds g2 c2 t2
  ∧ selectOutlyingLists g1 c2 t2 = selectOutlyingLists g2 c2 t2
  ∧ selectPinnedIds g1 c2 t2 = selectPinnedIds g2 c2 t2

theorem listsEq_refl (g : GlobalState) (c2 : String) (t2 : Int) : listsEq g g c2 t2 :=
  ⟨rfl, rfl, rfl⟩

theorem listsEq_trans {g1 g2 g3 : GlobalState} {c2 : String} {t2 : Int}
    (h1 : listsEq g1 g2 c2 t2) (h2 : listsEq g2 g3 c2 t2) : listsEq g1 g3 c2 t2 :=
  ⟨h1.1.trans h2.1, h1.2.1.trans h2.2.1, h1.2.2.trans h2.2.2⟩

theorem listsEq_updateThread (g : GlobalState) (chatId : String) (threadId : Int)
    (f : Thread → Thread)
    (hf1 : ∀ th, (f th).listedIds = th.listedIds)
    (hf2 : ∀ th, (f th).outlyingLists = th.outlyingLists)
    (hf3 : ∀ th, (f th).pinnedIds = th.pinnedIds) (c2 : String) (t2 : Int) :
    listsEq (updateThread g chatId threadId (some f)) g c2 t2 := by
  refine ⟨?_, ?_, ?_⟩
  · exact selectOptField_updateThread_some (fun th => th.listedIds) g chatId threadId f hf1
      rfl c2 t2
  · exact selectOptField_updateThread_some (fun th => th.outlyingLists) g chatId threadId f hf2
      rfl c2 t2
  · exact selectOptField_updateThread_some (fun th => th.pinnedIds) g chatId threadId f hf3
      rfl c2 t2

theorem listsEq_replaceThreadInfo (g : GlobalState) (chatId : String) (threadId : Int)
    (v : Option ApiThreadInfo) (c2 : String) (t2 : Int) :
    listsEq (replaceThreadParamThreadInfo g chatId threadId v) g c2 t2 := by
  unfold replaceThreadParamThreadInfo
  exact listsEq_updateThread g chatId threadId (fun th => { th with threadInfo := v })
    (fun th => rfl) (fun th => rfl) (fun th => rfl) c2 t2

theorem listsEq_replaceLastViewportIds (g : GlobalState) (chatId : String) (threadId : Int)
    (v : Option (List Nat)) (c2 : String) (t2 : Int) :
    listsEq (replaceThreadParamLastViewportIds g chatId threadId v) g c2 t2 := by
  unfold replaceThreadParamLastViewportIds
  exact listsEq_updateThread g chatId threadId (fun th => { th with lastViewportIds := v })
    (fun th => rfl) (fun th => rfl) (fun th => rfl) c2 t2

theorem listsEq_updateTabState (g : GlobalState) (upd : TabState → TabState) (tabId : Nat)
    (c2 : String) (t2 : Int) : listsEq (updateTabState g upd tabId) g c2 t2 := by
  have h : (updateTabState g upd tabId).messages = g.messages := rfl
  refine ⟨?_, ?_, ?_⟩
  · unfold selectListedIds
    rw [selectThreadRec_congr_messages _ _ h]
  · unfold selectOutlyingLists
    rw [selectThreadRec_congr_messages _ _ h]
  · unfold selectPinnedIds
    rw [selectThreadRec_congr_messages _ _ h]

theorem listsEq_updateThreadInfo (g : GlobalState) (chatId : String) (threadId : Int)
    (u : ApiThreadInfo) (b : Bool) (c2 : String) (t2 : Int) :
    listsEq (updateThreadInfo g chatId threadId u b) g c2 t2 := by
  cases b with
  | true =>
    rw [updateThreadInfo_true_eq]
    exact listsEq_replaceThreadInfo _ _ _ _ _ _
  | false =>
    rw [updateThreadInfo]
    dsimp only
    by_cases h1 : truthyBool (mergeThreadInfo (selectThreadInfo g chatId threadId)
        u).isCommentsInfo = true
    · simp only [h1, if_true]
      by_cases h2 : truthyInt (mergeThreadInfo (selectThreadInfo g chatId threadId)
          u).threadId = true
      · simp only [h2, if_true]
        refine listsEq_trans (listsEq_replaceThreadInfo _ _ _ _ _ _) ?_
        rw [updateThreadInfo_true_eq]
        exact listsEq_replaceThreadInfo _ _ _ _ _ _
      · simp only [h2, Bool.false_eq_true, if_false]
        exact listsEq_replaceThreadInfo _ _ _ _ _ _
    · simp only [h1, Bool.false_eq_true, if_false]
      by_cases h2 : truthyStr (mergeThreadInfo (selectThreadInfo g chatId threadId)
          u).fromChannelId = true
          ∧ truthyInt (mergeThreadInfo (selectThreadInfo g chatId threadId)
            u).fromMessageId = true
      · simp only [h2, and_self, if_true]
        refine listsEq_trans (listsEq_replaceThreadInfo _ _ _ _ _ _) ?_
        rw [updateThreadInfo_true_eq]
        exact listsEq_replaceThreadInfo _ _ _ _ _ _
      · simp only [if_neg h2]
        exact listsEq_replaceThreadInfo _ _ _ _ _ _

theorem selectListedIds_replaceListed (g : GlobalState) (chatId : String) (threadId : Int)
    (v : Option (List Nat)) (c2 : String) (t2 : Int) :
    selectListedIds (replaceThreadParamListedIds g chatId threadId v) c2 t2
      = if c2 = chatId ∧ t2 = threadId then v else selectListedIds g c2 t2 := by
  unfold selectListedIds replaceThreadParamListedIds
  rw [selectThreadRec_updateThread_some]
  by_cases h : c2 = chatId ∧ t2 = threadId
  · rw [if_pos h, if_pos h]
    simp
  · rw [if_neg h, if_neg h]

theorem selectOutlyingLists_replaceOutlying (g : GlobalState) (chatId : String) (threadId : Int)
    (v : Option (List (List Nat))) (c2 : String) (t2 : Int) :
    selectOutlyingLists (replaceThreadParamOutlyingLists g chatId threadId v) c2 t2
      = if c2 = chatId ∧ t2 = threadId then v else selectOutlyingLists g c2 t2 := by
  unfold selectOutlyingLists replaceThreadParamOutlyingLists
  rw [selectThreadRec_updateThread_some]
  by_cases h : c2 = chatId ∧ t2 = threadId
  · rw [if_pos h, if_pos h]
    simp
  · rw [if_neg h, if_neg h]

theorem selectPinnedIds_replacePinned (g : GlobalState) (chatId : String) (threadId : Int)
    (v : Option (List Nat)) (c2 : String) (t2 : Int) :
    selectPinnedIds (replaceThreadParamPinnedIds g chatId threadId v) c2 t2
      = if c2 = chatId ∧ t2 = threadId then v else selectPinnedIds g c2 t2 := by
  unfold selectPinnedIds replaceThreadParamPinnedIds
  rw [selectThreadRec_updateThread_some]
  by_cases h : c2 = chatId ∧ t2 = threadId
  · rw [if_pos h, if_pos h]
    simp
  · rw [if_neg h, if_neg h]

theorem listsEq_replaceListed_ne (g : GlobalState) (chatId : String) (threadId : Int)
    (v : Option (List Nat)) (c2 : String) (t2 : Int) (h : ¬ (c2 = chatId ∧ t2 = threadId)) :
    listsEq (replaceThreadParamListedIds g chatId threadId v) g c2 t2 := by
  refine ⟨?_, ?_, ?_⟩
  · rw [selectListedIds_replaceListed, if_neg h]
  · unfold replaceThreadParamListedIds selectOutlyingLists
    exact (selectOptField_updateThread_some (fun th => th.outlyingLists) g chatId threadId
      (fun th => { th with listedIds := v }) (fun th => rfl) rfl c2 t2)
  · unfold replaceThreadParamListedIds selectPinnedIds
    exact (selectOptField_updateThread_some (fun th => th.pinnedIds) g chatId threadId
      (fun th => { th with listedIds := v }) (fun th => rfl) rfl c2 t2)

theorem keys_aset_of_mem {κ α : Type} [DecidableEq κ] (m : List (κ × α)) (k : κ) (v : α)
    (h : k ∈ m.map Prod.fst) : (aset m k v).map Prod.fst = m.map Prod.fst := by
  induction m with
  | nil => simp at h
  | cons p rest ih =>
    by_cases hp : p.1 = k
    · simp [aset, hp]
    · simp only [List.map_cons, List.mem_cons] at h
      rcases h with h' | h'
      · exact absurd h'.symm hp
      · simp [aset, hp, ih h']

theorem tab_mem_of_viewport_isSome (g : GlobalState) (chatId : String) (threadId : Int)
    (tabId : Nat) (h : (selectViewportIds g chatId threadId tabId).isSome = true) :
    tabId ∈ g.byTabId.map Prod.fst := by
  by_contra hn
  have hl : alookup g.byTabId tabId = none := alookup_eq_none_of_not_mem_keys hn
  unfold selectViewportIds selectTabThread selectTabStateD at h
  rw [hl] at h
  simp [defaultTabState, alookup] at h

theorem tabsWellKeyed_updateTabState (g : GlobalState) (upd : TabState → TabState)
    (tabId : Nat) (hid : ∀ ts, (upd ts).id = ts.id) (hwk : TabsWellKeyed g) :
    TabsWellKeyed (updateTabState g upd tabId) := by
  intro p hp
  unfold updateTabState at hp
  rcases mem_aset hp with h | h
  · exact hwk p h
  · rw [h]
    simp only [hid]
    unfold selectTabStateD
    cases hx : alookup g.byTabId tabId with
    | none => rfl
    | some v => exact hwk (tabId, v) (alookup_mem hx)

theorem tabIdsOf_eq_keys (g : GlobalState) (hwk : TabsWellKeyed g) :
    tabIdsOf g = g.byTabId.map Prod.fst := by
  unfold tabIdsOf
  exact List.map_congr_left (fun p hp => hwk p hp)

theorem updateThreadInfo_byTabId (g : GlobalState) (chatId : String) (threadId : Int)
    (u : ApiThreadInfo) (b : Bool) : (updateThreadInfo g chatId threadId u b).byTabId
      = g.byTabId := by
  cases b with
  | true =>
    rw [updateThreadInfo_true_eq]
    exact updateThread_byTabId _ _ _ _
  | false =>
    rw [updateThreadInfo]
    dsimp only
    by_cases h1 : truthyBool (mergeThreadInfo (selectThreadInfo g chatId threadId)
        u).isCommentsInfo = true
    · simp only [h1, if_true]
      by_cases h2 : truthyInt (mergeThreadInfo (selectThreadInfo g chatId threadId)
          u).threadId = true
      · simp only [h2, if_true]
        have houter : ∀ (h0 : GlobalState) (c0 : String) (t0 : Int)
            (v : Option ApiThreadInfo),
            (replaceThreadParamThreadInfo h0 c0 t0 v).byTabId = h0.byTabId :=
          fun h0 c0 t0 v => updateThread_byTabId _ _ _ _
        rw [houter, updateThreadInfo_true_eq, houter]
      · simp only [h2, Bool.false_eq_true, if_false]
        exact updateThread_byTabId _ _ _ _
    · simp only [h1, Bool.false_eq_true, if_false]
      by_cases h2 : truthyStr (mergeThreadInfo (selectThreadInfo g chatId threadId)
          u).fromChannelId = true
          ∧ truthyInt (mergeThreadInfo (selectThreadInfo g chatId threadId)
            u).fromMessageId = true
      · simp only [h2, and_self, if_true]
        have houter : ∀ (h0 : GlobalState) (c0 : String) (t0 : Int)
            (v : Option ApiThreadInfo),
            (replaceThreadParamThreadInfo h0 c0 t0 v).byTabId = h0.byTabId :=
          fun h0 c0 t0 v => updateThread_byTabId _ _ _ _
        rw [houter, updateThreadInfo_true_eq, houter]
      · simp only [if_neg h2]
        exact updateThread_byTabId _ _ _ _

theorem selectListedIds_replaceOutlying (g : GlobalState) (chatId : String) (threadId : Int)
    (v : Option (List (List Nat))) (c2 : String) (t2 : Int) :
    selectListedIds (replaceThreadParamOutlyingLists g chatId threadId v) c2 t2
      = selectListedIds g c2 t2 := by
  unfold selectListedIds replaceThreadParamOutlyingLists
  exact selectOptField_updateThread_some (fun th => th.listedIds) g chatId threadId
    (fun th => { th with outlyingLists := v }) (fun th => rfl) rfl c2 t2

theorem selectListedIds_replacePinned (g : GlobalState) (chatId : String) (threadId : Int)
    (v : Option (List Nat)) (c2 : String) (t2 : Int) :
    selectListedIds (replaceThreadParamPinnedIds g chatId threadId v) c2 t2
      = selectListedIds g c2 t2 := by
  unfold selectListedIds replaceThreadParamPinnedIds
  exact selectOptField_updateThread_some (fun th => th.listedIds) g chatId threadId
    (fun th => { th with pinnedIds := v }) (fun th => rfl) rfl c2 t2

theorem selectOutlyingLists_replaceListed (g : GlobalState) (chatId : String) (threadId : Int)
    (v : Option (List Nat)) (c2 : String) (t2 : Int) :
    selectOutlyingLists (replaceThreadParamListedIds g chatId threadId v) c2 t2
      = selectOutlyingLists g c2 t2 := by
  unfold selectOutlyingLists replaceThreadParamListedIds
  exact selectOptField_updateThread_some (fun th => th.outlyingLists) g chatId threadId
    (fun th => { th with listedIds := v }) (fun th => rfl) rfl c2 t2

theorem selectOutlyingLists_replacePinned (g : GlobalState) (chatId : String) (threadId : Int)
    (v : Option (List Nat)) (c2 : String) (t2 : Int) :
    selectOutlyingLists (replaceThreadParamPinnedIds g chatId threadId v) c2 t2
      = selectOutlyingLists g c2 t2 := by
  unfold selectOutlyingLists replaceThreadParamPinnedIds
  exact selectOptField_updateThread_some (fun th => th.outlyingLists) g chatId threadId
    (fun th => { th with pinnedIds := v }) (fun th => rfl) rfl c2 t2

theorem selectPinnedIds_replaceListed (g : GlobalState) (chatId : String) (threadId : Int)
    (v : Option (List Nat)) (c2 : String) (t2 : Int) :
    selectPinnedIds (replaceThreadParamListedIds g chatId threadId v) c2 t2
      = selectPinnedIds g c2 t2 := by
  unfold selectPinnedIds replaceThreadParamListedIds
  exact selectOptField_updateThread_some (fun th => th.pinnedIds) g chatId threadId
    (fun th => { th with listedIds := v }) (fun th => rfl) rfl c2 t2

theorem selectPinnedIds_replaceOutlying (g : GlobalState) (chatId : String) (threadId : Int)
    (v : Option (List (List Nat))) (c2 : String) (t2 : Int) :
    selectPinnedIds (replaceThreadParamOutlyingLists g chatId threadId v) c2 t2
      = selectPinnedIds g c2 t2 := by
  unfold selectPinnedIds replaceThreadParamOutlyingLists
  exact selectOptField_updateThread_some (fun th => th.pinnedIds) g chatId threadId
    (fun th => { th with outlyingLists := v }) (fun th => rfl) rfl c2 t2

theorem listsEq_replaceTab (g : GlobalState) (chatId : String) (threadId : Int)
    (v : Option (List Nat)) (tabId : Nat) (c2 : String) (t2 : Int) :
    listsEq (replaceTabThreadParamViewportIds g chatId threadId v tabId) g c2 t2 := by
  unfold replaceTabThreadParamViewportIds updateTabThread
  exact listsEq_trans (listsEq_updateTabState _ _ _ _ _)
    (listsEq_replaceLastViewportIds _ _ _ _ _ _)

theorem listsEq_viewportDeleteStep (chatId : String) (messageIds : List Nat) (threadId : Int)
    (g : GlobalState) (tabId : Nat) (c2 : String) (t2 : Int) :
    listsEq (viewportDeleteStep chatId messageIds threadId g tabId) g c2 t2 := by
  unfold viewportDeleteStep
  cases selectViewportIds g chatId threadId tabId with
  | none => exact listsEq_refl _ _ _
  | some vp => exact listsEq_replaceTab _ _ _ _ _ _ _

theorem listsEq_viewportFold (chatId : String) (messageIds : List Nat) (threadId : Int) :
    ∀ (tabs : List Nat) (g : GlobalState) (c2 : String) (t2 : Int),
    listsEq (tabs.foldl (viewportDeleteStep chatId messageIds threadId) g) g c2 t2 := by
  intro tabs
  induction tabs with
  | nil => intro g c2 t2; exact listsEq_refl _ _ _
  | cons tab rest ih =>
    intro g c2 t2
    simp only [List.foldl_cons]
    exact listsEq_trans (ih _ c2 t2) (listsEq_viewportDeleteStep _ _ _ _ _ c2 t2)

theorem viewportDeleteStep_self_clean (chatId : String) (messageIds : List Nat)
    (threadId : Int) (g : GlobalState) (tabId : Nat) :
    ∀ d ∈ messageIds,
      d ∉ (selectViewportIds (viewportDeleteStep chatId messageIds threadId g tabId)
        chatId threadId tabId).getD [] := by
  intro d hd
  unfold viewportDeleteStep
  cases hv : selectViewportIds g chatId threadId tabId with
  | none =>
    rw [hv]
    simp
  | some vp =>
    rw [selectViewportIds_replaceTab]
    simp only [and_self, if_true]
    by_cases he : (excludeSortedArray vp messageIds).isEmpty = true
    · simp [he]
    · simp only [he, Bool.false_eq_true, if_false, Option.getD_some]
      intro hmem
      exact (mem_excludeSortedArray.mp hmem).2 hd

theorem viewportDeleteStep_frame (chatId : String) (messageIds : List Nat) (threadId : Int)
    (g : GlobalState) (tabId : Nat) (c2 : String) (t2 : Int) (tab2 : Nat)
    (h : ¬ (tab2 = tabId ∧ c2 = chatId ∧ t2 = threadId)) :
    selectViewportIds (viewportDeleteStep chatId messageIds threadId g tabId) c2 t2 tab2
      = selectViewportIds g c2 t2 tab2 := by
  unfold viewportDeleteStep
  cases hv : selectViewportIds g chatId threadId tabId with
  | none => rfl
  | some vp =>
    rw [selectViewportIds_replaceTab, if_neg h]

theorem replaceLastViewport_byTabId (g : GlobalState) (chatId : String) (threadId : Int)
    (v : Option (List Nat)) :
    (replaceThreadParamLastViewportIds g chatId threadId v).byTabId = g.byTabId := by
  unfold replaceThreadParamLastViewportIds
  exact updateThread_byTabId _ _ _ _

theorem viewportDeleteStep_keys (chatId : String) (messageIds : List Nat) (threadId : Int)
    (g : GlobalState) (tabId : Nat) :
    (viewportDeleteStep chatId messageIds threadId g tabId).byTabId.map Prod.fst
      = g.byTabId.map Prod.fst := by
  unfold viewportDeleteStep
  cases hv : selectViewportIds g chatId threadId tabId with
  | none => rfl
  | some vp =>
    have hmem : tabId ∈ g.byTabId.map Prod.fst :=
      tab_mem_of_viewport_isSome g chatId threadId tabId (by rw [hv]; rfl)
    unfold replaceTabThreadParamViewportIds updateTabThread updateTabState
    simp only
    have hmem2 : tabId ∈ (replaceThreadParamLastViewportIds g chatId threadId
        (if (excludeSortedArray vp messageIds).isEmpty = true then none
         else some (excludeSortedArray vp messageIds))).byTabId.map Prod.fst := by
      rw [replaceLastViewport_byTabId]
      exact hmem
    rw [keys_aset_of_mem _ _ _ hmem2, replaceLastViewport_byTabId]

theorem viewportDeleteStep_wellKeyed (chatId : String) (messageIds : List Nat) (threadId : Int)
    (g : GlobalState) (tabId : Nat) (hwk : TabsWellKeyed g) :
    TabsWellKeyed (viewportDeleteStep chatId messageIds threadId g tabId) := by
  unfold viewportDeleteStep
  cases hv : selectViewportIds g chatId threadId tabId with
  | none => exact hwk
  | some vp =>
    dsimp only
    unfold replaceTabThreadParamViewportIds updateTabThread
    exact tabsWellKeyed_updateTabState _ _ _ (fun ts => rfl) hwk

theorem viewportFold_spec (chatId : String) (messageIds : List Nat) (threadId : Int) :
    ∀ (tabs : List Nat) (g : GlobalState),
    ((∀ tab ∈ tabs, ∀ d ∈ messageIds,
        d ∉ (selectViewportIds (tabs.foldl (viewportDeleteStep chatId messageIds threadId) g)
          chatId threadId tab).getD [])
      ∧ (∀ tab, tab ∉ tabs →
          selectViewportIds (tabs.foldl (viewportDeleteStep chatId messageIds threadId) g)
              chatId threadId tab
            = selectViewportIds g chatId threadId tab)
      ∧ (∀ c2 t2 tab, ¬ (c2 = chatId ∧ t2 = threadId) →
          selectViewportIds (tabs.foldl (viewportDeleteStep chatId messageIds threadId) g)
              c2 t2 tab
            = selectViewportIds g c2 t2 tab)
      ∧ (tabs.foldl (viewportDeleteStep chatId messageIds threadId) g).byTabId.map Prod.fst
          = g.byTabId.map Prod.fst
      ∧ (TabsWellKeyed g →
          TabsWellKeyed (tabs.foldl (viewportDeleteStep chatId messageIds threadId) g))) := by
  intro tabs
  induction tabs with
  | nil =>
    intro g
    exact ⟨by simp, fun tab ht => rfl, fun c2 t2 tab h => rfl, rfl, fun h => h⟩
  | cons tab rest ih =>
    intro g
    simp only [List.foldl_cons]
    have hrest := ih (viewportDeleteStep chatId messageIds threadId g tab)
    refine ⟨?_, ?_, ?_, ?_, ?_⟩
    · intro tab2 htab2 d hd
      rcases List.mem_cons.mp htab2 with h' | h'
      · subst h'
        by_cases hrem : tab2 ∈ rest
        · exact hrest.1 tab2 hrem d hd
        · rw [hrest.2.1 tab2 hrem]
          exact viewportDeleteStep_self_clean chatId messageIds threadId g tab2 d hd
      · exact hrest.1 tab2 h' d hd
    · intro tab2 ht
      have ht1 : tab2 ≠ tab := fun he => ht (he ▸ List.mem_cons_self _ _)
      have ht2 : tab2 ∉ rest := fun he => ht (List.mem_cons_of_mem _ he)
      rw [hrest.2.1 tab2 ht2]
      exact viewportDeleteStep_frame chatId messageIds threadId g tab chatId threadId tab2
        (fun hx => ht1 hx.1)
    · intro c2 t2 tab2 h
      rw [hrest.2.2.1 c2 t2 tab2 h]
      exact viewportDeleteStep_frame chatId messageIds threadId g tab c2 t2 tab2
        (fun hx => h ⟨hx.2.1, hx.2.2⟩)
    · rw [hrest.2.2.2.1, viewportDeleteStep_keys]
    · intro hwk
      exact hrest.2.2.2.2 (viewportDeleteStep_wellKeyed _ _ _ _ _ hwk)

theorem tabsWellKeyed_congr {g1 g2 : GlobalState} (h : g1.byTabId = g2.byTabId)
    (hwk : TabsWellKeyed g2) : TabsWellKeyed g1 := by
  intro p hp
  rw [h] at hp
  exact hwk p hp

theorem listsEq_threadCountFinish (chatId : String) (threadId : Int)
    (threadInfo : Option ApiThreadInfo) (newMessageCount : Option Int) (gD : GlobalState)
    (c2 : String) (t2 : Int) :
    listsEq (threadCountFinish chatId threadId threadInfo newMessageCount gD) gD c2 t2 := by
  unfold threadCountFinish
  cases threadInfo with
  | none => cases newMessageCount <;> exact listsEq_refl _ _ _
  | some ti =>
    cases newMessageCount with
    | none => exact listsEq_refl _ _ _
    | some cnt => exact listsEq_updateThreadInfo _ _ _ _ _ _ _

theorem threadCountFinish_byTabId (chatId : String) (threadId : Int)
    (threadInfo : Option ApiThreadInfo) (newMessageCount : Option Int) (gD : GlobalState) :
    (threadCountFinish chatId threadId threadInfo newMessageCount gD).byTabId = gD.byTabId := by
  unfold threadCountFinish
  cases threadInfo with
  | none => cases newMessageCount <;> rfl
  | some ti =>
    cases newMessageCount with
    | none => rfl
    | some cnt => exact updateThreadInfo_byTabId _ _ _ _ _

theorem threadDeleteStep_spec (chatId : String) (messageIds : List Nat) (g : GlobalState)
    (pair : Int × List Nat) :
    ((∀ c2 t2,
        selectListedIds (threadDeleteStep chatId messageIds g pair) c2 t2
          = if c2 = chatId ∧ t2 = pair.1 then
              (selectListedIds g chatId pair.1).map (fun l => excludeSortedArray l pair.2)
            else selectListedIds g c2 t2)
      ∧ (∀ c2 t2,
        selectOutlyingLists (threadDeleteStep chatId messageIds g pair) c2 t2
          = if c2 = chatId ∧ t2 = pair.1 then
              (selectOutlyingLists g chatId pair.1).map
                (fun ls => ls.map (fun l => excludeSortedArray l pair.2))
            else selectOutlyingLists g c2 t2)
      ∧ (∀ c2 t2,
        selectPinnedIds (threadDeleteStep chatId messageIds g pair) c2 t2
          = if c2 = chatId ∧ t2 = pair.1 then
              (selectPinnedIds g chatId pair.1).map
                (fun l => excludeSortedArray l (orderPinnedIds pair.2))
            else selectPinnedIds g c2 t2)
      ∧ (TabsWellKeyed g → ∀ tab, ∀ d ∈ messageIds,
          d ∉ (selectViewportIds (threadDeleteStep chatId messageIds g pair)
            chatId pair.1 tab).getD [])
      ∧ (∀ c2 t2 tab, ¬ (c2 = chatId ∧ t2 = pair.1) →
          selectViewportIds (threadDeleteStep chatId messageIds g pair) c2 t2 tab
            = selectViewportIds g c2 t2 tab)
      ∧ (threadDeleteStep chatId messageIds g pair).byTabId.map Prod.fst
          = g.byTabId.map Prod.fst
      ∧ (TabsWellKeyed g → TabsWellKeyed (threadDeleteStep chatId messageIds g pair))) := by
  have hvf := viewportFold_spec chatId messageIds pair.1 (tabIdsOf g) g
  have hstep : threadDeleteStep chatId messageIds g pair
      = threadCountFinish chatId pair.1 (selectThreadInfo g chatId pair.1)
          (((selectThreadInfo g chatId pair.1).bind (fun ti => ti.messagesCount)).map
            (fun c => c - Int.ofNat
              ((pair.2.filter (fun id => ! isLocalMessageId id)).length)))
          (replaceThreadParamPinnedIds
            (replaceThreadParamOutlyingLists
              (replaceThreadParamListedIds
                ((tabIdsOf g).foldl (viewportDeleteStep chatId messageIds pair.1) g)
                chatId pair.1
                ((selectListedIds g chatId pair.1).map
                  (fun l => excludeSortedArray l pair.2)))
              chatId pair.1
              ((selectOutlyingLists g chatId pair.1).map
                (fun ls => ls.map (fun l => excludeSortedArray l pair.2))))
            chatId pair.1
            ((selectPinnedIds g chatId pair.1).map
              (fun l => excludeSortedArray l (orderPinnedIds pair.2)))) := rfl
  rw [hstep]
  refine ⟨?_, ?_, ?_, ?_, ?_, ?_, ?_⟩
  · intro c2 t2
    rw [(listsEq_threadCountFinish _ _ _ _ _ c2 t2).1]
    rw [selectListedIds_replacePinned, selectListedIds_replaceOutlying,
      selectListedIds_replaceListed]
    by_cases h : c2 = chatId ∧ t2 = pair.1
    · rw [if_pos h, if_pos h]
    · rw [if_neg h, if_neg h]
      exact (listsEq_viewportFold chatId messageIds pair.1 (tabIdsOf g) g c2 t2).1
  · intro c2 t2
    rw [(listsEq_threadCountFinish _ _ _ _ _ c2 t2).2.1]
    rw [selectOutlyingLists_replacePinned, selectOutlyingLists_replaceOutlying]
    by_cases h : c2 = chatId ∧ t2 = pair.1
    · rw [if_pos h, if_pos h]
    · rw [if_neg h, if_neg h]
      rw [selectOutlyingLists_replaceListed]
      exact (listsEq_viewportFold chatId messageIds pair.1 (tabIdsOf g) g c2 t2).2.1
  · intro c2 t2
    rw [(listsEq_threadCountFinish _ _ _ _ _ c2 t2).2.2]
    rw [selectPinnedIds_replacePinned]
    by_cases h : c2 = chatId ∧ t2 = pair.1
    · rw [if_pos h, if_pos h]
    · rw [if_neg h, if_neg h]
      rw [selectPinnedIds_replaceOutlying, selectPinnedIds_replaceListed]
      exact (listsEq_viewportFold chatId messageIds pair.1 (tabIdsOf g) g c2 t2).2.2
  · intro hwk tab d hd
    have hbyTab : (threadCountFinish chatId pair.1 (selectThreadInfo g chatId pair.1)
        (((selectThreadInfo g chatId pair.1).bind (fun ti => ti.messagesCount)).map
          (fun c => c - Int.ofNat
            ((pair.2.filter (fun id => ! isLocalMessageId id)).length)))
        (replaceThreadParamPinnedIds
          (replaceThreadParamOutlyingLists
            (replaceThreadParamListedIds
              ((tabIdsOf g).foldl (viewportDeleteStep chatId messageIds pair.1) g)
              chatId pair.1
              ((selectListedIds g chatId pair.1).map
                (fun l => excludeSortedArray l pair.2)))
            chatId pair.1
            ((selectOutlyingLists g chatId pair.1).map
              (fun ls => ls.map (fun l => excludeSortedArray l pair.2))))
          chatId pair.1
          ((selectPinnedIds g chatId pair.1).map
            (fun l => excludeSortedArray l (orderPinnedIds pair.2))))).byTabId
        = ((tabIdsOf g).foldl (viewportDeleteStep chatId messageIds pair.1) g).byTabId := by
      rw [threadCountFinish_byTabId]
      unfold replaceThreadParamPinnedIds replaceThreadParamOutlyingLists
        replaceThreadParamListedIds
      rw [updateThread_byTabId, updateThread_byTabId, updateThread_byTabId]
    rw [selectViewportIds_congr_byTabId _ _ hbyTab]
    by_cases hmem : tab ∈ tabIdsOf g
    · exact hvf.1 tab hmem d hd
    · rw [hvf.2.1 tab hmem]
      by_cases hkey : tab ∈ g.byTabId.map Prod.fst
      · rw [tabIdsOf_eq_keys g hwk] at hmem
        exact absurd hkey hmem
      · unfold selectViewportIds selectTabThread selectTabStateD
        rw [alookup_eq_none_of_not_mem_keys hkey]
        simp [defaultTabState, alookup]
  · intro c2 t2 tab h
    have hbyTab : (threadCountFinish chatId pair.1 (selectThreadInfo g chatId pair.1)
        (((selectThreadInfo g chatId pair.1).bind (fun ti => ti.messagesCount)).map
          (fun c => c - Int.ofNat
            ((pair.2.filter (fun id => ! isLocalMessageId id)).length)))
        (replaceThreadParamPinnedIds
          (replaceThreadParamOutlyingLists
            (replaceThreadParamListedIds
              ((tabIdsOf g).foldl (viewportDeleteStep chatId messageIds pair.1) g)
              chatId pair.1
              ((selectListedIds g chatId pair.1).map
                (fun l => excludeSortedArray l pair.2)))
            chatId pair.1
            ((selectOutlyingLists g chatId pair.1).map
              (fun ls => ls.map (fun l => excludeSortedArray l pair.2))))
          chatId pair.1
          ((selectPinnedIds g chatId pair.1).map
            (fun l => excludeSortedArray l (orderPinnedIds pair.2))))).byTabId
        = ((tabIdsOf g).foldl (viewportDeleteStep chatId messageIds pair.1) g).byTabId := by
      rw [threadCountFinish_byTabId]
      unfold replaceThreadParamPinnedIds replaceThreadParamOutlyingLists
        replaceThreadParamListedIds
      rw [updateThread_byTabId, updateThread_byTabId, updateThread_byTabId]
    rw [selectViewportIds_congr_byTabId _ _ hbyTab]
    exact hvf.2.2.1 c2 t2 tab h
  · rw [threadCountFinish_byTabId]
    unfold replaceThreadParamPinnedIds replaceThreadParamOutlyingLists
      replaceThreadParamListedIds
    rw [updateThread_byTabId, updateThread_byTabId, updateThread_byTabId]
    exact hvf.2.2.2.1
  · intro hwk
    apply @tabsWellKeyed_congr _
      ((tabIdsOf g).foldl (viewportDeleteStep chatId messageIds pair.1) g)
    · rw [threadCountFinish_byTabId]
      unfold replaceThreadParamPinnedIds replaceThreadParamOutlyingLists
        replaceThreadParamListedIds
      rw [updateThread_byTabId, updateThread_byTabId, updateThread_byTabId]
    · exact hvf.2.2.2.2 hwk

theorem threadFold_spec (chatId : String) (messageIds : List Nat) :
    ∀ (pairs : List (Int × List Nat)) (g : GlobalState),
    (pairs.map Prod.fst).Nodup → TabsWellKeyed g →
    ((∀ p ∈ pairs,
        selectListedIds (pairs.foldl (threadDeleteStep chatId messageIds) g) chatId p.1
            = (selectListedIds g chatId p.1).map (fun l => excludeSortedArray l p.2)
        ∧ selectOutlyingLists (pairs.foldl (threadDeleteStep chatId messageIds) g) chatId p.1
            = (selectOutlyingLists g chatId p.1).map
                (fun ls => ls.map (fun l => excludeSortedArray l p.2))
        ∧ selectPinnedIds (pairs.foldl (threadDeleteStep chatId messageIds) g) chatId p.1
            = (selectPinnedIds g chatId p.1).map
                (fun l => excludeSortedArray l (orderPinnedIds p.2))
        ∧ (∀ tab, ∀ d ∈ messageIds,
            d ∉ (selectViewportIds (pairs.foldl (threadDeleteStep chatId messageIds) g)
              chatId p.1 tab).getD []))
      ∧ (∀ t, t ∉ pairs.map Prod.fst →
          listsEq (pairs.foldl (threadDeleteStep chatId messageIds) g) g chatId t
          ∧ (∀ tab, selectViewportIds (pairs.foldl (threadDeleteStep chatId messageIds) g)
              chatId t tab = selectViewportIds g chatId t tab))
      ∧ TabsWellKeyed (pairs.foldl (threadDeleteStep chatId messageIds) g)) := by
  intro pairs
  induction pairs with
  | nil =>
    intro g hnd hwk
    exact ⟨by simp, fun t ht => ⟨listsEq_refl _ _ _, fun tab => rfl⟩, hwk⟩
  | cons q rest ih =>
    intro g hnd hwk
    simp only [List.map_cons, List.nodup_cons] at hnd
    have hspec := threadDeleteStep_spec chatId messageIds g q
    have hwk1 : TabsWellKeyed (threadDeleteStep chatId messageIds g q) := hspec.2.2.2.2.2.2 hwk
    have hrest := ih (threadDeleteStep chatId messageIds g q) hnd.2 hwk1
    simp only [List.foldl_cons]
    refine ⟨?_, ?_, hrest.2.2⟩
    · intro p hp
      rcases List.mem_cons.mp hp with h' | h'
      · subst h'
        have hq := hrest.2.1 p.1 hnd.1
        refine ⟨?_, ?_, ?_, ?_⟩
        · rw [hq.1.1, hspec.1 chatId p.1, if_pos ⟨rfl, rfl⟩]
        · rw [hq.1.2.1, hspec.2.1 chatId p.1, if_pos ⟨rfl, rfl⟩]
        · rw [hq.1.2.2, hspec.2.2.1 chatId p.1, if_pos ⟨rfl, rfl⟩]
        · intro tab d hd
          rw [hq.2 tab]
          exact hspec.2.2.2.1 hwk tab d hd
      · have hne : p.1 ≠ q.1 := by
          intro he
          apply hnd.1
          rw [← he]
          exact List.mem_map_of_mem Prod.fst h'
        have hr := hrest.1 p h'
        refine ⟨?_, ?_, ?_, hr.2.2.2⟩
        · rw [hr.1, hspec.1 chatId p.1, if_neg (fun hx => hne hx.2)]
        · rw [hr.2.1, hspec.2.1 chatId p.1, if_neg (fun hx => hne hx.2)]
        · rw [hr.2.2.1, hspec.2.2.1 chatId p.1, if_neg (fun hx => hne hx.2)]
    · intro t ht
      have ht1 : t ≠ q.1 := fun he => ht (by rw [he]; exact List.mem_cons_self _ _)
      have ht2 : t ∉ rest.map Prod.fst := fun he => ht (List.mem_cons_of_mem _ he)
      have hq := hrest.2.1 t ht2
      constructor
      · refine listsEq_trans hq.1 ⟨?_, ?_, ?_⟩
        · rw [hspec.1 chatId t, if_neg (fun hx => ht1 hx.2)]
        · rw [hspec.2.1 chatId t, if_neg (fun hx => ht1 hx.2)]
        · rw [hspec.2.2.1 chatId t, if_neg (fun hx => ht1 hx.2)]
      · intro tab
        rw [hq.2 tab]
        exact hspec.2.2.2.2.1 chatId t tab (fun hx => ht1 hx.2)

theorem collectStep_snd (byId : List (Nat × ApiMessage)) (chatId : String)
    (acc : List (Int × List Nat) × GlobalState) (i : Nat) :
    (collectThreadsStep byId chatId acc i).2 = acc.2 := by
  unfold collectThreadsStep
  cases alookup byId i with
  | none => rfl
  | some m =>
    dsimp only
    by_cases h : selectThreadIdFromMessage acc.2 m = 0
        ∨ selectThreadIdFromMessage acc.2 m = MAIN_THREAD_ID
    · rw [if_pos h]
    · rw [if_neg h]
      rfl

theorem collectFold_snd (byId : List (Nat × ApiMessage)) (chatId : String) :
    ∀ (ids : List Nat) (acc : List (Int × List Nat) × GlobalState),
    (ids.foldl (collectThreadsStep byId chatId) acc).2 = acc.2 := by
  intro ids
  induction ids with
  | nil => intro acc; rfl
  | cons i rest ih =>
    intro acc
    simp only [List.foldl_cons]
    rw [ih, collectStep_snd]

theorem collectFold_mono (byId : List (Nat × ApiMessage)) (chatId : String) :
    ∀ (ids : List Nat) (acc : List (Int × List Nat) × GlobalState) (T : Int)
      (tids : List Nat) (d : Nat),
    alookup acc.1 T = some tids → d ∈ tids →
    ∃ tids2, alookup (ids.foldl (collectThreadsStep byId chatId) acc).1 T = some tids2
      ∧ d ∈ tids2 := by
  intro ids
  induction ids with
  | nil =>
    intro acc T tids d h1 h2
    exact ⟨tids, h1, h2⟩
  | cons i rest ih =>
    intro acc T tids d h1 h2
    simp only [List.foldl_cons]
    have hstep : ∃ tids1, alookup (collectThreadsStep byId chatId acc i).1 T = some tids1
        ∧ d ∈ tids1 := by
      unfold collectThreadsStep
      cases alookup byId i with
      | none => exact ⟨tids, h1, h2⟩
      | some m =>
        dsimp only
        by_cases h : selectThreadIdFromMessage acc.2 m = 0
            ∨ selectThreadIdFromMessage acc.2 m = MAIN_THREAD_ID
        · rw [if_pos h]
          exact ⟨tids, h1, h2⟩
        · rw [if_neg h]
          by_cases hT : selectThreadIdFromMessage acc.2 m = T
          · rw [hT]
            refine ⟨(alookup acc.1 T).getD [] ++ [i], ?_, ?_⟩
            · simp [alookup_aset_self]
            · rw [h1]
              simp only [Option.getD_some]
              exact List.mem_append_left _ h2
          · simp only
            rw [alookup_aset_ne _ _ _ _ (fun he => hT he.symm)]
            exact ⟨tids, h1, h2⟩
    rcases hstep with ⟨tids1, hh1, hh2⟩
    exact ih _ T tids1 d hh1 hh2

theorem collectFold_cover (byId : List (Nat × ApiMessage)) (chatId : String) :
    ∀ (ids : List Nat) (acc : List (Int × List Nat) × GlobalState) (d : Nat)
      (m : ApiMessage) (T : Int),
    d ∈ ids → alookup byId d = some m →
    selectThreadIdFromMessage acc.2 m = T → T ≠ 0 → T ≠ MAIN_THREAD_ID →
    ∃ tids, alookup (ids.foldl (collectThreadsStep byId chatId) acc).1 T = some tids
      ∧ d ∈ tids := by
  intro ids
  induction ids with
  | nil =>
    intro acc d m T hd
    simp at hd
  | cons i rest ih =>
    intro acc d m T hd hm hres h0 hMain
    simp only [List.foldl_cons]
    have hresAny : ∀ g2 : GlobalState, selectThreadIdFromMessage g2 m = T := fun g2 => hres
    rcases List.mem_cons.mp hd with h' | h'
    · subst h'
      have hstep : ∃ tids, alookup (collectThreadsStep byId chatId acc d).1 T = some tids
          ∧ d ∈ tids := by
        unfold collectThreadsStep
        rw [hm]
        dsimp only
        rw [hresAny acc.2]
        rw [if_neg (by
          intro hor
          rcases hor with hx | hx
          · exact h0 hx
          · exact hMain hx)]
        refine ⟨(alookup acc.1 T).getD [] ++ [d], ?_, List.mem_append_right _ (by simp)⟩
        simp [alookup_aset_self]
      rcases hstep with ⟨tids, hh1, hh2⟩
      exact collectFold_mono byId chatId rest _ T tids d hh1 hh2
    · exact ih _ d m T h' hm (hresAny _) h0 hMain

theorem collectFold_keysNodup (byId : List (Nat × ApiMessage)) (chatId : String) :
    ∀ (ids : List Nat) (acc : List (Int × List Nat) × GlobalState),
    (acc.1.map Prod.fst).Nodup →
    ((ids.foldl (collectThreadsStep byId chatId) acc).1.map Prod.fst).Nodup := by
  intro ids
  induction ids with
  | nil => intro acc h; exact h
  | cons i rest ih =>
    intro acc h
    simp only [List.foldl_cons]
    apply ih
    unfold collectThreadsStep
    cases alookup byId i with
    | none => exact h
    | some m =>
      dsimp only
      by_cases hcond : selectThreadIdFromMessage acc.2 m = 0
          ∨ selectThreadIdFromMessage acc.2 m = MAIN_THREAD_ID
      · rw [if_pos hcond]
        exact h
      · rw [if_neg hcond]
        exact nodup_keys_aset _ _ _ h

theorem collectFold_head (byId : List (Nat × ApiMessage)) (chatId : String) :
    ∀ (ids : List Nat) (acc : List (Int × List Nat) × GlobalState) (v : List Nat)
      (rest0 : List (Int × List Nat)),
    acc.1 = (MAIN_THREAD_ID, v) :: rest0 →
    ∃ rest1, (ids.foldl (collectThreadsStep byId chatId) acc).1
      = (MAIN_THREAD_ID, v) :: rest1 := by
  intro ids
  induction ids with
  | nil =>
    intro acc v rest0 h
    exact ⟨rest0, h⟩
  | cons i rest ih =>
    intro acc v rest0 h
    simp only [List.foldl_cons]
    have hstep : ∃ rest1, (collectThreadsStep byId chatId acc i).1
        = (MAIN_THREAD_ID, v) :: rest1 := by
      unfold collectThreadsStep
      cases alookup byId i with
      | none => exact ⟨rest0, h⟩
      | some m =>
        dsimp only
        by_cases hcond : selectThreadIdFromMessage acc.2 m = 0
            ∨ selectThreadIdFromMessage acc.2 m = MAIN_THREAD_ID
        · rw [if_pos hcond]
          exact ⟨rest0, h⟩
        · rw [if_neg hcond]
          push_neg at hcond
          rw [h]
          simp only [aset, if_neg (fun he =>
            hcond.2 (he : MAIN_THREAD_ID = selectThreadIdFromMessage acc.2 m).symm)]
          exact ⟨_, rfl⟩
    rcases hstep with ⟨rest1, hh⟩
    exact ih _ v rest1 hh

/-- No deleted id survives in any index list or viewport of the chat. -/
def DeleteClean (g : GlobalState) (chatId : String) (messageIds : List Nat) : Prop :=
  (∀ t : Int, ∀ d ∈ messageIds,
    d ∉ (selectListedIds g chatId t).getD []
    ∧ (∀ r ∈ (selectOutlyingLists g chatId t).getD [], d ∉ r)
    ∧ d ∉ (selectPinnedIds g chatId t).getD [])
  ∧ (∀ t : Int, ∀ tab : Nat, ∀ d ∈ messageIds,
    d ∉ (selectViewportIds g chatId t tab).getD [])

theorem selectViewportIds_updateTabState_keepThreads (g : GlobalState)
    (upd : TabState → TabState) (tabId : Nat)
    (hupd : ∀ ts, (upd ts).tabThreads = ts.tabThreads) (c2 : String) (t2 : Int) (tab2 : Nat) :
    selectViewportIds (updateTabState g upd tabId) c2 t2 tab2
      = selectViewportIds g c2 t2 tab2 := by
  by_cases h : tab2 = tabId
  · subst h
    unfold selectViewportIds selectTabThread
    rw [selectTabStateD_updateTabState_self, hupd]
  · unfold selectViewportIds selectTabThread
    rw [selectTabStateD_updateTabState_ne _ _ _ _ h]

theorem updateCurrentMessageList_messages (g : GlobalState) (c0 : Option String) (t0 : Int)
    (ty : MLType) (b1 b2 : Bool) (tabId : Nat) :
    (updateCurrentMessageList g c0 t0 ty b1 b2 tabId).messages = g.messages := rfl

theorem updateCurrentMessageList_viewport (g : GlobalState) (c0 : Option String) (t0 : Int)
    (ty : MLType) (b1 b2 : Bool) (tabId : Nat) (c2 : String) (t2 : Int) (tab2 : Nat) :
    selectViewportIds (updateCurrentMessageList g c0 t0 ty b1 b2 tabId) c2 t2 tab2
      = selectViewportIds g c2 t2 tab2 := by
  unfold updateCurrentMessageList
  exact selectViewportIds_updateTabState_keepThreads g
    (fun ts => { ts with messageLists :=
      newCurrentMessageLists g c0 t0 ty b1 b2 tabId }) tabId (fun ts => rfl) c2 t2 tab2

theorem listsEq_of_messages_eq {g1 g2 : GlobalState} (h : g1.messages = g2.messages)
    (c2 : String) (t2 : Int) : listsEq g1 g2 c2 t2 := by
  refine ⟨?_, ?_, ?_⟩
  · unfold selectListedIds
    rw [selectThreadRec_congr_messages _ _ h]
  · unfold selectOutlyingLists
    rw [selectThreadRec_congr_messages _ _ h]
  · unfold selectPinnedIds
    rw [selectThreadRec_congr_messages _ _ h]

theorem deleteClean_updateCurrentMessageList (g : GlobalState) (chatId : String)
    (messageIds : List Nat) (c0 : Option String) (t0 : Int) (ty : MLType) (b1 b2 : Bool)
    (tabId : Nat) (h : DeleteClean g chatId messageIds) :
    DeleteClean (updateCurrentMessageList g c0 t0 ty b1 b2 tabId) chatId messageIds := by
  constructor
  · intro t d hd
    have hl := listsEq_of_messages_eq
      (updateCurrentMessageList_messages g c0 t0 ty b1 b2 tabId) chatId t
    refine ⟨?_, ?_, ?_⟩
    · rw [hl.1]
      exact (h.1 t d hd).1
    · rw [hl.2.1]
      exact (h.1 t d hd).2.1
    · rw [hl.2.2]
      exact (h.1 t d hd).2.2
  · intro t tab d hd
    rw [updateCurrentMessageList_viewport]
    exact h.2 t tab d hd

theorem deleteClean_updateThreadNone (g : GlobalState) (chatId : String)
    (messageIds : List Nat) (c0 : String) (t0 : Int) (h : DeleteClean g chatId messageIds) :
    DeleteClean (updateThread g c0 t0 none) chatId messageIds := by
  constructor
  · intro t d hd
    by_cases hct : chatId = c0 ∧ t = t0
    · unfold selectListedIds selectOutlyingLists selectPinnedIds
      rw [selectThreadRec_updateThread_none, if_pos hct]
      simp
    · unfold selectListedIds selectOutlyingLists selectPinnedIds
      rw [selectThreadRec_updateThread_none, if_neg hct]
      exact h.1 t d hd
  · intro t tab d hd
    rw [selectViewportIds_congr_byTabId _ _ (updateThread_byTabId _ _ _ _)]
    exact h.2 t tab d hd

theorem deleteClean_forwardedPostStep (g : GlobalState) (chatId : String)
    (messageIds : List Nat) (canDelete : Bool) (curTid : Option Int) (tabId : Nat)
    (msg : ApiMessage) (h : DeleteClean g chatId messageIds) :
    DeleteClean (forwardedPostStep chatId canDelete curTid tabId g msg) chatId messageIds := by
  unfold forwardedPostStep
  cases msg.forwardInfo with
  | none => exact h
  | some fi =>
    dsimp only
    have h2 : DeleteClean
        (if (canDelete && (match msg.id with
          | some mid => decide (curTid = some (Int.ofNat mid))
          | none => false)) = true then
          updateCurrentMessageList g (some chatId) MAIN_THREAD_ID MLType.thread false false
            tabId
        else g) chatId messageIds := by
      by_cases hc : (canDelete && (match msg.id with
          | some mid => decide (curTid = some (Int.ofNat mid))
          | none => false)) = true
      · rw [if_pos hc]
        exact deleteClean_updateCurrentMessageList _ _ _ _ _ _ _ _ _ h
      · rw [if_neg hc]
        exact h
    by_cases ho : (fi.fromChatId.bind (fun oc => fi.fromMessageId.bind
        (fun om => selectChatMessage g oc om))).isSome = true
    · rw [if_pos ho]
      exact deleteClean_updateThreadNone _ _ _ _ _ h2
    · rw [if_neg ho]
      exact h2

theorem deleteClean_forwardedPostsFold (chatId : String) (messageIds : List Nat)
    (canDelete : Bool) (curTid : Option Int) (tabId : Nat) :
    ∀ (posts : List ApiMessage) (g : GlobalState), DeleteClean g chatId messageIds →
    DeleteClean (posts.foldl (forwardedPostStep chatId canDelete curTid tabId) g)
      chatId messageIds := by
  intro posts
  induction posts with
  | nil => intro g h; exact h
  | cons p rest ih =>
    intro g h
    simp only [List.foldl_cons]
    exact ih _ (deleteClean_forwardedPostStep _ _ _ _ _ _ _ h)

theorem deleteClean_forwardedTabStep (chatId : String) (messageIds : List Nat)
    (posts : List ApiMessage) (g : GlobalState) (tabId : Nat)
    (h : DeleteClean g chatId messageIds) :
    DeleteClean (forwardedTabStep chatId posts g tabId) chatId messageIds := by
  unfold forwardedTabStep
  exact deleteClean_forwardedPostsFold _ _ _ _ _ posts g h

theorem deleteClean_forwardedTabsFold (chatId : String) (messageIds : List Nat)
    (posts : List ApiMessage) :
    ∀ (tabs : List Nat) (g : GlobalState), DeleteClean g chatId messageIds →
    DeleteClean (tabs.foldl (forwardedTabStep chatId posts) g) chatId messageIds := by
  intro tabs
  induction tabs with
  | nil => intro g h; exact h
  | cons tab rest ih =>
    intro g h
    simp only [List.foldl_cons]
    exact ih _ (deleteClean_forwardedTabStep _ _ _ _ _ h)

theorem selectThreadRec_replaceChatMessages (g : GlobalState) (chatId : String)
    (m : List (Nat × ApiMessage)) (c2 : String) (t2 : Int) :
    selectThreadRec (replaceChatMessages g chatId m) c2 t2 = selectThreadRec g c2 t2 := by
  by_cases hc : c2 = chatId
  · subst hc
    unfold replaceChatMessages updateMessageStore
    rw [selectThreadRec_eq, selectThreadRec_eq]
    simp only [alookup_aset_self, Option.getD_some]
  · unfold replaceChatMessages updateMessageStore selectThreadRec selectMessagesSections
    simp only
    rw [alookup_aset_ne _ _ _ _ hc]

theorem deleteClean_replaceChatMessages (g : GlobalState) (chatId c0 : String)
    (messageIds : List Nat) (m : List (Nat × ApiMessage))
    (h : DeleteClean g chatId messageIds) :
    DeleteClean (replaceChatMessages g c0 m) chatId messageIds := by
  constructor
  · intro t d hd
    unfold selectListedIds selectOutlyingLists selectPinnedIds
    rw [selectThreadRec_replaceChatMessages]
    exact h.1 t d hd
  · intro t tab d hd
    have hb : (replaceChatMessages g c0 m).byTabId = g.byTabId := rfl
    rw [selectViewportIds_congr_byTabId _ _ hb]
    exact h.2 t tab d hd

/-- Core cleanliness of the per-thread deletion fold: when the collected
    pairs have distinct keys, the main entry carries the whole sorted
    delete set, and every occurrence of a deleted id in a non-main index
    list or viewport is covered by a collected pair, the fold leaves no
    deleted id in any index list or viewport of the chat. -/
theorem deleteCleanCore (g : GlobalState) (chatId : String) (messageIds0 sorted : List Nat)
    (pairs : List (Int × List Nat))
    (hmm : ∀ d : Nat, d ∈ sorted ↔ d ∈ messageIds0)
    (hnodup : (pairs.map Prod.fst).Nodup)
    (hwk : TabsWellKeyed g)
    (hhead : ∃ restp, pairs = (MAIN_THREAD_ID, sorted) :: restp)
    (hlists : ∀ t : Int, ∀ d ∈ messageIds0, t ≠ MAIN_THREAD_ID →
      (d ∈ (selectListedIds g chatId t).getD []
        ∨ (∃ r ∈ (selectOutlyingLists g chatId t).getD [], d ∈ r)
        ∨ d ∈ (selectPinnedIds g chatId t).getD []) →
      ∃ tids, alookup pairs t = some tids ∧ d ∈ tids)
    (hviews : ∀ t : Int, ∀ tab : Nat, ∀ d ∈ messageIds0, t ≠ MAIN_THREAD_ID →
      d ∈ (selectViewportIds g chatId t tab).getD [] →
      ∃ tids, alookup pairs t = some tids ∧ d ∈ tids) :
    DeleteClean (pairs.foldl (threadDeleteStep chatId sorted) g) chatId messageIds0 := by
  obtain ⟨restp, hps⟩ := hhead
  have hfold := threadFold_spec chatId sorted pairs g hnodup hwk
  have hmainKeys : MAIN_THREAD_ID ∈ pairs.map Prod.fst := by
    rw [hps]
    simp
  have hpairVal : ∀ p ∈ pairs, alookup pairs p.1 = some p.2 := by
    intro p hp
    exact alookup_eq_of_mem_nodup hnodup hp
  have hmainVal : alookup pairs MAIN_THREAD_ID = some sorted := by
    rw [hps]
    simp [alookup]
  have hInPair : ∀ p ∈ pairs, ∀ d ∈ messageIds0,
      (d ∈ (selectListedIds g chatId p.1).getD []
        ∨ (∃ r ∈ (selectOutlyingLists g chatId p.1).getD [], d ∈ r)
        ∨ d ∈ (selectPinnedIds g chatId p.1).getD []) → d ∈ p.2 := by
    intro p hp d hd hocc
    by_cases hMain : p.1 = MAIN_THREAD_ID
    · have h1 := hpairVal p hp
      rw [hMain, hmainVal] at h1
      injection h1 with h2
      rw [← h2]
      exact (hmm d).mpr hd
    · obtain ⟨tids, htids, hdt⟩ := hlists p.1 d hd hMain hocc
      have h1 := hpairVal p hp
      rw [htids] at h1
      injection h1 with h2
      rw [← h2]
      exact hdt
  constructor
  · intro t d hd
    by_cases hcol : t ∈ pairs.map Prod.fst
    · obtain ⟨p, hp, hpt⟩ := List.mem_map.mp hcol
      subst hpt
      have hspec := hfold.1 p hp
      refine ⟨?_, ?_, ?_⟩
      · rw [hspec.1]
        cases hL : selectListedIds g chatId p.1 with
        | none => simp
        | some L =>
          simp only [Option.map_some', Option.getD_some]
          intro hmem
          have hm2 := mem_excludeSortedArray.mp hmem
          exact hm2.2 (hInPair p hp d hd (Or.inl (by rw [hL]; exact hm2.1)))
      · rw [hspec.2.1]
        cases hO : selectOutlyingLists g chatId p.1 with
        | none => simp
        | some ls =>
          simp only [Option.map_some', Option.getD_some]
          intro r hr hdr
          obtain ⟨r0, hr0, hreq⟩ := List.mem_map.mp hr
          rw [← hreq] at hdr
          have hm2 := mem_excludeSortedArray.mp hdr
          exact hm2.2 (hInPair p hp d hd (Or.inr (Or.inl ⟨r0, by rw [hO]; exact hr0, hm2.1⟩)))
      · rw [hspec.2.2.1]
        cases hP : selectPinnedIds g chatId p.1 with
        | none => simp
        | some L =>
          simp only [Option.map_some', Option.getD_some]
          intro hmem
          have hm2 := mem_excludeSortedArray.mp hmem
          exact hm2.2 (mem_orderPinnedIds.mpr
            (hInPair p hp d hd (Or.inr (Or.inr (by rw [hP]; exact hm2.1)))))
    · have hMain : t ≠ MAIN_THREAD_ID := fun he => hcol (by rw [he]; exact hmainKeys)
      have hfr := hfold.2.1 t hcol
      have hnocc : ¬ (d ∈ (selectListedIds g chatId t).getD []
          ∨ (∃ r ∈ (selectOutlyingLists g chatId t).getD [], d ∈ r)
          ∨ d ∈ (selectPinnedIds g chatId t).getD []) := by
        intro hocc
        obtain ⟨tids, htids, _⟩ := hlists t d hd hMain hocc
        exact hcol (List.mem_map_of_mem Prod.fst (alookup_mem htids))
      push_neg at hnocc
      refine ⟨?_, ?_, ?_⟩
      · rw [hfr.1.1]
        exact hnocc.1
      · rw [hfr.1.2.1]
        intro r hr
        exact hnocc.2.1 r hr
      · rw [hfr.1.2.2]
        exact hnocc.2.2
  · intro t tab d hd
    by_cases hcol : t ∈ pairs.map Prod.fst
    · obtain ⟨p, hp, hpt⟩ := List.mem_map.mp hcol
      subst hpt
      exact (hfold.1 p hp).2.2.2 tab d ((hmm d).mpr hd)
    · have hMain : t ≠ MAIN_THREAD_ID := fun he => hcol (by rw [he]; exact hmainKeys)
      rw [(hfold.2.1 t hcol).2 tab]
      intro hmem
      obtain ⟨tids, htids, _⟩ := hviews t tab d hd hMain hmem
      exact hcol (List.mem_map_of_mem Prod.fst (alookup_mem htids))

/-- Deleted message of the C1 counterexample: it belongs to thread 5. -/
def msgC1 : ApiMessage := { emptyMessage with id := some 1, threadMembershipId := some 5 }

/-- Thread record of the C1 counterexample: thread 9 lists a message that
    does not belong to it. -/
def thrC1 : Thread := { emptyThread with listedIds := some [1] }

/-- The C1 counterexample state. -/
def gC1 : GlobalState :=
  { messages := { byChatId := [("c", { byId := [(1, msgC1)], threadsById := [(9, thrC1)] })] }
  , scheduledMessages := { byChatId := [] }
  , byTabId := [] }

/-- C1: the claim that after deleteChatMessages no thread of the chat has
    a deleted id in its index lists fails on the code: the deletion only
    cleans the threads the deleted messages resolve to (plus the main
    timeline), so a thread whose listedIds holds the id of a message that
    belongs to a different thread keeps the deleted id. -/
theorem c1_counterexample :
    selectChatMessages gC1 "c" = some [(1, msgC1)]
    ∧ 1 ∈ (selectListedIds (deleteChatMessages gC1 "c" [1]) "c" 9).getD [] := by
  constructor
  · decide
  · decide

/-- C1 (amended): deletion completeness holds for a chat with a message
    table under the well-formedness the reducer relies on: every tab record
    is keyed by its own id, every occurrence of a deleted id in the index
    lists of a non-main thread record is an id whose stored message
    resolves to exactly that thread (and the thread id is not the falsy 0),
    and likewise for every occurrence in a tab viewport unless it is the
    main-thread viewport.  Then after deleteChatMessages no thread of the
    chat has a deleted id in its listedIds, outlyingLists or pinnedIds, no
    tab viewport of the chat contains a deleted id, and the message table
    of the chat maps none of the deleted ids. -/
theorem c1_amended (g : GlobalState) (chatId : String) (messageIds0 : List Nat)
    (byId : List (Nat × ApiMessage))
    (hby : selectChatMessages g chatId = some byId)
    (hwk : TabsWellKeyed g)
    (hlists : ∀ p ∈ ((alookup g.messages.byChatId chatId).getD emptySections).threadsById,
      p.1 ≠ MAIN_THREAD_ID → ∀ d ∈ messageIds0,
      (d ∈ p.2.listedIds.getD []
        ∨ (∃ r ∈ p.2.outlyingLists.getD [], d ∈ r)
        ∨ d ∈ p.2.pinnedIds.getD []) →
      (alookup byId d).map (selectThreadIdFromMessage g) = some p.1 ∧ p.1 ≠ 0)
    (hviews : ∀ q ∈ g.byTabId, ∀ e ∈ (alookup q.2.tabThreads chatId).getD [],
      ∀ d ∈ messageIds0, d ∈ e.2.viewportIds.getD [] →
      e.1 = MAIN_THREAD_ID
        ∨ ((alookup byId d).map (selectThreadIdFromMessage g) = some e.1 ∧ e.1 ≠ 0)) :
    (∀ d ∈ messageIds0,
      selectChatMessage (deleteChatMessages g chatId messageIds0) chatId d = none)
    ∧ DeleteClean (deleteChatMessages g chatId messageIds0) chatId messageIds0 := by
  unfold deleteChatMessages
  rw [hby]
  dsimp only
  rw [collectFold_snd]
  dsimp only
  obtain ⟨secs, hsecs, hsbyId⟩ := Option.map_eq_some'.mp (show
    (selectMessagesSections g chatId).map (fun s => s.byId) = some byId from hby)
  have hsecs' : alookup g.messages.byChatId chatId = some secs := hsecs
  have hcoverL : ∀ t : Int, ∀ d ∈ messageIds0, t ≠ MAIN_THREAD_ID →
      (d ∈ (selectListedIds g chatId t).getD []
        ∨ (∃ r ∈ (selectOutlyingLists g chatId t).getD [], d ∈ r)
        ∨ d ∈ (selectPinnedIds g chatId t).getD []) →
      ∃ tids, alookup ((orderHistoryIds messageIds0).foldl (collectThreadsStep byId chatId)
          ([(MAIN_THREAD_ID, orderHistoryIds messageIds0)], g)).1 t = some tids
        ∧ d ∈ tids := by
    intro t d hd hMain hocc
    cases hr : selectThreadRec g chatId t with
    | none =>
      exfalso
      unfold selectListedIds selectOutlyingLists selectPinnedIds at hocc
      rw [hr] at hocc
      simp at hocc
    | some th =>
      have hmem : (t, th) ∈ secs.threadsById := by
        apply alookup_mem
        have : selectThreadRec g chatId t = alookup secs.threadsById t := by
          unfold selectThreadRec selectMessagesSections
          rw [hsecs']
          rfl
        rw [← this, hr]
      have hocc2 : d ∈ th.listedIds.getD []
          ∨ (∃ r ∈ th.outlyingLists.getD [], d ∈ r)
          ∨ d ∈ th.pinnedIds.getD [] := by
        unfold selectListedIds selectOutlyingLists selectPinnedIds at hocc
        rw [hr] at hocc
        exact hocc
      have hb := hlists (t, th) (by rw [hsecs']; exact hmem) hMain d hd hocc2
      obtain ⟨m, hm, hres⟩ := Option.map_eq_some'.mp hb.1
      exact collectFold_cover byId chatId (orderHistoryIds messageIds0)
        ([(MAIN_THREAD_ID, orderHistoryIds messageIds0)], g) d m t
        (mem_orderHistoryIds.mpr hd) hm hres hb.2 hMain
  have hcoverV : ∀ t : Int, ∀ tab : Nat, ∀ d ∈ messageIds0, t ≠ MAIN_THREAD_ID →
      d ∈ (selectViewportIds g chatId t tab).getD [] →
      ∃ tids, alookup ((orderHistoryIds messageIds0).foldl (collectThreadsStep byId chatId)
          ([(MAIN_THREAD_ID, orderHistoryIds messageIds0)], g)).1 t = some tids
        ∧ d ∈ tids := by
    intro t tab d hd hMain hocc
    cases hts : alookup g.byTabId tab with
    | none =>
      exfalso
      unfold selectViewportIds selectTabThread selectTabStateD at hocc
      rw [hts] at hocc
      simp [defaultTabState, alookup] at hocc
    | some ts =>
      cases hmap : alookup ts.tabThreads chatId with
      | none =>
        exfalso
        unfold selectViewportIds selectTabThread selectTabStateD at hocc
        rw [hts] at hocc
        simp only [Option.getD_some] at hocc
        rw [hmap] at hocc
        simp at hocc
      | some thrMap =>
        cases htt : alookup thrMap t with
        | none =>
          exfalso
          unfold selectViewportIds selectTabThread selectTabStateD at hocc
          rw [hts] at hocc
          simp only [Option.getD_some] at hocc
          rw [hmap] at hocc
          simp only [Option.some_bind] at hocc
          rw [htt] at hocc
          simp at hocc
        | some tt =>
          have hocc2 : d ∈ tt.viewportIds.getD [] := by
            unfold selectViewportIds selectTabThread selectTabStateD at hocc
            rw [hts] at hocc
            simp only [Option.getD_some] at hocc
            rw [hmap] at hocc
            simp only [Option.some_bind] at hocc
            rw [htt] at hocc
            exact hocc
          have hq := hviews (tab, ts) (alookup_mem hts) (t, tt)
            (by rw [hmap]; exact alookup_mem htt) d hd hocc2
          rcases hq with hq | hq
          · exact absurd hq hMain
          · obtain ⟨m, hm, hres⟩ := Option.map_eq_some'.mp hq.1
            exact collectFold_cover byId chatId (orderHistoryIds messageIds0)
              ([(MAIN_THREAD_ID, orderHistoryIds messageIds0)], g) d m t
              (mem_orderHistoryIds.mpr hd) hm hres hq.2 hMain
  have hcore := deleteCleanCore g chatId messageIds0 (orderHistoryIds messageIds0)
    ((orderHistoryIds messageIds0).foldl (collectThreadsStep byId chatId)
      ([(MAIN_THREAD_ID, orderHistoryIds messageIds0)], g)).1
    (fun d => mem_orderHistoryIds)
    (collectFold_keysNodup byId chatId (orderHistoryIds messageIds0)
      ([(MAIN_THREAD_ID, orderHistoryIds messageIds0)], g) (by simp))
    hwk
    (collectFold_head byId chatId (orderHistoryIds messageIds0)
      ([(MAIN_THREAD_ID, orderHistoryIds messageIds0)], g) (orderHistoryIds messageIds0) [] rfl)
    hcoverL hcoverV
  refine ⟨?_, ?_⟩
  · intro d hd
    unfold selectChatMessage
    rw [selectChatMessages_replaceChatMessages_self]
    simp [alookup_jsOmit, mem_orderHistoryIds.mpr hd]
  · apply deleteClean_replaceChatMessages
    by_cases hpe : (deletedForwardedPostsOf byId (orderHistoryIds messageIds0)).isEmpty = true
    · rw [if_pos hpe]
      exact hcore
    · rw [if_neg hpe]
      apply deleteClean_forwardedTabsFold
      exact hcore

/-- Deleted message of the C1 witness: it belongs to topic thread 5. -/
def msgW1 : ApiMessage := { emptyMessage with id := some 1, threadMembershipId := some 5 }

/-- Second message of the C1 witness, on the main timeline. -/
def msgW1b : ApiMessage := { emptyMessage with id := some 2 }

/-- Message table of the C1 witness chat. -/
def byIdW1 : List (Nat × ApiMessage) := [(1, msgW1), (2, msgW1b)]

/-- Main thread record of the C1 witness. -/
def thrW1main : Thread :=
  { emptyThread with listedIds := some [1, 2], pinnedIds := some [1] }

/-- Topic thread record of the C1 witness. -/
def thrW1topic : Thread := { emptyThread with listedIds := some [1] }

/-- Tab state of the C1 witness: thread 5 of the chat has a viewport
    showing the deleted id. -/
def tabW1 : TabState :=
  { id := 0, messageLists := []
  , tabThreads := [("c", [(5, { viewportIds := some [1] })])]
  , selectedMessages := none }

/-- The C1 witness state. -/
def gW1 : GlobalState :=
  { messages := { byChatId := [("c",
      { byId := byIdW1
      , threadsById := [(MAIN_THREAD_ID, thrW1main), (5, thrW1topic)] })] }
  , scheduledMessages := { byChatId := [] }
  , byTabId := [(0, tabW1)] }

/-- C1 witness: deleting id 1 empties it out of the message table and of
    every index list and viewport of the chat. -/
theorem c1_witness :
    selectChatMessage (deleteChatMessages gW1 "c" [1]) "c" 1 = none
    ∧ DeleteClean (deleteChatMessages gW1 "c" [1]) "c" [1] := by
  have h := c1_amended gW1 "c" [1] byIdW1 (by decide) (by decide) (by decide) (by decide)
  exact ⟨h.1 1 (by decide), h.2⟩

theorem getLast_append_single {α : Type} (l : List α) (a : α) :
    (l ++ [a]).getLast? = some a := by
  induction l with
  | nil => rfl
  | cons x xs ih =>
    cases xs with
    | nil => rfl
    | cons y ys =>
      rw [List.cons_append, List.cons_append, List.getLast?_cons_cons]
      rw [List.cons_append] at ih
      exact ih

theorem getLast_newCurrentMessageLists (g : GlobalState) (c : String) (t : Int) (ty : MLType)
    (b : Bool) (tabId : Nat) :
    (newCurrentMessageLists g (some c) t ty false b tabId).getLast?
      = some { chatId := c, threadId := t, type := ty } := by
  unfold newCurrentMessageLists
  rw [if_neg (by simp [IS_TEST])]
  dsimp only
  cases hlast : (selectTabStateD g tabId).messageLists.getLast? with
  | none =>
    dsimp only
    rw [getLast_append_single]
  | some last =>
    dsimp only
    by_cases hid : last.chatId = c ∧ last.threadId = t ∧ last.type = ty
    · rw [if_pos hid]
      rw [hlast]
      obtain ⟨h1, h2, h3⟩ := hid
      cases last
      simp_all
    · rw [if_neg hid]
      by_cases htmp : last.chatId = TMP_CHAT_ID ∨ b = true
      · rw [if_pos htmp, getLast_append_single]
      · rw [if_neg htmp, getLast_append_single]

theorem selectCurrentMessageList_updateTabState_keepLists (g : GlobalState)
    (upd : TabState → TabState) (tabId : Nat)
    (hupd : ∀ ts, (upd ts).messageLists = ts.messageLists) (tab : Nat) :
    selectCurrentMessageList (updateTabState g upd tabId) tab
      = selectCurrentMessageList g tab := by
  by_cases h : tab = tabId
  · subst h
    unfold selectCurrentMessageList
    rw [selectTabStateD_updateTabState_self, hupd]
  · unfold selectCurrentMessageList
    rw [selectTabStateD_updateTabState_ne _ _ _ _ h]

theorem selectCurrentMessageList_updateTabThread (g : GlobalState) (chatId : String)
    (threadId : Int) (upd : TabThread → TabThread) (tabId : Nat) (tab : Nat) :
    selectCurrentMessageList (updateTabThread g chatId threadId upd tabId) tab
      = selectCurrentMessageList g tab := by
  unfold updateTabThread
  exact selectCurrentMessageList_updateTabState_keepLists g
    (fun ts2 => { ts2 with tabThreads := (aset ts2.tabThreads chatId
      (aset ((alookup ts2.tabThreads chatId).getD []) threadId
        (upd (((alookup (selectTabStateD g tabId).tabThreads chatId).bind
          (fun m => alookup m threadId)).getD emptyTabThread)))) }) tabId (fun ts => rfl) tab

theorem selectCurrentMessageList_viewportDeleteStep (chatId : String) (messageIds : List Nat)
    (threadId : Int) (g : GlobalState) (tabId : Nat) (tab : Nat) :
    selectCurrentMessageList (viewportDeleteStep chatId messageIds threadId g tabId) tab
      = selectCurrentMessageList g tab := by
  unfold viewportDeleteStep
  cases hv : selectViewportIds g chatId threadId tabId with
  | none => rfl
  | some vp =>
    dsimp only
    unfold replaceTabThreadParamViewportIds
    rw [selectCurrentMessageList_updateTabThread]
    unfold replaceThreadParamLastViewportIds
    exact selectCurrentMessageList_congr_byTabId _ _ (updateThread_byTabId _ _ _ _) tab

theorem selectCurrentMessageList_viewportFold (chatId : String) (messageIds : List Nat)
    (threadId : Int) :
    ∀ (tabs : List Nat) (g : GlobalState) (tab : Nat),
    selectCurrentMessageList (tabs.foldl (viewportDeleteStep chatId messageIds threadId) g) tab
      = selectCurrentMessageList g tab := by
  intro tabs
  induction tabs with
  | nil => intro g tab; rfl
  | cons t0 rest ih =>
    intro g tab
    simp only [List.foldl_cons]
    rw [ih, selectCurrentMessageList_viewportDeleteStep]

theorem selectCurrentMessageList_threadDeleteStep (chatId : String) (messageIds : List Nat)
    (g : GlobalState) (pr : Int × List Nat) (tab : Nat) :
    selectCurrentMessageList (threadDeleteStep chatId messageIds g pr) tab
      = selectCurrentMessageList g tab := by
  have hstep : threadDeleteStep chatId messageIds g pr
      = threadCountFinish chatId pr.1 (selectThreadInfo g chatId pr.1)
          (((selectThreadInfo g chatId pr.1).bind (fun ti => ti.messagesCount)).map
            (fun c => c - Int.ofNat
              ((pr.2.filter (fun id => ! isLocalMessageId id)).length)))
          (replaceThreadParamPinnedIds
            (replaceThreadParamOutlyingLists
              (replaceThreadParamListedIds
                ((tabIdsOf g).foldl (viewportDeleteStep chatId messageIds pr.1) g)
                chatId pr.1
                ((selectListedIds g chatId pr.1).map
                  (fun l => excludeSortedArray l pr.2)))
              chatId pr.1
              ((selectOutlyingLists g chatId pr.1).map
                (fun ls => ls.map (fun l => excludeSortedArray l pr.2))))
            chatId pr.1
            ((selectPinnedIds g chatId pr.1).map
              (fun l => excludeSortedArray l (orderPinnedIds pr.2)))) := rfl
  rw [hstep]
  have hb : (threadCountFinish chatId pr.1 (selectThreadInfo g chatId pr.1)
      (((selectThreadInfo g chatId pr.1).bind (fun ti => ti.messagesCount)).map
        (fun c => c - Int.ofNat
          ((pr.2.filter (fun id => ! isLocalMessageId id)).length)))
      (replaceThreadParamPinnedIds
        (replaceThreadParamOutlyingLists
          (replaceThreadParamListedIds
            ((tabIdsOf g).foldl (viewportDeleteStep chatId messageIds pr.1) g)
            chatId pr.1
            ((selectListedIds g chatId pr.1).map
              (fun l => excludeSortedArray l pr.2)))
          chatId pr.1
          ((selectOutlyingLists g chatId pr.1).map
            (fun ls => ls.map (fun l => excludeSortedArray l pr.2))))
        chatId pr.1
        ((selectPinnedIds g chatId pr.1).map
          (fun l => excludeSortedArray l (orderPinnedIds pr.2))))).byTabId
      = ((tabIdsOf g).foldl (viewportDeleteStep chatId messageIds pr.1) g).byTabId := by
    rw [threadCountFinish_byTabId]
    unfold replaceThreadParamPinnedIds replaceThreadParamOutlyingLists
      replaceThreadParamListedIds
    rw [updateThread_byTabId, updateThread_byTabId, updateThread_byTabId]
  rw [selectCurrentMessageList_congr_byTabId _ _ hb tab]
  exact selectCurrentMessageList_viewportFold chatId messageIds pr.1 (tabIdsOf g) g tab

theorem selectCurrentMessageList_threadFold (chatId : String) (messageIds : List Nat) :
    ∀ (pairs : List (Int × List Nat)) (g : GlobalState) (tab : Nat),
    selectCurrentMessageList (pairs.foldl (threadDeleteStep chatId messageIds) g) tab
      = selectCurrentMessageList g tab := by
  intro pairs
  induction pairs with
  | nil => intro g tab; rfl
  | cons p rest ih =>
    intro g tab
    simp only [List.foldl_cons]
    rw [ih, selectCurrentMessageList_threadDeleteStep]

theorem threadFold_byTabId_keys (chatId : String) (messageIds : List Nat) :
    ∀ (pairs : List (Int × List Nat)) (g : GlobalState),
    (pairs.foldl (threadDeleteStep chatId messageIds) g).byTabId.map Prod.fst
      = g.byTabId.map Prod.fst := by
  intro pairs
  induction pairs with
  | nil => intro g; rfl
  | cons p rest ih =>
    intro g
    simp only [List.foldl_cons]
    rw [ih, (threadDeleteStep_spec chatId messageIds g p).2.2.2.2.2.1]

theorem selectChatMessage_congr_messages (g1 g2 : GlobalState) (h : g1.messages = g2.messages)
    (c : String) (k : Nat) : selectChatMessage g1 c k = selectChatMessage g2 c k := by
  unfold selectChatMessage selectChatMessages selectMessagesSections
  rw [h]

theorem selectChatMessage_updateTabState (g : GlobalState) (upd : TabState → TabState)
    (tabId : Nat) (c : String) (k : Nat) :
    selectChatMessage (updateTabState g upd tabId) c k = selectChatMessage g c k :=
  selectChatMessage_congr_messages _ _ (updateTabState_messages g upd tabId) c k

theorem selectChatMessage_updateMessageStore (g : GlobalState) (chatId : String)
    (upd : MessageStoreSections → MessageStoreSections)
    (hupd : ∀ s, (upd s).byId = s.byId) (c : String) (k : Nat) :
    selectChatMessage (updateMessageStore g chatId upd) c k = selectChatMessage g c k := by
  unfold selectChatMessage selectChatMessages selectMessagesSections updateMessageStore
  by_cases hc : c = chatId
  · subst hc
    simp only [alookup_aset_self]
    cases hx : alookup g.messages.byChatId c with
    | none => simp [hupd, emptySections, alookup]
    | some s => simp [hupd]
  · simp only []
    rw [alookup_aset_ne _ _ _ _ hc]

theorem selectChatMessage_updateThread (g : GlobalState) (chatId : String) (threadId : Int)
    (v : Option (Thread → Thread)) (c : String) (k : Nat) :
    selectChatMessage (updateThread g chatId threadId v) c k = selectChatMessage g c k := by
  cases v with
  | none =>
    unfold updateThread
    exact selectChatMessage_updateMessageStore g chatId
      (fun s => { s with threadsById := jsOmit s.threadsById [threadId] })
      (fun s => rfl) c k
  | some f =>
    unfold updateThread
    exact selectChatMessage_updateMessageStore g chatId
      (fun s => { s with threadsById := (aset s.threadsById threadId
        (f ((selectThreadRec g chatId threadId).getD emptyThread))) })
      (fun s => rfl) c k

theorem selectChatMessage_updateThreadInfo (g : GlobalState) (chatId : String) (threadId : Int)
    (u : ApiThreadInfo) (b : Bool) (c : String) (k : Nat) :
    selectChatMessage (updateThreadInfo g chatId threadId u b) c k
      = selectChatMessage g c k := by
  have htrue : ∀ (g' : GlobalState) (c0 : String) (t0 : Int) (u0 : ApiThreadInfo),
      selectChatMessage (updateThreadInfo g' c0 t0 u0 true) c k = selectChatMessage g' c k := by
    intro g' c0 t0 u0
    rw [updateThreadInfo_true_eq]
    unfold replaceThreadParamThreadInfo
    rw [selectChatMessage_updateThread]
  cases b with
  | true => exact htrue g chatId threadId u
  | false =>
    conv_lhs => rw [updateThreadInfo]
    dsimp only
    unfold replaceThreadParamThreadInfo
    rw [selectChatMessage_updateThread]
    by_cases hC : truthyBool
        (mergeThreadInfo (selectThreadInfo g chatId threadId) u).isCommentsInfo = true
    · rw [if_pos hC]
      by_cases hT : truthyInt
          (mergeThreadInfo (selectThreadInfo g chatId threadId) u).threadId = true
      · rw [if_pos hT, htrue]
      · rw [if_neg hT]
    · rw [if_neg hC]
      by_cases hS : truthyStr
          (mergeThreadInfo (selectThreadInfo g chatId threadId) u).fromChannelId = true
          ∧ truthyInt (mergeThreadInfo (selectThreadInfo g chatId threadId) u).fromMessageId
            = true
      · rw [if_pos hS, htrue]
      · rw [if_neg hS]

theorem selectChatMessage_threadCountFinish (chatId : String) (threadId : Int)
    (ti : Option ApiThreadInfo) (cnt : Option Int) (g : GlobalState) (c : String) (k : Nat) :
    selectChatMessage (threadCountFinish chatId threadId ti cnt g) c k
      = selectChatMessage g c k := by
  unfold threadCountFinish
  cases ti with
  | none => cases cnt <;> rfl
  | some x =>
    cases cnt with
    | none => rfl
    | some y => rw [selectChatMessage_updateThreadInfo]

theorem selectChatMessage_viewportDeleteStep (chatId : String) (messageIds : List Nat)
    (threadId : Int) (g : GlobalState) (tabId : Nat) (c : String) (k : Nat) :
    selectChatMessage (viewportDeleteStep chatId messageIds threadId g tabId) c k
      = selectChatMessage g c k := by
  unfold viewportDeleteStep
  cases hv : selectViewportIds g chatId threadId tabId with
  | none => rfl
  | some vp =>
    dsimp only
    unfold replaceTabThreadParamViewportIds updateTabThread
    rw [selectChatMessage_updateTabState]
    unfold replaceThreadParamLastViewportIds
    rw [selectChatMessage_updateThread]

theorem selectChatMessage_viewportFold (chatId : String) (messageIds : List Nat)
    (threadId : Int) :
    ∀ (tabs : List Nat) (g : GlobalState) (c : String) (k : Nat),
    selectChatMessage (tabs.foldl (viewportDeleteStep chatId messageIds threadId) g) c k
      = selectChatMessage g c k := by
  intro tabs
  induction tabs with
  | nil => intro g c k; rfl
  | cons t0 rest ih =>
    intro g c k
    simp only [List.foldl_cons]
    rw [ih, selectChatMessage_viewportDeleteStep]

theorem selectChatMessage_threadDeleteStep (chatId : String) (messageIds : List Nat)
    (g : GlobalState) (pr : Int × List Nat) (c : String) (k : Nat) :
    selectChatMessage (threadDeleteStep chatId messageIds g pr) c k
      = selectChatMessage g c k := by
  have hstep : threadDeleteStep chatId messageIds g pr
      = threadCountFinish chatId pr.1 (selectThreadInfo g chatId pr.1)
          (((selectThreadInfo g chatId pr.1).bind (fun ti => ti.messagesCount)).map
            (fun c => c - Int.ofNat
              ((pr.2.filter (fun id => ! isLocalMessageId id)).length)))
          (replaceThreadParamPinnedIds
            (replaceThreadParamOutlyingLists
              (replaceThreadParamListedIds
                ((tabIdsOf g).foldl (viewportDeleteStep chatId messageIds pr.1) g)
                chatId pr.1
                ((selectListedIds g chatId pr.1).map
                  (fun l => excludeSortedArray l pr.2)))
              chatId pr.1
              ((selectOutlyingLists g chatId pr.1).map
                (fun ls => ls.map (fun l => excludeSortedArray l pr.2))))
            chatId pr.1
            ((selectPinnedIds g chatId pr.1).map
              (fun l => excludeSortedArray l (orderPinnedIds pr.2)))) := rfl
  rw [hstep]
  rw [selectChatMessage_threadCountFinish]
  unfold replaceThreadParamPinnedIds replaceThreadParamOutlyingLists
    replaceThreadParamListedIds
  rw [selectChatMessage_updateThread, selectChatMessage_updateThread,
    selectChatMessage_updateThread]
  exact selectChatMessage_viewportFold chatId messageIds pr.1 (tabIdsOf g) g c k

theorem selectChatMessage_threadFold (chatId : String) (messageIds : List Nat) :
    ∀ (pairs : List (Int × List Nat)) (g : GlobalState) (c : String) (k : Nat),
    selectChatMessage (pairs.foldl (threadDeleteStep chatId messageIds) g) c k
      = selectChatMessage g c k := by
  intro pairs
  induction pairs with
  | nil => intro g c k; rfl
  | cons p rest ih =>
    intro g c k
    simp only [List.foldl_cons]
    rw [ih, selectChatMessage_threadDeleteStep]

theorem selectChatMessage_updateCurrentMessageList (g : GlobalState) (c0 : Option String)
    (t0 : Int) (ty : MLType) (b1 b2 : Bool) (tabId : Nat) (c : String) (k : Nat) :
    selectChatMessage (updateCurrentMessageList g c0 t0 ty b1 b2 tabId) c k
      = selectChatMessage g c k :=
  selectChatMessage_congr_messages _ _
    (updateCurrentMessageList_messages g c0 t0 ty b1 b2 tabId) c k

theorem selectChatMessage_forwardedPostStep (chatId : String) (canDelete : Bool)
    (curTid : Option Int) (tabId : Nat) (g : GlobalState) (msg : ApiMessage) (c : String)
    (k : Nat) :
    selectChatMessage (forwardedPostStep chatId canDelete curTid tabId g msg) c k
      = selectChatMessage g c k := by
  unfold forwardedPostStep
  cases msg.forwardInfo with
  | none => rfl
  | some fi =>
    dsimp only
    have h2 : selectChatMessage
        (if (canDelete && (match msg.id with
          | some mid => decide (curTid = some (Int.ofNat mid))
          | none => false)) = true then
          updateCurrentMessageList g (some chatId) MAIN_THREAD_ID MLType.thread false false
            tabId
        else g) c k = selectChatMessage g c k := by
      by_cases hb : (canDelete && (match msg.id with
          | some mid => decide (curTid = some (Int.ofNat mid))
          | none => false)) = true
      · rw [if_pos hb]
        exact selectChatMessage_updateCurrentMessageList _ _ _ _ _ _ _ _ _
      · rw [if_neg hb]
    by_cases ho : (fi.fromChatId.bind (fun oc => fi.fromMessageId.bind
        (fun om => selectChatMessage g oc om))).isSome = true
    · rw [if_pos ho]
      rw [selectChatMessage_updateThread]
      exact h2
    · rw [if_neg ho]
      exact h2

theorem selectChatMessage_fpsFold (chatId : String) (canDelete : Bool) (curTid : Option Int)
    (tabId : Nat) :
    ∀ (posts : List ApiMessage) (g : GlobalState) (c : String) (k : Nat),
    selectChatMessage (posts.foldl (forwardedPostStep chatId canDelete curTid tabId) g) c k
      = selectChatMessage g c k := by
  intro posts
  induction posts with
  | nil => intro g c k; rfl
  | cons q rest ih =>
    intro g c k
    simp only [List.foldl_cons]
    rw [ih, selectChatMessage_forwardedPostStep]

theorem selectChatMessage_forwardedTabStep (chatId : String) (posts : List ApiMessage)
    (g : GlobalState) (tabId : Nat) (c : String) (k : Nat) :
    selectChatMessage (forwardedTabStep chatId posts g tabId) c k
      = selectChatMessage g c k := by
  unfold forwardedTabStep
  exact selectChatMessage_fpsFold chatId _ _ tabId posts g c k

theorem selectThreadRec_none_forwardedPostStep (chatId : String) (canDelete : Bool)
    (curTid : Option Int) (tabId : Nat) (g : GlobalState) (msg : ApiMessage) (oc : String)
    (t : Int) (h : selectThreadRec g oc t = none) :
    selectThreadRec (forwardedPostStep chatId canDelete curTid tabId g msg) oc t = none := by
  unfold forwardedPostStep
  cases msg.forwardInfo with
  | none => exact h
  | some fi =>
    dsimp only
    have h2 : selectThreadRec
        (if (canDelete && (match msg.id with
          | some mid => decide (curTid = some (Int.ofNat mid))
          | none => false)) = true then
          updateCurrentMessageList g (some chatId) MAIN_THREAD_ID MLType.thread false false
            tabId
        else g) oc t = none := by
      by_cases hb : (canDelete && (match msg.id with
          | some mid => decide (curTid = some (Int.ofNat mid))
          | none => false)) = true
      · rw [if_pos hb]
        rw [selectThreadRec_congr_messages _ _
          (updateCurrentMessageList_messages _ _ _ _ _ _ _)]
        exact h
      · rw [if_neg hb]
        exact h
    by_cases ho : (fi.fromChatId.bind (fun oc2 => fi.fromMessageId.bind
        (fun om2 => selectChatMessage g oc2 om2))).isSome = true
    · rw [if_pos ho]
      rw [selectThreadRec_updateThread_none]
      by_cases hct : oc = fi.fromChatId.getD "undefined" ∧ t = Int.ofNat (fi.fromMessageId.getD 0)
      · rw [if_pos hct]
      · rw [if_neg hct]
        exact h2
    · rw [if_neg ho]
      exact h2

theorem selectThreadRec_none_fpsFold (chatId : String) (canDelete : Bool)
    (curTid : Option Int) (tabId : Nat) (oc : String) (t : Int) :
    ∀ (posts : List ApiMessage) (g : GlobalState), selectThreadRec g oc t = none →
    selectThreadRec (posts.foldl (forwardedPostStep chatId canDelete curTid tabId) g) oc t
      = none := by
  intro posts
  induction posts with
  | nil => intro g h; exact h
  | cons q rest ih =>
    intro g h
    simp only [List.foldl_cons]
    exact ih _ (selectThreadRec_none_forwardedPostStep _ _ _ _ _ _ _ _ h)

theorem selectThreadRec_none_forwardedTabStep (chatId : String) (posts : List ApiMessage)
    (g : GlobalState) (tabId : Nat) (oc : String) (t : Int)
    (h : selectThreadRec g oc t = none) :
    selectThreadRec (forwardedTabStep chatId posts g tabId) oc t = none := by
  unfold forwardedTabStep
  exact selectThreadRec_none_fpsFold chatId _ _ tabId oc t posts g h

theorem selectThreadRec_none_ftsFold (chatId : String) (posts : List ApiMessage) (oc : String)
    (t : Int) :
    ∀ (tabs : List Nat) (g : GlobalState), selectThreadRec g oc t = none →
    selectThreadRec (tabs.foldl (forwardedTabStep chatId posts) g) oc t = none := by
  intro tabs
  induction tabs with
  | nil => intro g h; exact h
  | cons t0 rest ih =>
    intro g h
    simp only [List.foldl_cons]
    exact ih _ (selectThreadRec_none_forwardedTabStep _ _ _ _ _ _ h)

theorem fpsFold_removes (chatId : String) (tabId : Nat) (canDelete : Bool)
    (curTid : Option Int) (gbase : GlobalState) (oc : String) (om : Nat) (P : ApiMessage)
    (fi : ApiForwardInfo) (hfi : P.forwardInfo = some fi) (hoc : fi.fromChatId = some oc)
    (hom : fi.fromMessageId = some om) :
    ∀ (posts : List ApiMessage) (g : GlobalState), P ∈ posts →
    (∀ c k, selectChatMessage g c k = selectChatMessage gbase c k) →
    (selectChatMessage gbase oc om).isSome = true →
    selectThreadRec (posts.foldl (forwardedPostStep chatId canDelete curTid tabId) g)
      oc (Int.ofNat om) = none := by
  intro posts
  induction posts with
  | nil =>
    intro g hmem
    simp at hmem
  | cons q rest ih =>
    intro g hmem hinv horig
    simp only [List.foldl_cons]
    rcases List.mem_cons.mp hmem with hq | hq
    · have hstep : selectThreadRec (forwardedPostStep chatId canDelete curTid tabId g q)
          oc (Int.ofNat om) = none := by
        rw [← hq]
        unfold forwardedPostStep
        rw [hfi]
        dsimp only
        rw [hoc, hom]
        simp only [Option.some_bind, Option.getD_some]
        rw [if_pos (by rw [hinv oc om]; exact horig)]
        rw [selectThreadRec_updateThread_none, if_pos ⟨rfl, rfl⟩]
      exact selectThreadRec_none_fpsFold chatId canDelete curTid tabId oc (Int.ofNat om)
        rest _ hstep
    · exact ih _ hq
        (fun c k => by rw [selectChatMessage_forwardedPostStep]; exact hinv c k) horig

theorem ftsFold_removes (chatId : String) (posts : List ApiMessage) (oc : String) (om : Nat)
    (P : ApiMessage) (fi : ApiForwardInfo) (gbase : GlobalState) (hPin : P ∈ posts)
    (hfi : P.forwardInfo = some fi) (hoc : fi.fromChatId = some oc)
    (hom : fi.fromMessageId = some om)
    (horig : (selectChatMessage gbase oc om).isSome = true) :
    ∀ (tabs : List Nat) (g : GlobalState), tabs ≠ [] →
    (∀ c k, selectChatMessage g c k = selectChatMessage gbase c k) →
    selectThreadRec (tabs.foldl (forwardedTabStep chatId posts) g) oc (Int.ofNat om)
      = none := by
  intro tabs
  cases tabs with
  | nil =>
    intro g h
    exact absurd rfl h
  | cons t0 rest =>
    intro g _ hinv
    simp only [List.foldl_cons]
    have h0 : selectThreadRec (forwardedTabStep chatId posts g t0) oc (Int.ofNat om)
        = none := by
      unfold forwardedTabStep
      exact fpsFold_removes chatId t0 _ _ gbase oc om P fi hfi hoc hom posts g hPin hinv horig
    exact selectThreadRec_none_ftsFold chatId posts oc (Int.ofNat om) rest _ h0

theorem selectCurrentMessageList_updateCurrentMessageList_self (g : GlobalState) (c : String)
    (t : Int) (ty : MLType) (b : Bool) (tabId : Nat) :
    selectCurrentMessageList (updateCurrentMessageList g (some c) t ty false b tabId) tabId
      = some { chatId := c, threadId := t, type := ty } := by
  unfold updateCurrentMessageList selectCurrentMessageList
  dsimp only
  rw [selectTabStateD_updateTabState_self]
  exact getLast_newCurrentMessageLists g c t ty b tabId

theorem selectCurrentMessageList_updateCurrentMessageList_ne (g : GlobalState)
    (c0 : Option String) (t : Int) (ty : MLType) (b1 b2 : Bool) (tabId tb : Nat)
    (h : tb ≠ tabId) :
    selectCurrentMessageList (updateCurrentMessageList g c0 t ty b1 b2 tabId) tb
      = selectCurrentMessageList g tb := by
  unfold updateCurrentMessageList selectCurrentMessageList
  dsimp only
  rw [selectTabStateD_updateTabState_ne _ _ _ _ h]

theorem fps_keeps_target (chatId : String) (canDelete : Bool) (curTid : Option Int)
    (tabId : Nat) (g : GlobalState) (msg : ApiMessage) (tb : Nat)
    (h : selectCurrentMessageList g tb
      = some { chatId := chatId, threadId := MAIN_THREAD_ID, type := MLType.thread }) :
    selectCurrentMessageList (forwardedPostStep chatId canDelete curTid tabId g msg) tb
      = some { chatId := chatId, threadId := MAIN_THREAD_ID, type := MLType.thread } := by
  unfold forwardedPostStep
  cases msg.forwardInfo with
  | none => exact h
  | some fi =>
    dsimp only
    have h2 : selectCurrentMessageList
        (if (canDelete && (match msg.id with
          | some mid => decide (curTid = some (Int.ofNat mid))
          | none => false)) = true then
          updateCurrentMessageList g (some chatId) MAIN_THREAD_ID MLType.thread false false
            tabId
        else g) tb
        = some { chatId := chatId, threadId := MAIN_THREAD_ID, type := MLType.thread } := by
      by_cases hb : (canDelete && (match msg.id with
          | some mid => decide (curTid = some (Int.ofNat mid))
          | none => false)) = true
      · rw [if_pos hb]
        by_cases ht : tb = tabId
        · subst ht
          exact selectCurrentMessageList_updateCurrentMessageList_self g chatId
            MAIN_THREAD_ID MLType.thread false tb
        · rw [selectCurrentMessageList_updateCurrentMessageList_ne _ _ _ _ _ _ _ _ ht]
          exact h
      · rw [if_neg hb]
        exact h
    by_cases ho : (fi.fromChatId.bind (fun oc2 => fi.fromMessageId.bind
        (fun om2 => selectChatMessage g oc2 om2))).isSome = true
    · rw [if_pos ho]
      rw [selectCurrentMessageList_congr_byTabId _ _ (updateThread_byTabId _ _ _ _) tb]
      exact h2
    · rw [if_neg ho]
      exact h2

theorem selectCurrentMessageList_fps_ne (chatId : String) (canDelete : Bool)
    (curTid : Option Int) (tabId : Nat) (g : GlobalState) (msg : ApiMessage) (tb : Nat)
    (hne : tb ≠ tabId) :
    selectCurrentMessageList (forwardedPostStep chatId canDelete curTid tabId g msg) tb
      = selectCurrentMessageList g tb := by
  unfold forwardedPostStep
  cases msg.forwardInfo with
  | none => rfl
  | some fi =>
    dsimp only
    have h2 : selectCurrentMessageList
        (if (canDelete && (match msg.id with
          | some mid => decide (curTid = some (Int.ofNat mid))
          | none => false)) = true then
          updateCurrentMessageList g (some chatId) MAIN_THREAD_ID MLType.thread false false
            tabId
        else g) tb = selectCurrentMessageList g tb := by
      by_cases hb : (canDelete && (match msg.id with
          | some mid => decide (curTid = some (Int.ofNat mid))
          | none => false)) = true
      · rw [if_pos hb]
        exact selectCurrentMessageList_updateCurrentMessageList_ne _ _ _ _ _ _ _ _ hne
      · rw [if_neg hb]
    by_cases ho : (fi.fromChatId.bind (fun oc2 => fi.fromMessageId.bind
        (fun om2 => selectChatMessage g oc2 om2))).isSome = true
    · rw [if_pos ho]
      rw [selectCurrentMessageList_congr_byTabId _ _ (updateThread_byTabId _ _ _ _) tb]
      exact h2
    · rw [if_neg ho]
      exact h2

theorem fpsFold_keeps_target (chatId : String) (canDelete : Bool) (curTid : Option Int)
    (tabId : Nat) :
    ∀ (posts : List ApiMessage) (g : GlobalState) (tb : Nat),
    selectCurrentMessageList g tb
        = some { chatId := chatId, threadId := MAIN_THREAD_ID, type := MLType.thread } →
    selectCurrentMessageList
        (posts.foldl (forwardedPostStep chatId canDelete curTid tabId) g) tb
      = some { chatId := chatId, threadId := MAIN_THREAD_ID, type := MLType.thread } := by
  intro posts
  induction posts with
  | nil => intro g tb h; exact h
  | cons q rest ih =>
    intro g tb h
    simp only [List.foldl_cons]
    exact ih _ tb (fps_keeps_target _ _ _ _ _ _ _ h)

theorem fpsFold_ne (chatId : String) (canDelete : Bool) (curTid : Option Int) (tabId : Nat)
    (tb : Nat) (hne : tb ≠ tabId) :
    ∀ (posts : List ApiMessage) (g : GlobalState),
    selectCurrentMessageList
        (posts.foldl (forwardedPostStep chatId canDelete curTid tabId) g) tb
      = selectCurrentMessageList g tb := by
  intro posts
  induction posts with
  | nil => intro g; rfl
  | cons q rest ih =>
    intro g
    simp only [List.foldl_cons]
    rw [ih, selectCurrentMessageList_fps_ne _ _ _ _ _ _ _ hne]

theorem fts_keeps_target (chatId : String) (posts : List ApiMessage) (g : GlobalState)
    (t0 tb : Nat)
    (h : selectCurrentMessageList g tb
      = some { chatId := chatId, threadId := MAIN_THREAD_ID, type := MLType.thread }) :
    selectCurrentMessageList (forwardedTabStep chatId posts g t0) tb
      = some { chatId := chatId, threadId := MAIN_THREAD_ID, type := MLType.thread } := by
  unfold forwardedTabStep
  exact fpsFold_keeps_target chatId _ _ t0 posts g tb h

theorem ftsFold_keeps_target (chatId : String) (posts : List ApiMessage) (tb : Nat) :
    ∀ (tabs : List Nat) (g : GlobalState),
    selectCurrentMessageList g tb
        = some { chatId := chatId, threadId := MAIN_THREAD_ID, type := MLType.thread } →
    selectCurrentMessageList (tabs.foldl (forwardedTabStep chatId posts) g) tb
      = some { chatId := chatId, threadId := MAIN_THREAD_ID, type := MLType.thread } := by
  intro tabs
  induction tabs with
  | nil => intro g h; exact h
  | cons t0 rest ih =>
    intro g h
    simp only [List.foldl_cons]
    exact ih _ (fts_keeps_target _ _ _ _ _ h)

theorem selectCurrentMessageList_fts_ne (chatId : String) (posts : List ApiMessage)
    (g : GlobalState) (tabId tb : Nat) (h : tb ≠ tabId) :
    selectCurrentMessageList (forwardedTabStep chatId posts g tabId) tb
      = selectCurrentMessageList g tb := by
  unfold forwardedTabStep
  exact fpsFold_ne chatId _ _ tabId tb h posts g

theorem fpsFold_fires (chatId : String) (tb : Nat) (d : Nat) (P : ApiMessage)
    (fi : ApiForwardInfo) (hPid : P.id = some d) (hfi : P.forwardInfo = some fi) :
    ∀ (posts : List ApiMessage) (g : GlobalState), P ∈ posts →
    selectCurrentMessageList
        (posts.foldl (forwardedPostStep chatId true (some (Int.ofNat d)) tb) g) tb
      = some { chatId := chatId, threadId := MAIN_THREAD_ID, type := MLType.thread } := by
  intro posts
  induction posts with
  | nil =>
    intro g hmem
    simp at hmem
  | cons q rest ih =>
    intro g hmem
    simp only [List.foldl_cons]
    rcases List.mem_cons.mp hmem with hq | hq
    · have hstep : selectCurrentMessageList
          (forwardedPostStep chatId true (some (Int.ofNat d)) tb g q) tb
          = some { chatId := chatId, threadId := MAIN_THREAD_ID, type := MLType.thread } := by
        rw [← hq]
        unfold forwardedPostStep
        rw [hfi]
        dsimp only
        rw [hPid]
        dsimp only
        have hcond : (true && decide ((some (Int.ofNat d) : Option Int)
            = some (Int.ofNat d))) = true := by simp
        rw [if_pos hcond]
        by_cases ho : (fi.fromChatId.bind (fun oc2 => fi.fromMessageId.bind
            (fun om2 => selectChatMessage g oc2 om2))).isSome = true
        · rw [if_pos ho]
          rw [selectCurrentMessageList_congr_byTabId _ _ (updateThread_byTabId _ _ _ _) tb]
          exact selectCurrentMessageList_updateCurrentMessageList_self g chatId
            MAIN_THREAD_ID MLType.thread false tb
        · rw [if_neg ho]
          exact selectCurrentMessageList_updateCurrentMessageList_self g chatId
            MAIN_THREAD_ID MLType.thread false tb
      exact fpsFold_keeps_target chatId true (some (Int.ofNat d)) tb rest _ tb hstep
    · exact ih _ hq

theorem fts_fires (chatId : String) (posts : List ApiMessage) (g : GlobalState) (tb : Nat)
    (d : Nat) (P : ApiMessage) (fi : ApiForwardInfo) (hPin : P ∈ posts)
    (hPid : P.id = some d) (hfi : P.forwardInfo = some fi)
    (hcur : selectCurrentMessageList g tb
      = some { chatId := chatId, threadId := Int.ofNat d, type := MLType.thread }) :
    selectCurrentMessageList (forwardedTabStep chatId posts g tb) tb
      = some { chatId := chatId, threadId := MAIN_THREAD_ID, type := MLType.thread } := by
  unfold forwardedTabStep
  rw [hcur]
  dsimp only
  have hcd : (decide (chatId = chatId) && decide (MLType.thread = MLType.thread)) = true := by
    simp
  rw [hcd]
  exact fpsFold_fires chatId tb d P fi hPid hfi posts g hPin

theorem ftsFold_resets (chatId : String) (posts : List ApiMessage) (tb : Nat) (d : Nat)
    (P : ApiMessage) (fi : ApiForwardInfo) (hPid : P.id = some d)
    (hfi : P.forwardInfo = some fi) (hPin : P ∈ posts) :
    ∀ (tabs : List Nat) (g : GlobalState), tb ∈ tabs →
    selectCurrentMessageList g tb
        = some { chatId := chatId, threadId := Int.ofNat d, type := MLType.thread } →
    selectCurrentMessageList (tabs.foldl (forwardedTabStep chatId posts) g) tb
      = some { chatId := chatId, threadId := MAIN_THREAD_ID, type := MLType.thread } := by
  intro tabs
  induction tabs with
  | nil =>
    intro g hmem
    simp at hmem
  | cons t0 rest ih =>
    intro g hmem hcur
    simp only [List.foldl_cons]
    by_cases ht : t0 = tb
    · subst ht
      have h1 := fts_fires chatId posts g t0 d P fi hPin hPid hfi hcur
      exact ftsFold_keeps_target chatId posts t0 rest _ h1
    · rcases List.mem_cons.mp hmem with h' | h'
      · exact absurd h'.symm ht
      · have hkeep : selectCurrentMessageList (forwardedTabStep chatId posts g t0) tb
            = some { chatId := chatId, threadId := Int.ofNat d, type := MLType.thread } := by
          rw [selectCurrentMessageList_fts_ne chatId posts g t0 tb (fun he => ht he.symm)]
          exact hcur
        exact ih _ h' hkeep

/-- Forward metadata of the C6 counterexample post. -/
def fiC6 : ApiForwardInfo :=
  { isLinkedChannelPost := some true, fromChatId := some "o", fromMessageId := some 7
  , channelPostId := none }

/-- The C6 counterexample message: a linked forwarded channel post whose
    origin post is not in the store. -/
def msgC6 : ApiMessage := { emptyMessage with id := some 1, forwardInfo := some fiC6 }

/-- Tab state of the C6 counterexample. -/
def tabC6 : TabState :=
  { id := 0, messageLists := [], tabThreads := [], selectedMessages := none }

/-- The C6 counterexample state: the origin chat carries a cached comments
    thread record but no origin message. -/
def gC6 : GlobalState :=
  { messages := { byChatId :=
      [ ("c", { byId := [(1, msgC6)], threadsById := [] })
      , ("o", { byId := [], threadsById := [(7, { emptyThread with listedIds := some [3] })] })
      ] }
  , scheduledMessages := { byChatId := [] }
  , byTabId := [(0, tabC6)] }

/-- C6: the claim that deleting a linked forwarded channel post always
    removes the cached thread record keyed by the post's origin chat and
    origin message fails on the code: the removal is guarded by the origin
    post being present in the store, so when the origin post is absent the
    cached record survives the deletion. -/
theorem c6_counterexample :
    selectChatMessages gC6 "c" = some [(1, msgC6)]
    ∧ isLinkedPost msgC6 = true
    ∧ (selectThreadRec (deleteChatMessages gC6 "c" [1]) "o" 7).isSome = true := by
  refine ⟨by decide, by decide, by decide⟩

/-- C6 (amended): when the deletion batch contains a message stored under
    its own id that is a linked forwarded channel post, the tab records are
    keyed by their own ids and at least one tab is open, and the post's
    origin post is present in the store, then deleteChatMessages resets
    every tab whose active view is the thread of the post's chat keyed by
    the post's id (with list type thread) to the main thread, and removes
    the cached thread record keyed by the origin chat id and origin message
    id; with the origin post absent from the store the cached record is
    kept (the removal sits behind the origin-post guard). -/
theorem c6_amended (g : GlobalState) (chatId : String) (messageIds0 : List Nat)
    (byId : List (Nat × ApiMessage)) (d : Nat) (P : ApiMessage) (fi : ApiForwardInfo)
    (oc : String) (om : Nat)
    (hby : selectChatMessages g chatId = some byId)
    (hwk : TabsWellKeyed g)
    (hd : d ∈ messageIds0)
    (hP : alookup byId d = some P)
    (hPid : P.id = some d)
    (hfi : P.forwardInfo = some fi)
    (hlinked : truthyBool fi.isLinkedChannelPost = true)
    (hoc : fi.fromChatId = some oc)
    (hom : fi.fromMessageId = some om)
    (horigin : (selectChatMessage g oc om).isSome = true)
    (htabs : g.byTabId ≠ []) :
    (∀ tab : Nat,
      selectCurrentMessageList g tab
          = some { chatId := chatId, threadId := Int.ofNat d, type := MLType.thread } →
      selectCurrentMessageList (deleteChatMessages g chatId messageIds0) tab
          = some { chatId := chatId, threadId := MAIN_THREAD_ID, type := MLType.thread })
    ∧ selectThreadRec (deleteChatMessages g chatId messageIds0) oc (Int.ofNat om) = none := by
  unfold deleteChatMessages
  rw [hby]
  dsimp only
  rw [collectFold_snd]
  dsimp only
  have hPposts : P ∈ deletedForwardedPostsOf byId (orderHistoryIds messageIds0) := by
    unfold deletedForwardedPostsOf
    apply List.mem_filter.mpr
    refine ⟨?_, ?_⟩
    · exact List.mem_filterMap.mpr
        ⟨d, List.mem_dedup.mpr (mem_orderHistoryIds.mpr hd), hP⟩
    · unfold isLinkedPost
      rw [hfi]
      exact hlinked
  have hne : ¬ ((deletedForwardedPostsOf byId (orderHistoryIds messageIds0)).isEmpty
      = true) := by
    cases hcase : deletedForwardedPostsOf byId (orderHistoryIds messageIds0) with
    | nil =>
      rw [hcase] at hPposts
      simp at hPposts
    | cons a l => simp
  rw [if_neg hne]
  have hnodup : ((((orderHistoryIds messageIds0).foldl (collectThreadsStep byId chatId)
      ([(MAIN_THREAD_ID, orderHistoryIds messageIds0)], g)).1.map Prod.fst)).Nodup :=
    collectFold_keysNodup byId chatId (orderHistoryIds messageIds0)
      ([(MAIN_THREAD_ID, orderHistoryIds messageIds0)], g) (by simp)
  have hwk2 : TabsWellKeyed (((orderHistoryIds messageIds0).foldl
      (collectThreadsStep byId chatId)
      ([(MAIN_THREAD_ID, orderHistoryIds messageIds0)], g)).1.foldl
        (threadDeleteStep chatId (orderHistoryIds messageIds0)) g) :=
    (threadFold_spec chatId (orderHistoryIds messageIds0) _ g hnodup hwk).2.2
  have hkeys2 := threadFold_byTabId_keys chatId (orderHistoryIds messageIds0)
    ((orderHistoryIds messageIds0).foldl (collectThreadsStep byId chatId)
      ([(MAIN_THREAD_ID, orderHistoryIds messageIds0)], g)).1 g
  refine ⟨?_, ?_⟩
  · intro tab hcur
    have htabg : tab ∈ g.byTabId.map Prod.fst := by
      cases hx : alookup g.byTabId tab with
      | none =>
        exfalso
        unfold selectCurrentMessageList selectTabStateD at hcur
        rw [hx] at hcur
        simp [defaultTabState] at hcur
      | some ts => exact List.mem_map_of_mem Prod.fst (alookup_mem hx)
    have htabmem : tab ∈ tabIdsOf (((orderHistoryIds messageIds0).foldl
        (collectThreadsStep byId chatId)
        ([(MAIN_THREAD_ID, orderHistoryIds messageIds0)], g)).1.foldl
          (threadDeleteStep chatId (orderHistoryIds messageIds0)) g) := by
      rw [tabIdsOf_eq_keys _ hwk2, hkeys2]
      exact htabg
    have hcml2 := selectCurrentMessageList_threadFold chatId (orderHistoryIds messageIds0)
      ((orderHistoryIds messageIds0).foldl (collectThreadsStep byId chatId)
        ([(MAIN_THREAD_ID, orderHistoryIds messageIds0)], g)).1 g tab
    exact ftsFold_resets chatId
      (deletedForwardedPostsOf byId (orderHistoryIds messageIds0)) tab d P fi hPid hfi
      hPposts _ _ htabmem (by rw [hcml2]; exact hcur)
  · rw [selectThreadRec_replaceChatMessages]
    have htabs2 : tabIdsOf (((orderHistoryIds messageIds0).foldl
        (collectThreadsStep byId chatId)
        ([(MAIN_THREAD_ID, orderHistoryIds messageIds0)], g)).1.foldl
          (threadDeleteStep chatId (orderHistoryIds messageIds0)) g) ≠ [] := by
      intro he
      apply htabs
      have h1 : (((orderHistoryIds messageIds0).foldl (collectThreadsStep byId chatId)
          ([(MAIN_THREAD_ID, orderHistoryIds messageIds0)], g)).1.foldl
            (threadDeleteStep chatId (orderHistoryIds messageIds0)) g).byTabId = [] :=
        List.map_eq_nil.mp he
      have h2 := hkeys2
      rw [h1] at h2
      exact List.map_eq_nil.mp h2.symm
    exact ftsFold_removes chatId
      (deletedForwardedPostsOf byId (orderHistoryIds messageIds0)) oc om P fi g hPposts
      hfi hoc hom horigin _ _ htabs2
      (fun c k => selectChatMessage_threadFold chatId (orderHistoryIds messageIds0) _ g c k)

/-- Forward metadata of the C6 witness post. -/
def fiW6 : ApiForwardInfo :=
  { isLinkedChannelPost := some true, fromChatId := some "o", fromMessageId := some 7
  , channelPostId := none }

/-- The C6 witness message: a linked forwarded channel post whose origin
    post is stored. -/
def msgW6 : ApiMessage := { emptyMessage with id := some 1, forwardInfo := some fiW6 }

/-- Tab state of the C6 witness: the active view is the comments thread of
    the post. -/
def tabW6 : TabState :=
  { id := 0
  , messageLists := [{ chatId := "c", threadId := Int.ofNat 1, type := MLType.thread }]
  , tabThreads := [], selectedMessages := none }

/-- The C6 witness state. -/
def gW6 : GlobalState :=
  { messages := { byChatId :=
      [ ("c", { byId := [(1, msgW6)], threadsById := [] })
      , ("o", { byId := [(7, { emptyMessage with id := some 7 })]
              , threadsById := [(7, { emptyThread with listedIds := some [3] })] })
      ] }
  , scheduledMessages := { byChatId := [] }
  , byTabId := [(0, tabW6)] }

/-- C6 witness: deleting the linked forwarded post 1 resets the tab whose
    active view is its comments thread to the main thread and drops the
    cached thread record of the origin chat and message. -/
theorem c6_witness :
    selectCurrentMessageList (deleteChatMessages gW6 "c" [1]) 0
        = some { chatId := "c", threadId := MAIN_THREAD_ID, type := MLType.thread }
    ∧ selectThreadRec (deleteChatMessages gW6 "c" [1]) "o" (Int.ofNat 7) = none := by
  have h := c6_amended gW6 "c" [1] [(1, msgW6)] 1 msgW6 fiW6 "o" 7 (by decide) (by decide)
    (by decide) (by decide) (by decide) (by decide) (by decide) (by decide) (by decide)
    (by decide) (by decide)
  exact ⟨h.1 0 (by decide), h.2⟩
